import Mathlib

/-!
# A shallow embedding of the user-level thread library (`src/src/thread.c`)

The scheduler's global variables (`running_thread`, `threads`, `rq`,
`wait_queues`), the heap-allocated user wait queues and the simulated
interrupt flag are gathered in one record, `Sched`.  Every C function of
`thread.c` becomes a Lean function on that record.

Modelling conventions:

* a `TCB *` always points into the static table `threads`, so it is an index
  `Slot = Fin MAX_THREADS`; a linked queue of nodes is the list of the TCB
  pointers its nodes hold, head first;
* `Tid`, `ExitCode` and every `int` are mathematical integers (no arithmetic
  is performed on them, so no overflow can occur);
* the results of the platform calls `malloc`, `getcontext` and `setcontext`
  are inputs of the model (`Env`);
* a context captured by `getcontext` is represented by the library frames
  that are live on the suspended thread's stack (`Frame`), together with the
  values their local variables hold in memory;
* a call that hands the CPU to another thread ends in `Outcome.switched`; the
  state returned is the state at the moment of the switch.
-/

namespace ThreadLib

/-! ## Constants and enums of `thread.h` and `interrupts.h` -/

abbrev MAX_THREADS : Nat := 256

def THREAD_STACK_SIZE : Nat := 32768

def ERROR_TID_INVALID : Int := -1
def ERROR_THREAD_BAD : Int := -2
def ERROR_SYS_THREAD : Int := -3
def ERROR_SYS_MEM : Int := -4
def ERROR_OTHER : Int := -5

def EXIT_CODE_NORMAL : Int := 0
def EXIT_CODE_FATAL : Int := -1
def EXIT_CODE_KILL : Int := -999

/-- The `State` enum of `thread.c`. -/
inductive State
  | READY
  | RUNNING
  | EXITED
  | EMPTY
  | KILLED
  | BLOCKED
  deriving DecidableEq, Repr

/-- A pointer to a TCB: an index into the static table `threads`. -/
abbrev Slot := Fin MAX_THREADS

/-- A library frame that is live on the stack of a suspended thread, with the
values its locals hold in memory.  `enabled` is the local of the same name. -/
inductive Frame
  | yield (id : Int) (enabled : Bool)
  | yieldTo (tid : Int) (enabled : Bool)
  | sleep (id : Int) (enabled : Bool)
  | join (tid : Int) (hasOut : Bool) (enabled : Bool)
  deriving DecidableEq, Repr

/-- The `ucontext_t` of a TCB, as far as the scheduler depends on it. -/
inductive Context
  /-- Never written. -/
  | blank
  /-- Captured by `ThreadInit` in the bootstrap thread. -/
  | boot
  /-- Built by `ThreadCreate`: the four registers it stores, with the
  instruction pointer at `thread_stub`. -/
  | entry (rsp rbp rdi rsi : Nat)
  /-- Captured by `getcontext` inside a library call: the library frames on
  the thread's stack, innermost first. -/
  | saved (frames : List Frame)
  deriving DecidableEq, Repr

/-- The thread control block. `sp = none` is the null pointer. -/
structure TCB where
  thread_id : Int
  context : Context
  state : State
  sp : Option Nat
  exit_code : Int
  deriving DecidableEq, Repr

/-- A `WaitQueue *` that a public operation can receive: the address of one of
the per-thread queues `wait_queues[i]`, or of a queue allocated by
`WaitQueueCreate` (identified by its address). -/
inductive WaitQueuePtr
  | join (i : Slot)
  | user (addr : Nat)
  deriving DecidableEq, Repr

/-- A `WaitQueue *` as the queue helpers receive it: `&rq` or a wait queue. -/
inductive QueuePtr
  | rq
  | wq (w : WaitQueuePtr)
  deriving DecidableEq, Repr

/-- The global state of the library. `interrupts = true` is
`INTERRUPTS_ENABLED`. -/
structure Sched where
  running_thread : Slot
  threads : Slot → TCB
  rq : List Slot
  wait_queues : Slot → List Slot
  user_queues : Nat → List Slot
  interrupts : Bool

/-- What the platform answers during one library call. -/
structure Env where
  /-- Result of `malloc`; `none` is `NULL`. -/
  malloc : Option Nat
  /-- Return value of `getcontext`. -/
  getcontext : Int
  /-- Zero when `setcontext` transfers control (and so does not return);
  otherwise the error value it returns. -/
  setcontext : Int
  deriving DecidableEq, Repr

/-- How a library call ends for the thread that made it. -/
inductive Outcome
  /-- The call returns `v` to its caller. -/
  | ret (v : Int)
  /-- `setcontext` gave the CPU to another thread; the caller is suspended. -/
  | switched
  /-- The process was terminated by `exit(code)`. -/
  | exited (code : Int)
  /-- A null pointer was dereferenced. -/
  | fault
  deriving DecidableEq, Repr

/-! ## State accessors -/

def Sched.queue (s : Sched) : QueuePtr → List Slot
  | .rq => s.rq
  | .wq (.join i) => s.wait_queues i
  | .wq (.user a) => s.user_queues a

def Sched.setQueue (s : Sched) : QueuePtr → List Slot → Sched
  | .rq, l => { s with rq := l }
  | .wq (.join i), l => { s with wait_queues := Function.update s.wait_queues i l }
  | .wq (.user a), l => { s with user_queues := Function.update s.user_queues a l }

def Sched.setState (s : Sched) (t : Slot) (st : State) : Sched :=
  { s with threads := Function.update s.threads t { s.threads t with state := st } }

def Sched.setExitCode (s : Sched) (t : Slot) (c : Int) : Sched :=
  { s with threads := Function.update s.threads t { s.threads t with exit_code := c } }

def Sched.setContext (s : Sched) (t : Slot) (c : Context) : Sched :=
  { s with threads := Function.update s.threads t { s.threads t with context := c } }

/-- The slot `threads[tid]` for a `tid` that passed the range check. -/
def slotOf (tid : Int) (h : ¬ (tid < 0 ∨ tid ≥ (MAX_THREADS : Int))) : Slot :=
  ⟨tid.toNat, by omega⟩

/-! ## The interrupt collaborator -/

/-- Modelled from the spec: `InterruptsSet` of `interrupts.h` (its
implementation is not part of the sources): sets the interrupt state and
returns the state before the call. -/
def InterruptsSet (s : Sched) (b : Bool) : Bool × Sched :=
  (s.interrupts, { s with interrupts := b })

/-- Modelled from the spec: `InterruptsDisable` of `interrupts.h`: disables
interrupts and returns the state before the call. -/
def InterruptsDisable (s : Sched) : Bool × Sched :=
  InterruptsSet s false

/-- Modelled from the spec: `InterruptsEnable` of `interrupts.h`: enables
interrupts and returns the state before the call. -/
def InterruptsEnable (s : Sched) : Bool × Sched :=
  InterruptsSet s true

/-! ## Queue helpers -/

/-- The walk of `insert_into_queue`: a new node holding `t` is linked after
the last node (or becomes the head of an empty queue). -/
def linkAtTail (t : Slot) : List Slot → List Slot
  | [] => [t]
  | x :: rest => x :: linkAtTail t rest

def insert_into_queue (s : Sched) (q : QueuePtr) (t : Slot) : Sched :=
  let (enabled, s1) := InterruptsDisable s
  (InterruptsSet (s1.setQueue q (linkAtTail t (s1.queue q))) enabled).2

/-- `extract_from_queue`; `none` when the queue is empty (the C code then
dereferences the null `head`). -/
def extract_from_queue (s : Sched) (q : QueuePtr) : Option (Slot × Sched) :=
  let (enabled, s1) := InterruptsDisable s
  match s1.queue q with
  | [] => none
  | t :: rest => some (t, (InterruptsSet (s1.setQueue q rest) enabled).2)

/-- The search of `remove_from_queue`: unlink the first node whose TCB has
thread id `tid`; `none` when no node has it. -/
def unlinkTid (threads : Slot → TCB) (tid : Int) : List Slot → Option (List Slot)
  | [] => none
  | x :: rest =>
    if (threads x).thread_id = tid then some rest
    else (unlinkTid threads tid rest).map (fun l => x :: l)

/-- `remove_from_queue`: the interrupt state is restored only on the two
paths that unlink a node. -/
def remove_from_queue (s : Sched) (q : QueuePtr) (tid : Int) : Sched :=
  let (enabled, s1) := InterruptsDisable s
  match unlinkTid s1.threads tid (s1.queue q) with
  | some l => (InterruptsSet (s1.setQueue q l) enabled).2
  | none => s1

/-- One iteration of the loop of `remove_from_all_wait_queues`. -/
def removeFromWaitQueue (tid : Int) (s : Sched) (i : Slot) : Sched :=
  if s.wait_queues i ≠ [] then remove_from_queue s (.wq (.join i)) tid else s

def remove_from_all_wait_queues (s : Sched) (tid : Int) : Sched :=
  let (enabled, s1) := InterruptsDisable s
  let s2 := (List.finRange MAX_THREADS).foldl (removeFromWaitQueue tid) s1
  (InterruptsSet s2 enabled).2

/-- One iteration of the loop of `free_exited_threads` (the `free` of the
stack leaves the `sp` field as it is). -/
def reapSlot (s : Sched) (i : Slot) : Sched :=
  if (s.threads i).state = State.EXITED ∨ (s.threads i).state = State.KILLED then
    if s.running_thread ≠ i then s.setState i State.EMPTY else s
  else s

def free_exited_threads (s : Sched) : Sched :=
  let (enabled, s1) := InterruptsDisable s
  let s2 := (List.finRange MAX_THREADS).foldl reapSlot s1
  (InterruptsSet s2 enabled).2

/-! ## Public operations -/

/-- `ThreadInit`. -/
def ThreadInit (s : Sched) (env : Env) : Sched × Int :=
  let (enabled, s1) := InterruptsDisable s
  let s2 : Sched := { s1 with
    threads := Function.update s1.threads 0
      { s1.threads 0 with thread_id := 0, state := State.RUNNING, sp := none, exit_code := 0 } }
  let s3 : Sched := { s2 with wait_queues := Function.update s2.wait_queues 0 [] }
  let s4 : Sched := { s3 with rq := [] }
  let s5 := (List.finRange MAX_THREADS).foldl
    (fun (acc : Sched) (i : Slot) => if 1 ≤ i.val then acc.setState i State.EMPTY else acc) s4
  if env.getcontext ≠ 0 then ((InterruptsSet s5 enabled).2, ERROR_OTHER)
  else
    let s6 := s5.setContext 0 Context.boot
    let s7 : Sched := { s6 with running_thread := 0 }
    ((InterruptsSet s7 enabled).2, 0)

/-- `ThreadId`. -/
def ThreadId (s : Sched) : Int :=
  (s.threads s.running_thread).thread_id

/-- The `while` loop of `ThreadCreate`: starting at `i`, the first index that
is `MAX_THREADS` or whose slot is `EMPTY`, `EXITED` or `KILLED`. -/
def findSlot (threads : Slot → TCB) (i : Nat) : Nat :=
  if h : i < MAX_THREADS then
    if (threads ⟨i, h⟩).state ≠ State.EMPTY ∧ (threads ⟨i, h⟩).state ≠ State.EXITED
        ∧ (threads ⟨i, h⟩).state ≠ State.KILLED then
      findSlot threads (i + 1)
    else i
  else i
termination_by MAX_THREADS - i

/-- `ThreadCreate`; `f` and `arg` are the two pointers as numbers. -/
def ThreadCreate (s : Sched) (env : Env) (f arg : Nat) : Sched × Int :=
  let (enabled, s0) := InterruptsDisable s
  let s1 := free_exited_threads s0
  let i := findSlot s1.threads 0
  if h : i < MAX_THREADS then
    let t : Slot := ⟨i, h⟩
    match env.malloc with
    | none => ((InterruptsSet s1 enabled).2, ERROR_SYS_MEM)
    | some sp =>
      if env.getcontext ≠ 0 then ((InterruptsSet s1 enabled).2, ERROR_OTHER)
      else
        let s2 : Sched := { s1 with
          threads := Function.update s1.threads t
            { s1.threads t with thread_id := (i : Int), state := State.READY, sp := some sp } }
        let s3 : Sched := { s2 with wait_queues := Function.update s2.wait_queues t [] }
        let s4 := s3.setContext t (Context.entry (sp + THREAD_STACK_SIZE - 8) sp f arg)
        let s5 := insert_into_queue s4 .rq t
        ((InterruptsSet s5 enabled).2, (i : Int))
  else ((InterruptsSet s1 enabled).2, ERROR_SYS_THREAD)

/-- `ThreadWakeNext`. -/
def ThreadWakeNext (s : Sched) (q : WaitQueuePtr) : Sched × Outcome :=
  let (enabled, s1) := InterruptsDisable s
  if s1.queue (.wq q) = [] then ((InterruptsSet s1 enabled).2, .ret 0)
  else
    match extract_from_queue s1 (.wq q) with
    | none => (s1, .fault)
    | some (next_thread, s2) =>
      let s3 := insert_into_queue s2 .rq next_thread
      let s4 := s3.setState next_thread State.READY
      ((InterruptsSet s4 enabled).2, .ret 1)

/-- The `while (queue->head != NULL)` loop of `ThreadWakeAll`, run for at most
`fuel` iterations; `none` when the fuel does not suffice or the extraction
faults.  Every iteration removes one node from `queue` and touches no other
wait queue, so the length of `queue` on entry is enough fuel. -/
def wakeAllLoop (q : WaitQueuePtr) : Nat → Sched → Int → Option (Sched × Int)
  | 0, s, count => if s.queue (.wq q) = [] then some (s, count) else none
  | fuel + 1, s, count =>
    if s.queue (.wq q) = [] then some (s, count)
    else
      match extract_from_queue s (.wq q) with
      | none => none
      | some (curr_thread, s1) =>
        let s2 := insert_into_queue s1 .rq curr_thread
        let s3 := s2.setState curr_thread State.READY
        wakeAllLoop q fuel s3 (count + 1)

/-- `ThreadWakeAll`. -/
def ThreadWakeAll (s : Sched) (q : WaitQueuePtr) : Sched × Outcome :=
  let (enabled, s1) := InterruptsDisable s
  if s1.queue (.wq q) = [] then ((InterruptsSet s1 enabled).2, .ret 0)
  else
    match wakeAllLoop q (s1.queue (.wq q)).length s1 0 with
    | none => (s1, .fault)
    | some (s2, count) => ((InterruptsSet s2 enabled).2, .ret count)

/-- `ThreadExit`. -/
def ThreadExit (s : Sched) (env : Env) (exit_code : Int) : Sched × Outcome :=
  let (enabled, s0) := InterruptsDisable s
  let s1 := s0.setExitCode s0.running_thread exit_code
  let self_id := (s1.threads s1.running_thread).thread_id
  if h : self_id < 0 ∨ self_id ≥ (MAX_THREADS : Int) then (s1, .fault)
  else
    match ThreadWakeAll s1 (.join (slotOf self_id h)) with
    | (s2, .fault) => (s2, .fault)
    | (s2, _) =>
      let s3 := remove_from_all_wait_queues s2 (s2.threads s2.running_thread).thread_id
      let s4 := free_exited_threads s3
      if s4.rq = [] then
        let s5 := s4.setState s4.running_thread State.EXITED
        let s6 := s5.setExitCode s5.running_thread exit_code
        ((InterruptsSet s6 enabled).2, .exited exit_code)
      else
        let s5 := s4.setState s4.running_thread State.EXITED
        match extract_from_queue s5 .rq with
        | none => (s5, .fault)
        | some (next_thread, s6) =>
          let s7 := s6.setState next_thread State.RUNNING
          let s8 : Sched := { s7 with running_thread := next_thread }
          if env.setcontext = 0 then (s8, .switched)
          else
            let s9 := s8.setExitCode s8.running_thread EXIT_CODE_FATAL
            ((InterruptsSet s9 enabled).2, .exited EXIT_CODE_FATAL)

/-- `ThreadKill`. -/
def ThreadKill (s : Sched) (tid : Int) : Sched × Outcome :=
  let (enabled, s1) := InterruptsDisable s
  if h : tid < 0 ∨ tid ≥ (MAX_THREADS : Int) then
    ((InterruptsSet s1 enabled).2, .ret ERROR_TID_INVALID)
  else if tid = (s1.threads s1.running_thread).thread_id then
    ((InterruptsSet s1 enabled).2, .ret ERROR_THREAD_BAD)
  else if (s1.threads (slotOf tid h)).state = State.EMPTY
      ∨ (s1.threads (slotOf tid h)).state = State.KILLED
      ∨ (s1.threads (slotOf tid h)).state = State.EXITED then
    ((InterruptsSet s1 enabled).2, .ret ERROR_SYS_THREAD)
  else
    let s2 := s1.setState (slotOf tid h) State.KILLED
    let s3 := s2.setExitCode (slotOf tid h) EXIT_CODE_KILL
    let s4 := remove_from_queue s3 .rq tid
    let s5 := remove_from_all_wait_queues s4 tid
    match ThreadWakeAll s5 (.join (slotOf tid h)) with
    | (s6, .fault) => (s6, .fault)
    | (s6, _) => ((InterruptsSet s6 enabled).2, .ret tid)

/-- `ThreadYield`.  The local `id` lives in the caller's stack frame: the
store `id = next_thread->thread_id` made before `setcontext` is what the
resumed call reads back when it executes `return id`. -/
def ThreadYield (s : Sched) (env : Env) : Sched × Outcome :=
  let (enabled, s0) := InterruptsDisable s
  let s1 := free_exited_threads s0
  if s1.rq = [] then
    ((InterruptsSet s1 enabled).2, .ret (s1.threads s1.running_thread).thread_id)
  else
    let id := (s1.threads s1.running_thread).thread_id
    if env.getcontext ≠ 0 then ((InterruptsSet s1 enabled).2, .ret ERROR_THREAD_BAD)
    else
      let self := s1.running_thread
      let s2 := s1.setContext self (.saved [.yield id enabled])
      let s3 := s2.setState self State.READY
      let s4 := insert_into_queue s3 .rq self
      match extract_from_queue s4 .rq with
      | none => (s4, .fault)
      | some (next_thread, s5) =>
        let id := (s5.threads next_thread).thread_id
        let s6 := s5.setContext self (.saved [.yield id enabled])
        let s7 := s6.setState next_thread State.RUNNING
        let s8 : Sched := { s7 with running_thread := next_thread }
        if env.setcontext = 0 then (s8, .switched)
        else ((InterruptsSet s8 enabled).2, .ret id)

/-- `ThreadYieldTo`. -/
def ThreadYieldTo (s : Sched) (env : Env) (tid : Int) : Sched × Outcome :=
  let (enabled, s0) := InterruptsDisable s
  let s1 := free_exited_threads s0
  if h : tid < 0 ∨ tid ≥ (MAX_THREADS : Int) then
    ((InterruptsSet s1 enabled).2, .ret ERROR_TID_INVALID)
  else if tid = (s1.threads s1.running_thread).thread_id then
    ((InterruptsSet s1 enabled).2, .ret tid)
  else if (s1.threads (slotOf tid h)).state ≠ State.READY then
    ((InterruptsSet s1 enabled).2, .ret ERROR_THREAD_BAD)
  else if env.getcontext ≠ 0 then
    ((InterruptsSet s1 enabled).2, .ret ERROR_THREAD_BAD)
  else
    let self := s1.running_thread
    let s2 := s1.setContext self (.saved [.yieldTo tid enabled])
    let s3 := s2.setState self State.READY
    let s4 := insert_into_queue s3 .rq self
    let s5 := remove_from_queue s4 .rq tid
    let s6 := s5.setState (slotOf tid h) State.RUNNING
    let s7 : Sched := { s6 with running_thread := slotOf tid h }
    if env.setcontext = 0 then (s7, .switched)
    else ((InterruptsSet s7 enabled).2, .ret tid)

/-- `WaitQueueCreate`: the result of `malloc` is dereferenced unchecked. -/
def WaitQueueCreate (s : Sched) (env : Env) : Sched × Option Nat :=
  let (enabled, s1) := InterruptsDisable s
  match env.malloc with
  | none => (s1, none)
  | some addr =>
    let s2 := s1.setQueue (.wq (.user addr)) []
    ((InterruptsSet s2 enabled).2, some addr)

/-- `WaitQueueDestroy` on the queue allocated at `addr`. -/
def WaitQueueDestroy (s : Sched) (addr : Nat) : Sched × Int :=
  let (enabled, s1) := InterruptsDisable s
  if s1.queue (.wq (.user addr)) ≠ [] then ((InterruptsSet s1 enabled).2, ERROR_OTHER)
  else ((InterruptsSet s1 enabled).2, 0)

/-- `ThreadSleep`. -/
def ThreadSleep (s : Sched) (env : Env) (q : WaitQueuePtr) : Sched × Outcome :=
  let (enabled, s0) := InterruptsDisable s
  let s1 := free_exited_threads s0
  match s1.rq with
  | [] => ((InterruptsSet s1 enabled).2, .ret ERROR_SYS_THREAD)
  | head :: _ =>
    let id := (s1.threads head).thread_id
    if env.getcontext ≠ 0 then ((InterruptsSet s1 enabled).2, .ret ERROR_THREAD_BAD)
    else
      let self := s1.running_thread
      let s2 := s1.setContext self (.saved [.sleep id enabled])
      let s3 := s2.setState self State.BLOCKED
      let s4 := insert_into_queue s3 (.wq q) self
      match extract_from_queue s4 .rq with
      | none => (s4, .fault)
      | some (next_thread, s5) =>
        let id := (s5.threads next_thread).thread_id
        let s6 := s5.setContext self (.saved [.sleep id enabled])
        let s7 := s6.setState next_thread State.RUNNING
        let s8 : Sched := { s7 with running_thread := next_thread }
        if env.setcontext = 0 then (s8, .switched)
        else ((InterruptsSet s8 enabled).2, .ret id)

/-- The frame of a library function that called the one which captured the
context of `t` lies beneath it on the stack of `t`. -/
def Sched.pushOuterFrame (s : Sched) (t : Slot) (fr : Frame) : Sched :=
  match (s.threads t).context with
  | .saved frames => s.setContext t (.saved (frames ++ [fr]))
  | _ => s

/-- `ThreadJoin`.  `exit_code` is the pointer argument: `none` for `NULL`,
otherwise the integer it points to; the third component of the result is that
integer when the call ends. -/
def ThreadJoin (s : Sched) (env : Env) (tid : Int) (exit_code : Option Int) :
    Sched × Outcome × Option Int :=
  let (enabled, s1) := InterruptsDisable s
  if h : tid < 0 ∨ tid ≥ (MAX_THREADS : Int) then
    ((InterruptsSet s1 enabled).2, .ret ERROR_TID_INVALID, exit_code)
  else if (s1.threads (slotOf tid h)).state = State.EMPTY
      ∨ (s1.threads (slotOf tid h)).state = State.KILLED
      ∨ (s1.threads (slotOf tid h)).state = State.EXITED then
    ((InterruptsSet s1 enabled).2, .ret ERROR_SYS_THREAD, exit_code)
  else if tid = (s1.threads s1.running_thread).thread_id then
    ((InterruptsSet s1 enabled).2, .ret ERROR_THREAD_BAD, exit_code)
  else
    match ThreadSleep s1 env (.join (slotOf tid h)) with
    | (s2, .ret _) =>
      let out := exit_code.map (fun _ => (s2.threads (slotOf tid h)).exit_code)
      ((InterruptsSet s2 enabled).2, .ret tid, out)
    | (s2, .switched) =>
      (s2.pushOuterFrame s1.running_thread (.join tid exit_code.isSome enabled),
        .switched, exit_code)
    | (s2, o) => (s2, o, exit_code)

/-! ## Resuming a thread -/

/-- What a dispatched thread does first, up to the point where user code runs
again: the state then, the value the suspended library call returns (`none`
for a thread entering its function through `thread_stub`), and the value
stored through the `exit_code` pointer of `ThreadJoin`, if any. -/
structure Resumed where
  sched : Sched
  value : Option Int
  stored : Option Int

/-- The tail of the library call(s) suspended in the frames of a context. -/
def unwind (s : Sched) : List Frame → Option Resumed
  | [.yield id enabled] => some ⟨(InterruptsSet s enabled).2, some id, none⟩
  | [.yieldTo tid enabled] => some ⟨(InterruptsSet s enabled).2, some tid, none⟩
  | [.sleep id enabled] => some ⟨(InterruptsSet s enabled).2, some id, none⟩
  | [.sleep _ enabled, .join tid hasOut enabledJoin] =>
    let s1 := (InterruptsSet s enabled).2
    if h : tid < 0 ∨ tid ≥ (MAX_THREADS : Int) then none
    else
      let stored := if hasOut then some (s1.threads (slotOf tid h)).exit_code else none
      some ⟨(InterruptsSet s1 enabledJoin).2, some tid, stored⟩
  | _ => none

/-- The running thread continues from its saved context (the state is the one
a `setcontext` to it left behind). -/
def resume (s : Sched) : Option Resumed :=
  match (s.threads s.running_thread).context with
  | .entry _ _ _ _ => some ⟨(InterruptsEnable s).2, none, none⟩
  | .saved frames => unwind s frames
  | _ => none

/-- The end of `thread_stub`: the thread function returned. -/
def thread_stub_return (s : Sched) (env : Env) : Sched × Outcome :=
  ThreadExit s env (s.threads s.running_thread).exit_code

/-! ## Predicates and harness of the statements -/

/-- The TCB the current-running pointer refers to is not a zombie. -/
def Sched.CurrentNotZombie (s : Sched) : Prop :=
  (s.threads s.running_thread).state ≠ State.EXITED
    ∧ (s.threads s.running_thread).state ≠ State.KILLED

/-- A sequence of calls to `ThreadCreate`, one per element of `calls` (the
platform's answers and the two arguments of the call); the results are
collected in call order. -/
def createMany : List (Env × Nat × Nat) → Sched → Sched × List Int
  | [], s => (s, [])
  | c :: rest, s =>
    let r := ThreadCreate s c.1 c.2.1 c.2.2
    let rs := createMany rest r.1
    (rs.1, r.2 :: rs.2)

/-- The TCB table after the reaper ran on `s`. -/
def reapedThreads (s : Sched) : Slot → TCB := fun i =>
  if ((s.threads i).state = State.EXITED ∨ (s.threads i).state = State.KILLED)
      ∧ s.running_thread ≠ i then
    { s.threads i with state := State.EMPTY }
  else s.threads i

/-- The guard of the slot search of `ThreadCreate`: the slot is in use. -/
def State.busy (st : State) : Prop :=
  st ≠ State.EMPTY ∧ st ≠ State.EXITED ∧ st ≠ State.KILLED

/-- The TCB `ThreadCreate` leaves in the slot it allocates. -/
def createdTCB (old : TCB) (i : Nat) (sp f arg : Nat) : TCB :=
  { thread_id := (i : Int), context := Context.entry (sp + THREAD_STACK_SIZE - 8) sp f arg,
    state := State.READY, sp := some sp, exit_code := old.exit_code }

/-- The answers of a healthy platform: `malloc` returns the address `sp`,
`getcontext` succeeds and `setcontext` transfers control. -/
def Env.healthy (sp : Nat) : Env :=
  { malloc := some sp, getcontext := 0, setcontext := 0 }

/-- A concrete state: only the bootstrap thread exists, interrupts enabled. -/
def bootSched : Sched :=
  { running_thread := 0
    threads := fun i =>
      if i = 0 then
        { thread_id := 0, context := Context.boot, state := State.RUNNING, sp := none,
          exit_code := 0 }
      else
        { thread_id := 0, context := Context.blank, state := State.EMPTY, sp := none,
          exit_code := 0 }
    rq := []
    wait_queues := fun _ => []
    user_queues := fun _ => []
    interrupts := true }

/-- The TCB table `ThreadInit` leaves behind when `getcontext` succeeds. -/
def initThreads (s : Sched) : Slot → TCB := fun i =>
  if i = 0 then
    { thread_id := 0, context := Context.boot, state := State.RUNNING, sp := none,
      exit_code := 0 }
  else { s.threads i with state := State.EMPTY }

/-- Shape of the state after `k` threads were created on top of a fresh
`ThreadInit`: the bootstrap thread runs, slots `1..k` are `READY`, the slots
above are `EMPTY`. -/
def CreatedUpTo (k : Nat) (s : Sched) : Prop :=
  s.running_thread = 0 ∧ (s.threads 0).state = State.RUNNING
    ∧ (∀ i : Slot, 1 ≤ i.val → i.val ≤ k → (s.threads i).state = State.READY)
    ∧ (∀ i : Slot, k < i.val → (s.threads i).state = State.EMPTY)

/-- The TCB table after the threads of `l` were marked `READY`. -/
def markReady (l : List Slot) (threads : Slot → TCB) : Slot → TCB := fun i =>
  if i ∈ l then { threads i with state := State.READY } else threads i

/-- The state `ThreadWakeAll` leaves: the members of the wait queue are
`READY` and follow the former ready queue in their order; the wait queue is
empty. -/
def wokenAll (s : Sched) (q : WaitQueuePtr) : Sched :=
  Sched.setQueue
    { s with threads := markReady (s.queue (.wq q)) s.threads,
             rq := s.rq ++ s.queue (.wq q) }
    (.wq q) []

/-- The queue `l` after `remove_from_queue` looked for `tid` in it. -/
def unlinked (threads : Slot → TCB) (tid : Int) (l : List Slot) : List Slot :=
  (unlinkTid threads tid l).getD l

/-- The TCB table once `ThreadKill` marked slot `t`. -/
def killedThreads (s : Sched) (t : Slot) : Slot → TCB :=
  Function.update s.threads t
    { s.threads t with state := State.KILLED, exit_code := EXIT_CODE_KILL }

/-- The state a successful `ThreadKill s tid` leaves, `t` being `threads[tid]`. -/
def killedSched (s : Sched) (tid : Int) (t : Slot) : Sched :=
  { s with
    threads := markReady (unlinked (killedThreads s t) tid (s.wait_queues t)) (killedThreads s t),
    rq := unlinked (killedThreads s t) tid s.rq
      ++ unlinked (killedThreads s t) tid (s.wait_queues t),
    wait_queues :=
      Function.update (fun i => unlinked (killedThreads s t) tid (s.wait_queues i)) t [] }

/-- A concrete state: the bootstrap thread runs, thread 1 is `READY`, thread 2
is blocked in `ThreadJoin(1)`, thread 3 sleeps on the user wait queue at
address 64; every other slot is `EMPTY`. -/
def joinSched : Sched :=
  { running_thread := 0
    threads := fun i =>
      { thread_id := (i.val : Int)
        context := Context.blank
        state :=
          if i = 0 then State.RUNNING
          else if i = 1 then State.READY
          else if i = 2 then State.BLOCKED
          else if i = 3 then State.BLOCKED
          else State.EMPTY
        sp := none
        exit_code := 0 }
    rq := [1]
    wait_queues := fun i => if i = 1 then [2] else []
    user_queues := fun a => if a = 64 then [3] else []
    interrupts := true }

/-- The value of an unsigned 32-bit constant converted to `int`
(two's-complement wrap-around). -/
def asInt32 (n : Nat) : Int :=
  ((n + 2 ^ 31) % 2 ^ 32 : Nat) - 2 ^ 31

/-- The state every path of an operation that starts with the reaper and then
returns at once leaves behind. -/
def reapedSched (s : Sched) : Sched :=
  { s with threads := reapedThreads s }

/-- The state `ThreadYieldTo s env tid` leaves at the switch, `t` being
`threads[tid]`. -/
def yieldedToSched (s : Sched) (tid : Int) (t : Slot) : Sched :=
  { s with
    running_thread := t,
    threads := Function.update
      (Function.update (reapedThreads s) s.running_thread
        { reapedThreads s s.running_thread with
          context := Context.saved [Frame.yieldTo tid s.interrupts], state := State.READY })
      t
      { Function.update (reapedThreads s) s.running_thread
          { reapedThreads s s.running_thread with
            context := Context.saved [Frame.yieldTo tid s.interrupts], state := State.READY } t
        with state := State.RUNNING },
    rq := unlinked
      (Function.update (reapedThreads s) s.running_thread
        { reapedThreads s s.running_thread with
          context := Context.saved [Frame.yieldTo tid s.interrupts], state := State.READY })
      tid (s.rq ++ [s.running_thread]),
    interrupts := false }

/-- The TCB of the caller of `ThreadYield` at the switch: `READY`, its context
captured in `ThreadYield` with `id` holding `id`. -/
def yieldingTCB (s : Sched) (id : Int) : TCB :=
  { reapedThreads s s.running_thread with
    context := Context.saved [Frame.yield id s.interrupts], state := State.READY }

/-- The state `ThreadYield` leaves at the switch when the ready queue was
`head :: rest`. -/
def yieldedSched (s : Sched) (head : Slot) (rest : List Slot) : Sched :=
  { s with
    running_thread := head,
    threads := Function.update
      (Function.update (reapedThreads s) s.running_thread
        (yieldingTCB s (s.threads head).thread_id))
      head
      { Function.update (reapedThreads s) s.running_thread
          (yieldingTCB s (s.threads head).thread_id) head
        with state := State.RUNNING },
    rq := rest ++ [s.running_thread],
    interrupts := false }

/-- The TCB the current-running pointer refers to is stored under its own
thread id and is neither `EMPTY` nor a zombie. -/
def Sched.CurrentLive (s : Sched) : Prop :=
  (s.threads s.running_thread).thread_id = (s.running_thread.val : Int)
    ∧ ¬ ((s.threads s.running_thread).state = State.EMPTY
      ∨ (s.threads s.running_thread).state = State.KILLED
      ∨ (s.threads s.running_thread).state = State.EXITED)

/-- The TCB of the caller of `ThreadSleep` at the switch: `BLOCKED`, its
context captured in `ThreadSleep` with `id` holding `id`. -/
def sleepingTCB (s : Sched) (id : Int) : TCB :=
  { reapedThreads s s.running_thread with
    context := Context.saved [Frame.sleep id s.interrupts], state := State.BLOCKED }

/-- The state `ThreadSleep s env q` leaves at the switch when the ready queue
was `head :: rest`. -/
def sleptSched (s : Sched) (q : WaitQueuePtr) (head : Slot) (rest : List Slot) : Sched :=
  Sched.setQueue
    { s with
      running_thread := head,
      threads := Function.update
        (Function.update (reapedThreads s) s.running_thread
          (sleepingTCB s (s.threads head).thread_id))
        head
        { Function.update (reapedThreads s) s.running_thread
            (sleepingTCB s (s.threads head).thread_id) head
          with state := State.RUNNING },
      rq := rest,
      interrupts := false }
    (.wq q) (s.queue (.wq q) ++ [s.running_thread])

/-- A concrete state: the bootstrap thread runs, thread 1 sleeps on the user
wait queue at address 64, and no thread is ready. -/
def sleeperSched : Sched :=
  { running_thread := 0
    threads := fun i =>
      { thread_id := (i.val : Int)
        context := Context.blank
        state :=
          if i = 0 then State.RUNNING
          else if i = 1 then State.BLOCKED
          else State.EMPTY
        sp := none
        exit_code := 0 }
    rq := []
    wait_queues := fun _ => []
    user_queues := fun a => if a = 64 then [1] else []
    interrupts := true }

/-- The state `ThreadExit s env c` reaches before it looks at the ready queue:
the exit code is stored, the joiners of the caller are `READY` and follow the
former ready queue, the per-thread wait queues were searched for the caller's
thread id, and the reaper ran. -/
def exitPrep (s : Sched) (c : Int) : Sched :=
  { s with
    threads := reapedThreads
      { s with threads := (markReady (s.wait_queues s.running_thread)
          (Function.update s.threads s.running_thread
            { s.threads s.running_thread with exit_code := c })) },
    rq := s.rq ++ s.wait_queues s.running_thread,
    wait_queues := (fun i => unlinked
      (markReady (s.wait_queues s.running_thread)
        (Function.update s.threads s.running_thread
          { s.threads s.running_thread with exit_code := c }))
      (s.threads s.running_thread).thread_id
      (Function.update s.wait_queues s.running_thread [] i)),
    interrupts := false }

/-- The state `ThreadExit s env c` leaves when it terminates the process. -/
def lastExitSched (s : Sched) (c : Int) : Sched :=
  { (Sched.setExitCode (Sched.setState (exitPrep s c) s.running_thread State.EXITED)
      s.running_thread c) with interrupts := s.interrupts }

/-- The state `ThreadExit s env c` leaves at the switch to `head`, the ready
queue after the joiners were woken being `head :: rest`. -/
def exitedSched (s : Sched) (c : Int) (head : Slot) (rest : List Slot) : Sched :=
  { (Sched.setState
      (Sched.setQueue (Sched.setState (exitPrep s c) s.running_thread State.EXITED) .rq rest)
      head State.RUNNING) with running_thread := head }

/-- The TCB `p` is referenced from no queue: not from the ready queue, not
from a per-thread wait queue, not from a user wait queue. -/
def Sched.Unqueued (s : Sched) (p : Slot) : Prop :=
  p ∉ s.rq ∧ (∀ i, p ∉ s.wait_queues i) ∧ (∀ a, p ∉ s.user_queues a)

/-- A concrete state: only the bootstrap thread exists; slot 1 is `EMPTY` and
still holds the exit code of the thread that used it before, which was killed
and reaped. -/
def reusedSched : Sched :=
  { running_thread := 0
    threads := fun i =>
      { thread_id := (i.val : Int)
        context := Context.blank
        state := if i = 0 then State.RUNNING else State.EMPTY
        sp := none
        exit_code := if i = 1 then EXIT_CODE_KILL else 0 }
    rq := []
    wait_queues := fun _ => []
    user_queues := fun _ => []
    interrupts := true }

/-- The state in which the thread dispatched by a switch runs user code again
(the state itself when its context cannot be resumed). -/
def resumedSched (s : Sched) : Sched :=
  match resume s with
  | some r => r.sched
  | none => s

/-- The state `ThreadJoin s env tid out` leaves at the switch, `t` being
`threads[tid]` and the ready queue `head :: rest`: the caller sleeps in the
join queue of `t`, and the frame of `ThreadJoin` lies beneath the frame of
`ThreadSleep` on its stack. -/
def joinedSched (s : Sched) (tid : Int) (t : Slot) (head : Slot) (rest : List Slot)
    (out : Option Int) : Sched :=
  Sched.pushOuterFrame (sleptSched { s with interrupts := false } (.join t) head rest)
    s.running_thread (.join tid out.isSome s.interrupts)

/-- C14 scenario, step 1: the state `ThreadCreate` leaves when a thread is
created in the reused slot 1 of `reusedSched`. -/
def c14Created : Sched :=
  { reusedSched with
      threads := Function.update (reapedThreads reusedSched) 1
        (createdTCB (reapedThreads reusedSched 1) 1 4096 7 9),
      wait_queues := Function.update reusedSched.wait_queues 1 [],
      rq := [1] }

/-- C14 scenario, step 2: the state `ThreadJoin(1, &out)` leaves: the bootstrap
thread is suspended in the join queue of thread 1; thread 1 is dispatched. -/
def c14Joined : Sched :=
  joinedSched c14Created ((1 : Slot).val : Int) 1 1 [] (some 17)

/-- C14 scenario, step 3: thread 1 entered its function through `thread_stub`
(interrupts enabled).  The function returns without calling the library. -/
def c14Started : Sched := { c14Joined with interrupts := true }

/-- C14 scenario, step 4: the state the `ThreadExit` call of `thread_stub`
leaves for thread 1; the bootstrap thread is dispatched. -/
def c14Exited : Sched := exitedSched c14Started EXIT_CODE_KILL 0 []

/-- C13 scenario, start: the state reached when the bootstrap thread (`A`,
slot 0) created threads 1 (`B`) and 2 and called `ThreadJoin(1, &out)`: thread
1 runs, the bootstrap thread is `BLOCKED` in the join queue of thread 1 with the
frames of `ThreadSleep` and `ThreadJoin` on its stack, thread 2 is `READY` and
has not run yet. -/
def c13Start : Sched :=
  { running_thread := 1
    threads := fun i =>
      { thread_id := (i.val : Int)
        context :=
          if i = 0 then Context.saved [Frame.sleep 1 false, Frame.join 1 true true]
          else if i = 2 then Context.entry (8192 + THREAD_STACK_SIZE - 8) 8192 7 9
          else Context.blank
        state :=
          if i = 0 then State.BLOCKED
          else if i = 1 then State.RUNNING
          else if i = 2 then State.READY
          else State.EMPTY
        sp := none
        exit_code := 0 }
    rq := [2]
    wait_queues := fun i => if i = 1 then [0] else []
    user_queues := fun _ => []
    interrupts := true }

/-- C13 scenario, step 1: the state `ThreadExit(5)` called by thread 1 leaves;
thread 2 is dispatched. -/
def c13Exited : Sched := exitedSched c13Start 5 2 [0]

/-- C13 scenario, step 2: thread 2 entered its function through `thread_stub`
(interrupts enabled). -/
def c13Running : Sched := { c13Exited with interrupts := true }

/-- C13 scenario, step 3: the state `ThreadCreate` called by thread 2 leaves:
slot 1 was reaped and is used again. -/
def c13Created : Sched :=
  { c13Running with
      threads := Function.update (reapedThreads c13Running) 1
        (createdTCB (reapedThreads c13Running 1) 1 4096 7 9),
      wait_queues := Function.update c13Running.wait_queues 1 [],
      rq := c13Running.rq ++ [1] }

/-- C13 scenario, step 4: the state `ThreadKill(1)` called by thread 2 leaves. -/
def c13Killed : Sched := killedSched c13Created ((1 : Slot).val : Int) 1

/-- C13 scenario, step 5: the state `ThreadYield` called by thread 2 leaves;
the bootstrap thread is dispatched. -/
def c13Yielded : Sched := yieldedSched c13Killed 0 []

/-- One call in a run of the two queue helpers against a single queue. -/
inductive QueueOp
  | insert (t : Slot)
  | extract

/-- A run of `insert_into_queue` and `extract_from_queue` calls against the
queue `q`, in order, with the TCBs that `extract_from_queue` returned, in
order; `none` when an extract meets an empty queue. -/
def runQueueOps (q : QueuePtr) : List QueueOp → Sched → Option (Sched × List Slot)
  | [], s => some (s, [])
  | QueueOp.insert t :: ops, s => runQueueOps q ops (insert_into_queue s q t)
  | QueueOp.extract :: ops, s =>
    match extract_from_queue s q with
    | none => none
    | some (t, s1) => (runQueueOps q ops s1).map (fun r => (r.1, t :: r.2))

/-- The TCBs a run inserts, in order. -/
def insertedBy : List QueueOp → List Slot
  | [] => []
  | QueueOp.insert t :: ops => t :: insertedBy ops
  | QueueOp.extract :: ops => insertedBy ops

/-- No extract of the run is applied to an empty queue, the queue holding `n`
nodes when the run starts. -/
def extractsServed : List QueueOp → Nat → Prop
  | [], _ => True
  | QueueOp.insert _ :: ops, n => extractsServed ops (n + 1)
  | QueueOp.extract :: ops, n => 0 < n ∧ extractsServed ops (n - 1)

/-- `remove_by_tid` in the words of the specification: the queue without the
first node whose TCB has thread id `tid`, the other nodes in their order; the
queue itself when no node has that thread id. -/
def removeFirstWithTid (threads : Slot → TCB) (tid : Int) (l : List Slot) : List Slot :=
  l.eraseP (fun p => decide ((threads p).thread_id = tid))

/-- The TCB of a slot that has not been used since the program started. -/
def blankTCB : TCB :=
  { thread_id := 0, context := Context.blank, state := State.EMPTY, sp := none, exit_code := 0 }

/-- The TCB of the bootstrap thread after `ThreadInit`. -/
def bootTCB : TCB :=
  { thread_id := 0, context := Context.boot, state := State.RUNNING, sp := none, exit_code := 0 }

/-- A state in which only slots 0 and 1 have been used since the program
started: their TCBs are `t0` and `t1`, every per-thread wait queue is empty,
and `uq` is the user wait queue allocated at address 64. -/
def twoSched (run : Slot) (t0 t1 : TCB) (rq uq : List Slot) (intr : Bool) : Sched :=
  { running_thread := run
    threads := fun i => if i = 0 then t0 else if i = 1 then t1 else blankTCB
    rq := rq
    wait_queues := fun _ => []
    user_queues := fun a => if a = 64 then uq else []
    interrupts := intr }

/-- The TCB of slot 0 in the two-thread scenarios. -/
def mainTCB (c : Context) (st : State) (code : Int) : TCB :=
  { thread_id := 0, context := c, state := st, sp := none, exit_code := code }

/-- The TCB of slot 1 in the two-thread scenarios, its stack allocated at `sp`. -/
def workerTCB (c : Context) (st : State) (sp : Nat) (code : Int) : TCB :=
  { thread_id := 1, context := c, state := st, sp := some sp, exit_code := code }

/-- The state after `ThreadInit` and one `ThreadCreate` whose `malloc`
returned the address 4096: the bootstrap thread runs and thread 1 is ready to
enter its function. -/
def bootCreated : Sched :=
  twoSched 0 (mainTCB Context.boot State.RUNNING 0)
    (workerTCB (Context.entry (4096 + THREAD_STACK_SIZE - 8) 4096 7 9) State.READY 4096 0)
    [1] [] true

/-- C27 scenario, step 2: the bootstrap thread called `ThreadExit(0)`; thread 1
is dispatched. -/
def c27Exited : Sched :=
  twoSched 1 { bootTCB with exit_code := 0, state := State.EXITED }
    { createdTCB blankTCB 1 4096 7 9 with state := State.RUNNING } [] [] false

/-- C27 scenario, step 3: thread 1 entered its function through `thread_stub`
(interrupts enabled). -/
def c27Running : Sched :=
  twoSched 1 { bootTCB with exit_code := 0, state := State.EXITED }
    { createdTCB blankTCB 1 4096 7 9 with state := State.RUNNING } [] [] true

/-- C27 scenario, step 4: thread 1 called `ThreadCreate`, whose `malloc`
returned the address 8192: slot 0 was reaped and is used again. -/
def c27Reused : Sched :=
  twoSched 1 (createdTCB { bootTCB with exit_code := 0, state := State.EXITED } 0 8192 7 9)
    { createdTCB blankTCB 1 4096 7 9 with state := State.RUNNING } [0] [] true

/-- Zombie-in-a-user-queue scenario, step 1: the bootstrap thread called
`ThreadYieldTo(1)`; thread 1 is dispatched. -/
def zqDispatched : Sched :=
  twoSched 1 (mainTCB (Context.saved [Frame.yieldTo 1 true]) State.READY 0)
    (workerTCB (Context.entry (4096 + THREAD_STACK_SIZE - 8) 4096 7 9) State.RUNNING 4096 0)
    [0] [] false

/-- Zombie-in-a-user-queue scenario, step 2: thread 1 entered its function. -/
def zqEntered : Sched :=
  twoSched 1 (mainTCB (Context.saved [Frame.yieldTo 1 true]) State.READY 0)
    (workerTCB (Context.entry (4096 + THREAD_STACK_SIZE - 8) 4096 7 9) State.RUNNING 4096 0)
    [0] [] true

/-- Zombie-in-a-user-queue scenario, step 3: thread 1 called `ThreadSleep` on
the user wait queue at address 64; the bootstrap thread is dispatched. -/
def zqSlept : Sched :=
  twoSched 0 (mainTCB (Context.saved [Frame.yieldTo 1 true]) State.RUNNING 0)
    (workerTCB (Context.saved [Frame.sleep 0 true]) State.BLOCKED 4096 0)
    [] [1] false

/-- Zombie-in-a-user-queue scenario, step 4: the bootstrap thread returned
from `ThreadYieldTo`. -/
def zqBack : Sched :=
  twoSched 0 (mainTCB (Context.saved [Frame.yieldTo 1 true]) State.RUNNING 0)
    (workerTCB (Context.saved [Frame.sleep 0 true]) State.BLOCKED 4096 0)
    [] [1] true

/-- Zombie-in-a-user-queue scenario, step 5: the bootstrap thread called
`ThreadKill(1)`; the TCB of slot 1 is still in the user wait queue. -/
def zqKilled : Sched :=
  twoSched 0 (mainTCB (Context.saved [Frame.yieldTo 1 true]) State.RUNNING 0)
    (workerTCB (Context.saved [Frame.sleep 0 true]) State.KILLED 4096 EXIT_CODE_KILL)
    [] [1] true

/-- Zombie-in-a-user-queue scenario, step 6: the bootstrap thread called
`ThreadCreate`, whose `malloc` returned the address 8192; slot 1 was reaped and
is used again, and its TCB is in the ready queue and in the user wait queue. -/
def zqReused : Sched :=
  twoSched 0 (mainTCB (Context.saved [Frame.yieldTo 1 true]) State.RUNNING 0)
    (workerTCB (Context.entry (8192 + THREAD_STACK_SIZE - 8) 8192 7 9) State.READY 8192
      EXIT_CODE_KILL)
    [1] [1] true

/-- C26 scenario, last step: the bootstrap thread called `ThreadWakeNext` on
the user wait queue. -/
def zqTwice : Sched :=
  twoSched 0 (mainTCB (Context.saved [Frame.yieldTo 1 true]) State.RUNNING 0)
    (workerTCB (Context.entry (8192 + THREAD_STACK_SIZE - 8) 8192 7 9) State.READY 8192
      EXIT_CODE_KILL)
    [1, 1] [] true

/-- C25 scenario, step 7: the bootstrap thread called `ThreadYieldTo(1)`; the
new thread 1 is dispatched. -/
def zqRedispatched : Sched :=
  twoSched 1 (mainTCB (Context.saved [Frame.yieldTo 1 true]) State.READY 0)
    (workerTCB (Context.entry (8192 + THREAD_STACK_SIZE - 8) 8192 7 9) State.RUNNING 8192
      EXIT_CODE_KILL)
    [0] [1] false

/-- C25 scenario, step 8: the new thread 1 entered its function. -/
def zqReentered : Sched :=
  twoSched 1 (mainTCB (Context.saved [Frame.yieldTo 1 true]) State.READY 0)
    (workerTCB (Context.entry (8192 + THREAD_STACK_SIZE - 8) 8192 7 9) State.RUNNING 8192
      EXIT_CODE_KILL)
    [0] [1] true

/-- C25 scenario, step 9: thread 1 called `ThreadWakeNext` on the user wait
queue, whose head is its own TCB. -/
def zqSelfWoken : Sched :=
  twoSched 1 (mainTCB (Context.saved [Frame.yieldTo 1 true]) State.READY 0)
    (workerTCB (Context.entry (8192 + THREAD_STACK_SIZE - 8) 8192 7 9) State.READY 8192
      EXIT_CODE_KILL)
    [0, 1] [] true

/-- What the worker thread of the two-thread scenario does when it is
dispatched: it yields back to the main thread, by `ThreadYield` or by
`ThreadYieldTo(0)`, or it returns from its function. -/
inductive WorkerMove
  | yield
  | yieldToMain
  | finish
  deriving DecidableEq, Repr

/-- The library call the worker makes for a move (for `finish`: the call of
`ThreadExit` at the end of `thread_stub`). -/
def workerMove (env : Env) (move : WorkerMove) (s : Sched) : Sched × Outcome :=
  match move with
  | WorkerMove.yield => ThreadYield s env
  | WorkerMove.yieldToMain => ThreadYieldTo s env 0
  | WorkerMove.finish => thread_stub_return s env

/-- The worker, dispatched in state `s`, runs up to its next move and makes
it; the thread dispatched by that move, which must be `caller`, runs up to the
return of the library call in which it was suspended.  The result is the state
then and the value that call returns. -/
def workerRuns (env : Env) (caller : Slot) (move : WorkerMove) (s : Sched) :
    Option (Sched × Int) :=
  match resume s with
  | none => none
  | some r1 =>
    match workerMove env move r1.sched with
    | (s2, Outcome.switched) =>
      if s2.running_thread = caller then
        match resume s2 with
        | some r2 => r2.value.map (fun v => (r2.sched, v))
        | none => none
      else none
    | _ => none

/-- The main thread calls `ThreadYieldTo(worker)` `n` times in a row; each
time the call switches to the worker, the worker makes the next move of
`moves`.  The result is the list of the values the calls returned, in order. -/
def mainCalls (env : Env) (worker : Int) : Nat → List WorkerMove → Sched → Option (List Int)
  | 0, _, _ => some []
  | n + 1, moves, s =>
    match ThreadYieldTo s env worker with
    | (s1, Outcome.ret v) => (mainCalls env worker n moves s1).map (fun vs => v :: vs)
    | (s1, Outcome.switched) =>
      match moves with
      | [] => none
      | m :: rest =>
        match workerRuns env s.running_thread m s1 with
        | none => none
        | some (s2, v) => (mainCalls env worker n rest s2).map (fun vs => v :: vs)
    | _ => none

/-- The moves of a worker that yields back to the main thread once per
element of `ys` (`true`: by `ThreadYield`, `false`: by `ThreadYieldTo(0)`) and
then returns from its function. -/
def workerScript (ys : List Bool) : List WorkerMove :=
  ys.map (fun b => if b then WorkerMove.yield else WorkerMove.yieldToMain)
    ++ [WorkerMove.finish]

/-- The context of a worker that can be dispatched: built by `ThreadCreate`,
or saved by a yield to the main thread that was called with interrupts
enabled. -/
def WorkerResumable (c : Context) : Prop :=
  (∃ rsp rbp rdi rsi, c = Context.entry rsp rbp rdi rsi)
    ∨ c = Context.saved [Frame.yield 0 true]
    ∨ c = Context.saved [Frame.yieldTo 0 true]

/-- The TCB of slot `i` is known to the library in state `s`: it is the
current TCB, or its state is not `EMPTY`, or a queue references it. -/
def Sched.Known (s : Sched) (i : Slot) : Prop :=
  i = s.running_thread ∨ (s.threads i).state ≠ State.EMPTY ∨ i ∈ s.rq
    ∨ (∃ j, i ∈ s.wait_queues j) ∨ (∃ a, i ∈ s.user_queues a)

/-- Every TCB known to the library is stored under its own index as thread
id. -/
def Sched.TidsOk (s : Sched) : Prop :=
  ∀ i, s.Known i → (s.threads i).thread_id = (i.val : Int)

/-- The TCB table `g` has the thread ids of the table of `s`, and the slots
that are not `EMPTY` in `g` are known in `s`. -/
def TableOk (s : Sched) (g : Slot → TCB) : Prop :=
  ∀ i, (g i).thread_id = (s.threads i).thread_id
    ∧ ((g i).state ≠ State.EMPTY → s.Known i)

/-- The state `s'` refers only to TCBs that are known in `s`, and no thread
id differs from the one in `s`. -/
def Sched.StepOf (s s' : Sched) : Prop :=
  s.Known s'.running_thread ∧ TableOk s s'.threads ∧ (∀ i ∈ s'.rq, s.Known i)
    ∧ (∀ j, ∀ i ∈ s'.wait_queues j, s.Known i) ∧ (∀ a, ∀ i ∈ s'.user_queues a, s.Known i)

/-- The states the library passes through: the state a successful
`ThreadInit` leaves when it is called with no node in any wait queue (as at
program start), the state every public operation leaves (at its return, at
the switch to another thread, or when it ends the process), and the state in
which a dispatched thread runs user code again. -/
inductive Reachable : Sched → Prop
  | init (s0 : Sched) (env : Env) (hw : ∀ j, s0.wait_queues j = [])
      (hu : ∀ a, s0.user_queues a = []) (h : (ThreadInit s0 env).2 = 0) :
      Reachable (ThreadInit s0 env).1
  | create (s : Sched) (env : Env) (f arg : Nat) :
      Reachable s → Reachable (ThreadCreate s env f arg).1
  | exit (s : Sched) (env : Env) (c : Int) :
      Reachable s → Reachable (ThreadExit s env c).1
  | kill (s : Sched) (tid : Int) : Reachable s → Reachable (ThreadKill s tid).1
  | yield (s : Sched) (env : Env) : Reachable s → Reachable (ThreadYield s env).1
  | yieldTo (s : Sched) (env : Env) (tid : Int) :
      Reachable s → Reachable (ThreadYieldTo s env tid).1
  | sleep (s : Sched) (env : Env) (q : WaitQueuePtr) :
      Reachable s → Reachable (ThreadSleep s env q).1
  | wakeNext (s : Sched) (q : WaitQueuePtr) :
      Reachable s → Reachable (ThreadWakeNext s q).1
  | wakeAll (s : Sched) (q : WaitQueuePtr) :
      Reachable s → Reachable (ThreadWakeAll s q).1
  | join (s : Sched) (env : Env) (tid : Int) (out : Option Int) :
      Reachable s → Reachable (ThreadJoin s env tid out).1
  | queueCreate (s : Sched) (env : Env) :
      Reachable s → Reachable (WaitQueueCreate s env).1
  | queueDestroy (s : Sched) (addr : Nat) :
      Reachable s → Reachable (WaitQueueDestroy s addr).1
  | resumed (s : Sched) (r : Resumed) :
      Reachable s → resume s = some r → Reachable r.sched

/-- Duplicate-in-the-ready-queue scenario (continues `zqTwice`, where the ready
queue is `[1, 1]`): the state `ThreadKill(1)` called by the bootstrap thread
leaves. -/
def dupKilled : Sched :=
  twoSched 0 (mainTCB (Context.saved [Frame.yieldTo 1 true]) State.RUNNING 0)
    (workerTCB (Context.entry (8192 + THREAD_STACK_SIZE - 8) 8192 7 9) State.KILLED 8192
      EXIT_CODE_KILL)
    [1] [] true

/-- Duplicate-in-the-ready-queue scenario: the state `ThreadYieldTo(1)` called
by the bootstrap thread in `zqTwice` leaves; thread 1 is dispatched. -/
def dupDispatched : Sched :=
  twoSched 1 (mainTCB (Context.saved [Frame.yieldTo 1 true]) State.READY 0)
    (workerTCB (Context.entry (8192 + THREAD_STACK_SIZE - 8) 8192 7 9) State.RUNNING 8192
      EXIT_CODE_KILL)
    [1, 0] [] false

/-- Duplicate-in-the-ready-queue scenario: thread 1 entered its function. -/
def dupEntered : Sched :=
  twoSched 1 (mainTCB (Context.saved [Frame.yieldTo 1 true]) State.READY 0)
    (workerTCB (Context.entry (8192 + THREAD_STACK_SIZE - 8) 8192 7 9) State.RUNNING 8192
      EXIT_CODE_KILL)
    [1, 0] [] true

/-- Duplicate-in-the-ready-queue scenario: the state `ThreadYield` called by
thread 1 in `dupEntered` leaves at its `setcontext`. -/
def dupYielded : Sched :=
  twoSched 1 (mainTCB (Context.saved [Frame.yieldTo 1 true]) State.READY 0)
    (workerTCB (Context.saved [Frame.yield 1 true]) State.RUNNING 8192 EXIT_CODE_KILL)
    [0, 1] [] false

/-- Duplicate-in-the-ready-queue scenario: thread 1 returned from
`ThreadYield`. -/
def dupYieldReturned : Sched :=
  twoSched 1 (mainTCB (Context.saved [Frame.yieldTo 1 true]) State.READY 0)
    (workerTCB (Context.saved [Frame.yield 1 true]) State.RUNNING 8192 EXIT_CODE_KILL)
    [0, 1] [] true

/-- Duplicate-in-the-ready-queue scenario: the state `ThreadSleep` on the user
wait queue, called by thread 1 in `dupEntered`, leaves at its `setcontext`. -/
def dupSlept : Sched :=
  twoSched 1 (mainTCB (Context.saved [Frame.yieldTo 1 true]) State.READY 0)
    (workerTCB (Context.saved [Frame.sleep 1 true]) State.RUNNING 8192 EXIT_CODE_KILL)
    [0] [1] false

/-- Duplicate-in-the-ready-queue scenario: thread 1 returned from
`ThreadSleep`. -/
def dupSleepReturned : Sched :=
  twoSched 1 (mainTCB (Context.saved [Frame.yieldTo 1 true]) State.READY 0)
    (workerTCB (Context.saved [Frame.sleep 1 true]) State.RUNNING 8192 EXIT_CODE_KILL)
    [0] [1] true

/-- Zombie-in-a-user-queue scenario (continues `zqSelfWoken`, where thread 1
runs and is in the ready queue `[0, 1]`): the state `ThreadExit(5)` called by
thread 1 leaves; the bootstrap thread is dispatched. -/
def zqSelfExited : Sched :=
  twoSched 0 (mainTCB (Context.saved [Frame.yieldTo 1 true]) State.RUNNING 0)
    (workerTCB (Context.entry (8192 + THREAD_STACK_SIZE - 8) 8192 7 9) State.EXITED 8192 5)
    [1] [] false

/-- Reaped-twice scenario (continues `zqKilled`): the bootstrap thread called
`ThreadYield`, whose reaper freed the stack of slot 1. -/
def zqReaped : Sched :=
  twoSched 0 (mainTCB (Context.saved [Frame.yieldTo 1 true]) State.RUNNING 0)
    (workerTCB (Context.saved [Frame.sleep 0 true]) State.EMPTY 4096 EXIT_CODE_KILL)
    [] [1] true

/-- Reaped-twice scenario: the bootstrap thread called `ThreadWakeNext` on the
user wait queue; the reaped TCB of slot 1 is `READY` again. -/
def zqRevived : Sched :=
  twoSched 0 (mainTCB (Context.saved [Frame.yieldTo 1 true]) State.RUNNING 0)
    (workerTCB (Context.saved [Frame.sleep 0 true]) State.READY 4096 EXIT_CODE_KILL)
    [1] [] true

/-- Reaped-twice scenario: the bootstrap thread called `ThreadKill(1)` again. -/
def zqRekilled : Sched :=
  twoSched 0 (mainTCB (Context.saved [Frame.yieldTo 1 true]) State.RUNNING 0)
    (workerTCB (Context.saved [Frame.sleep 0 true]) State.KILLED 4096 EXIT_CODE_KILL)
    [] [] true

/-- Reaped-twice scenario: the bootstrap thread called `ThreadYield` again,
whose reaper freed the stack of slot 1 a second time. -/
def zqRereaped : Sched :=
  twoSched 0 (mainTCB (Context.saved [Frame.yieldTo 1 true]) State.RUNNING 0)
    (workerTCB (Context.saved [Frame.sleep 0 true]) State.EMPTY 4096 EXIT_CODE_KILL)
    [] [] true

/-- The guard under which the loop of `free_exited_threads` executes
`free(threads[i].sp)` for slot `i`. -/
def reaperFrees (s : Sched) (i : Slot) : Prop :=
  ((s.threads i).state = State.EXITED ∨ (s.threads i).state = State.KILLED)
    ∧ s.running_thread ≠ i

/-! ## Basic facts about the helpers -/

theorem linkAtTail_eq (t : Slot) (l : List Slot) : linkAtTail t l = l ++ [t] := by
  induction l with
  | nil => rfl
  | cons x rest ih => simp [linkAtTail, ih]

theorem insert_into_queue_rq (s : Sched) (t : Slot) :
    insert_into_queue s .rq t = { s with rq := s.rq ++ [t] } := by
  simp [insert_into_queue, InterruptsDisable, InterruptsSet, Sched.setQueue, Sched.queue,
    linkAtTail_eq]

theorem insert_into_queue_join (s : Sched) (i t : Slot) :
    insert_into_queue s (.wq (.join i)) t
      = { s with wait_queues := Function.update s.wait_queues i (s.wait_queues i ++ [t]) } := by
  simp [insert_into_queue, InterruptsDisable, InterruptsSet, Sched.setQueue, Sched.queue,
    linkAtTail_eq]

theorem insert_into_queue_user (s : Sched) (a : Nat) (t : Slot) :
    insert_into_queue s (.wq (.user a)) t
      = { s with user_queues := Function.update s.user_queues a (s.user_queues a ++ [t]) } := by
  simp [insert_into_queue, InterruptsDisable, InterruptsSet, Sched.setQueue, Sched.queue,
    linkAtTail_eq]

theorem foldl_reapSlot (l : List Slot) (hl : l.Nodup) (s : Sched) :
    l.foldl reapSlot s
      = { s with threads := (fun i => if i ∈ l then reapedThreads s i else s.threads i) } := by
  induction l generalizing s with
  | nil => simp
  | cons x rest ih =>
    have hx : x ∉ rest := (List.nodup_cons.mp hl).1
    rw [List.foldl_cons, ih (List.nodup_cons.mp hl).2]
    by_cases hz : ((s.threads x).state = State.EXITED ∨ (s.threads x).state = State.KILLED)
        ∧ s.running_thread ≠ x
    · have hr : reapSlot s x = s.setState x State.EMPTY := by
        simp [reapSlot, hz.1, hz.2]
      rw [hr]
      simp only [Sched.setState]
      congr 1
      funext i
      by_cases hix : i = x
      · subst hix
        simp [hx, reapedThreads, hz.1, hz.2]
      · have hxi : ¬ x = i := fun h => hix h.symm
        simp [hix, reapedThreads, Function.update_noteq hix]
    · have hr : reapSlot s x = s := by
        unfold reapSlot
        by_cases h1 : (s.threads x).state = State.EXITED ∨ (s.threads x).state = State.KILLED
        · have h2 : s.running_thread = x := by
            by_contra h2
            exact hz ⟨h1, h2⟩
          simp [h1, h2]
        · simp [h1]
      rw [hr]
      congr 1
      funext i
      by_cases hix : i = x
      · subst hix
        simp [hx, reapedThreads, hz]
      · simp [hix]

theorem free_exited_threads_eq (s : Sched) :
    free_exited_threads s = { s with threads := reapedThreads s } := by
  unfold free_exited_threads
  simp only [InterruptsDisable, InterruptsSet]
  rw [foldl_reapSlot _ (List.nodup_finRange _)]
  simp only [List.mem_finRange, if_true]
  rfl

theorem free_exited_threads_fun :
    free_exited_threads = fun s => { s with threads := reapedThreads s } :=
  funext free_exited_threads_eq

theorem findSlot_eq_of_least (threads : Slot → TCB) (r : Slot) (hfree : ¬ (threads r).state.busy)
    (i : Nat) (hi : i ≤ r.val)
    (hbusy : ∀ j : Slot, i ≤ j.val → j.val < r.val → (threads j).state.busy) :
    findSlot threads i = r.val := by
  obtain ⟨d, hd⟩ : ∃ d, d = r.val - i := ⟨_, rfl⟩
  induction d generalizing i with
  | zero =>
    have hir : i = r.val := by omega
    have hlt : i < MAX_THREADS := by have := r.isLt; omega
    have hr : (⟨i, hlt⟩ : Slot) = r := Fin.ext hir
    rw [findSlot]
    simp only [hlt, dite_true, hr]
    have : ¬ ((threads r).state ≠ State.EMPTY ∧ (threads r).state ≠ State.EXITED
        ∧ (threads r).state ≠ State.KILLED) := hfree
    rw [if_neg this]
    exact hir
  | succ d ih =>
    have hlt : i < MAX_THREADS := by have := r.isLt; omega
    have hb := hbusy ⟨i, hlt⟩ (le_refl _) (by simp; omega)
    rw [findSlot]
    simp only [hlt, dite_true]
    have : ((threads ⟨i, hlt⟩).state ≠ State.EMPTY ∧ (threads ⟨i, hlt⟩).state ≠ State.EXITED
        ∧ (threads ⟨i, hlt⟩).state ≠ State.KILLED) := hb
    rw [if_pos this]
    exact ih (i + 1) (by omega) (fun j hj hjr => hbusy j (by omega) hjr) (by omega)

theorem findSlot_eq_max (threads : Slot → TCB) (i : Nat) (hi : i ≤ MAX_THREADS)
    (hbusy : ∀ j : Slot, i ≤ j.val → (threads j).state.busy) :
    findSlot threads i = MAX_THREADS := by
  obtain ⟨d, hd⟩ : ∃ d, d = MAX_THREADS - i := ⟨_, rfl⟩
  induction d generalizing i with
  | zero =>
    have hnlt : ¬ i < MAX_THREADS := by omega
    rw [findSlot]
    simp only [hnlt, dite_false]
    omega
  | succ d ih =>
    have hlt : i < MAX_THREADS := by omega
    have hb := hbusy ⟨i, hlt⟩ (le_refl _)
    rw [findSlot]
    simp only [hlt, dite_true]
    have : ((threads ⟨i, hlt⟩).state ≠ State.EMPTY ∧ (threads ⟨i, hlt⟩).state ≠ State.EXITED
        ∧ (threads ⟨i, hlt⟩).state ≠ State.KILLED) := hb
    rw [if_pos this]
    exact ih (i + 1) (by omega) (fun j hj => hbusy j (by omega)) (by omega)

theorem findSlot_lt_free (threads : Slot → TCB) (i : Nat)
    (h : findSlot threads i < MAX_THREADS) :
    ¬ (threads ⟨findSlot threads i, h⟩).state.busy := by
  obtain ⟨d, hd⟩ : ∃ d, d = MAX_THREADS - i := ⟨_, rfl⟩
  induction d generalizing i with
  | zero =>
    have hnlt : ¬ i < MAX_THREADS := by omega
    rw [findSlot] at h
    simp only [hnlt, dite_false] at h
  | succ d ih =>
    have hlt : i < MAX_THREADS := by omega
    by_cases hb : (threads ⟨i, hlt⟩).state.busy
    · have hstep : findSlot threads i = findSlot threads (i + 1) := by
        rw [findSlot]
        simp only [hlt, dite_true]
        have : ((threads ⟨i, hlt⟩).state ≠ State.EMPTY
            ∧ (threads ⟨i, hlt⟩).state ≠ State.EXITED
            ∧ (threads ⟨i, hlt⟩).state ≠ State.KILLED) := hb
        rw [if_pos this]
      have h2 : findSlot threads (i + 1) < MAX_THREADS := hstep ▸ h
      have := ih (i + 1) h2 (by omega)
      have hfin : (⟨findSlot threads i, h⟩ : Slot) = ⟨findSlot threads (i + 1), h2⟩ :=
        Fin.ext hstep
      rw [hfin]
      exact this
    · have hstep : findSlot threads i = i := by
        rw [findSlot]
        simp only [hlt, dite_true]
        have : ¬ ((threads ⟨i, hlt⟩).state ≠ State.EMPTY
            ∧ (threads ⟨i, hlt⟩).state ≠ State.EXITED
            ∧ (threads ⟨i, hlt⟩).state ≠ State.KILLED) := hb
        rw [if_neg this]
      have hfin : (⟨findSlot threads i, h⟩ : Slot) = ⟨i, hlt⟩ := Fin.ext hstep
      rw [hfin]
      exact hb

/-- After the reaper ran, a slot other than the current one is free exactly
when it is `EMPTY`. -/
theorem reaped_busy_iff (s : Sched) (hrun : s.CurrentNotZombie) (i : Slot) :
    (reapedThreads s i).state.busy ↔ (reapedThreads s i).state ≠ State.EMPTY := by
  unfold State.busy reapedThreads
  by_cases hz : ((s.threads i).state = State.EXITED ∨ (s.threads i).state = State.KILLED)
      ∧ s.running_thread ≠ i
  · simp [hz]
  · rw [if_neg hz]
    constructor
    · intro h; exact h.1
    · intro h
      refine ⟨h, ?_, ?_⟩
      · intro he
        by_cases hr : s.running_thread = i
        · exact hrun.1 (hr ▸ he)
        · exact hz ⟨Or.inl he, hr⟩
      · intro hk
        by_cases hr : s.running_thread = i
        · exact hrun.2 (hr ▸ hk)
        · exact hz ⟨Or.inr hk, hr⟩

theorem reapedThreads_intr (s : Sched) (b : Bool) :
    reapedThreads { s with interrupts := b } = reapedThreads s := rfl

theorem findSlot_le (threads : Slot → TCB) (i : Nat) (hi : i ≤ MAX_THREADS) :
    findSlot threads i ≤ MAX_THREADS := by
  obtain ⟨d, hd⟩ : ∃ d, d = MAX_THREADS - i := ⟨_, rfl⟩
  induction d generalizing i with
  | zero =>
    have hnlt : ¬ i < MAX_THREADS := by omega
    rw [findSlot]
    simp only [hnlt, dite_false]
    exact hi
  | succ d ih =>
    have hlt : i < MAX_THREADS := by omega
    rw [findSlot]
    simp only [hlt, dite_true]
    split
    · exact ih (i + 1) (by omega) (by omega)
    · exact hi

theorem findSlot_le_of_free (threads : Slot → TCB) (r : Slot)
    (hfree : ¬ (threads r).state.busy) (i : Nat) (hi : i ≤ r.val) :
    findSlot threads i ≤ r.val := by
  obtain ⟨d, hd⟩ : ∃ d, d = r.val - i := ⟨_, rfl⟩
  induction d generalizing i with
  | zero =>
    have hir : i = r.val := by omega
    have hlt : i < MAX_THREADS := by have := r.isLt; omega
    have hr : (⟨i, hlt⟩ : Slot) = r := Fin.ext hir
    rw [findSlot]
    simp only [hlt, dite_true, hr]
    have : ¬ ((threads r).state ≠ State.EMPTY ∧ (threads r).state ≠ State.EXITED
        ∧ (threads r).state ≠ State.KILLED) := hfree
    rw [if_neg this]
    exact hi
  | succ d ih =>
    have hlt : i < MAX_THREADS := by have := r.isLt; omega
    rw [findSlot]
    simp only [hlt, dite_true]
    split
    · exact ih (i + 1) (by omega) (by omega)
    · exact hi

theorem ThreadCreate_full (s : Sched) (env : Env) (f arg : Nat)
    (hfull : ¬ findSlot (reapedThreads s) 0 < MAX_THREADS) :
    ThreadCreate s env f arg = ({ s with threads := reapedThreads s }, ERROR_SYS_THREAD) := by
  unfold ThreadCreate
  refine (dif_neg (by rw [free_exited_threads_eq]; exact hfull)).trans ?_
  rw [free_exited_threads_eq]
  rfl

theorem ThreadCreate_no_memory (s : Sched) (env : Env) (f arg : Nat)
    (hlt : findSlot (reapedThreads s) 0 < MAX_THREADS) (hm : env.malloc = none) :
    ThreadCreate s env f arg = ({ s with threads := reapedThreads s }, ERROR_SYS_MEM) := by
  have key := free_exited_threads_eq { s with interrupts := false }
  unfold ThreadCreate
  have hlt2 : findSlot (free_exited_threads { s with interrupts := false }).threads 0
      < MAX_THREADS := by
    rw [key]; exact hlt
  refine (dif_pos hlt2).trans ?_
  generalize free_exited_threads { s with interrupts := false } = S at key hlt2 ⊢
  subst key
  simp only [hm]
  rfl

theorem ThreadCreate_no_context (s : Sched) (env : Env) (f arg sp : Nat)
    (hlt : findSlot (reapedThreads s) 0 < MAX_THREADS) (hm : env.malloc = some sp)
    (hc : env.getcontext ≠ 0) :
    ThreadCreate s env f arg = ({ s with threads := reapedThreads s }, ERROR_OTHER) := by
  have key := free_exited_threads_eq { s with interrupts := false }
  unfold ThreadCreate
  have hlt2 : findSlot (free_exited_threads { s with interrupts := false }).threads 0
      < MAX_THREADS := by
    rw [key]; exact hlt
  refine (dif_pos hlt2).trans ?_
  generalize free_exited_threads { s with interrupts := false } = S at key hlt2 ⊢
  subst key
  simp only [hm, hc, ne_eq, not_false_eq_true, if_true]
  rfl

theorem ThreadCreate_found (s : Sched) (env : Env) (f arg sp : Nat)
    (hm : env.malloc = some sp) (hc : env.getcontext = 0)
    (t : Slot) (ht : findSlot (reapedThreads s) 0 = t.val) :
    ThreadCreate s env f arg =
      ({ s with
          threads := Function.update (reapedThreads s) t
            (createdTCB (reapedThreads s t) t.val sp f arg),
          wait_queues := Function.update s.wait_queues t [],
          rq := s.rq ++ [t] }, (t.val : Int)) := by
  have hlt : findSlot (reapedThreads s) 0 < MAX_THREADS := by rw [ht]; exact t.isLt
  have hfin : (⟨findSlot (reapedThreads s) 0, hlt⟩ : Slot) = t := Fin.ext ht
  have key := free_exited_threads_eq { s with interrupts := false }
  unfold ThreadCreate
  have hlt2 : findSlot (free_exited_threads { s with interrupts := false }).threads 0
      < MAX_THREADS := by
    rw [key]; exact hlt
  refine (dif_pos hlt2).trans ?_
  generalize free_exited_threads { s with interrupts := false } = S at key hlt2 ⊢
  subst key
  simp only [reapedThreads_intr, InterruptsSet, hm, hc, hfin, ht, ne_eq, not_true_eq_false,
    if_false, insert_into_queue_rq,
    Sched.setContext, Function.update_same, Function.update_idem, createdTCB]

/-- Whatever the platform answers, `ThreadCreate` returns `ERROR_SYS_THREAD`
exactly when the slot search reached `MAX_THREADS`. -/
theorem ThreadCreate_ret_sys_thread_iff (s : Sched) (env : Env) (f arg : Nat) :
    (ThreadCreate s env f arg).2 = ERROR_SYS_THREAD
      ↔ ¬ findSlot (reapedThreads s) 0 < MAX_THREADS := by
  constructor
  · intro h hlt
    cases hm : env.malloc with
    | none =>
      rw [ThreadCreate_no_memory s env f arg hlt hm] at h
      simp only [ERROR_SYS_MEM, ERROR_SYS_THREAD] at h
      omega
    | some sp =>
      by_cases hc : env.getcontext = 0
      · rw [ThreadCreate_found s env f arg sp hm hc ⟨_, hlt⟩ rfl] at h
        simp only [ERROR_SYS_THREAD] at h
        omega
      · rw [ThreadCreate_no_context s env f arg sp hlt hm hc] at h
        simp only [ERROR_OTHER, ERROR_SYS_THREAD] at h
        omega
  · intro h
    rw [ThreadCreate_full s env f arg h]

/-- No slot is free after reaping exactly when no slot is `EMPTY` then. -/
theorem findSlot_full_iff (s : Sched) (hrun : s.CurrentNotZombie) :
    ¬ findSlot (reapedThreads s) 0 < MAX_THREADS
      ↔ ∀ i : Slot, (reapedThreads s i).state ≠ State.EMPTY := by
  constructor
  · intro h i hi
    have := findSlot_le_of_free (reapedThreads s) i (fun hbusy => hbusy.1 hi) 0 (Nat.zero_le _)
    exact h (lt_of_le_of_lt this i.isLt)
  · intro h hlt
    have hfree := findSlot_lt_free (reapedThreads s) 0 hlt
    exact hfree ((reaped_busy_iff s hrun _).mpr (h _))

/-- C1: in a scheduler state whose current thread is not a zombie, with a
successful stack allocation and context capture, `ThreadCreate` returns the
least index `i` whose slot is `EMPTY` once the reaper has run; on return slot
`i` is `READY` with `thread_id = i`, every other slot is as the reaper left
it, and the ready queue is the former ready queue followed by `i`. -/
theorem C1_ThreadCreate_lowest_empty_slot (s : Sched) (env : Env) (f arg sp : Nat)
    (hm : env.malloc = some sp) (hc : env.getcontext = 0)
    (hrun : s.CurrentNotZombie) (i : Slot)
    (hi : ((free_exited_threads s).threads i).state = State.EMPTY)
    (hleast : ∀ j : Slot, j.val < i.val →
      ((free_exited_threads s).threads j).state ≠ State.EMPTY) :
    (ThreadCreate s env f arg).2 = (i.val : Int)
      ∧ ((ThreadCreate s env f arg).1.threads i).state = State.READY
      ∧ ((ThreadCreate s env f arg).1.threads i).thread_id = (i.val : Int)
      ∧ (∀ j : Slot, j ≠ i →
          (ThreadCreate s env f arg).1.threads j = (free_exited_threads s).threads j)
      ∧ (ThreadCreate s env f arg).1.rq = s.rq ++ [i] := by
  rw [free_exited_threads_eq] at hi hleast
  have hfind : findSlot (reapedThreads s) 0 = i.val :=
    findSlot_eq_of_least (reapedThreads s) i (fun hb => hb.1 hi) 0 (Nat.zero_le _)
      (fun j _ hj => (reaped_busy_iff s hrun j).mpr (hleast j hj))
  rw [ThreadCreate_found s env f arg sp hm hc i hfind, free_exited_threads_eq]
  refine ⟨rfl, ?_, ?_, ?_, rfl⟩
  · simp [createdTCB]
  · simp [createdTCB]
  · intro j hj
    simp [Function.update_noteq hj]

theorem C1_ThreadCreate_lowest_empty_slot_witness :
    (Env.healthy 4096).malloc = some 4096 ∧ (Env.healthy 4096).getcontext = 0
      ∧ bootSched.CurrentNotZombie
      ∧ (ThreadCreate bootSched (Env.healthy 4096) 7 9).2 = 1
      ∧ (ThreadCreate bootSched (Env.healthy 4096) 7 9).1.rq = [1] := by
  have h := C1_ThreadCreate_lowest_empty_slot bootSched (Env.healthy 4096) 7 9 4096 rfl rfl
    (by simp [Sched.CurrentNotZombie, bootSched]) 1
    (by rw [free_exited_threads_eq]; simp [reapedThreads, bootSched])
    (by
      intro j hj
      have hj0 : j = 0 := Fin.ext (by simpa using hj)
      subst hj0
      rw [free_exited_threads_eq]
      simp [reapedThreads, bootSched])
  refine ⟨rfl, rfl, by simp [Sched.CurrentNotZombie, bootSched], ?_, ?_⟩
  · simpa using h.1
  · simpa [bootSched] using h.2.2.2.2

theorem foldl_initSlot (l : List Slot) (hl : l.Nodup) (s : Sched) :
    l.foldl (fun (acc : Sched) (i : Slot) =>
        if 1 ≤ i.val then acc.setState i State.EMPTY else acc) s
      = { s with threads := (fun i => if i ∈ l ∧ 1 ≤ i.val then
            { s.threads i with state := State.EMPTY } else s.threads i) } := by
  induction l generalizing s with
  | nil => simp
  | cons x rest ih =>
    have hx : x ∉ rest := (List.nodup_cons.mp hl).1
    rw [List.foldl_cons, ih (List.nodup_cons.mp hl).2]
    by_cases h1 : 1 ≤ x.val
    · simp only [h1, if_true, Sched.setState]
      congr 1
      funext i
      by_cases hix : i = x
      · subst hix
        simp [hx, h1]
      · simp [hix, Function.update_noteq hix]
    · simp only [h1, if_false]
      congr 1
      funext i
      by_cases hix : i = x
      · subst hix
        simp [hx, h1]
      · simp [hix]

theorem ThreadInit_ok (s : Sched) (env : Env) (hc : env.getcontext = 0) :
    ThreadInit s env =
      ({ s with
          running_thread := 0,
          threads := initThreads s,
          rq := [],
          wait_queues := Function.update s.wait_queues 0 [] }, 0) := by
  unfold ThreadInit
  refine (if_neg (by rw [hc]; simp)).trans ?_
  rw [foldl_initSlot _ (List.nodup_finRange _)]
  simp only [List.mem_finRange, true_and]
  dsimp only [Sched.setContext, InterruptsSet]
  congr 2
  funext i
  by_cases hi : i = 0
  · subst hi
    simp [initThreads]
  · have h1 : 1 ≤ i.val := by
      rcases Nat.eq_zero_or_pos i.val with h | h
      · exact absurd (Fin.ext h) hi
      · exact h
    simp [initThreads, hi, h1, Function.update_noteq hi]

theorem ThreadInit_createdUpTo (s : Sched) (env : Env) (hc : env.getcontext = 0) :
    CreatedUpTo 0 (ThreadInit s env).1 := by
  rw [ThreadInit_ok s env hc]
  refine ⟨rfl, by simp [initThreads], ?_, ?_⟩
  · intro i h1 h0
    omega
  · intro i hi
    have : i ≠ 0 := fun h => by rw [h] at hi; simp at hi
    simp [initThreads, this]

theorem reapedThreads_of_createdUpTo (k : Nat) (s : Sched) (h : CreatedUpTo k s) :
    reapedThreads s = s.threads := by
  funext i
  unfold reapedThreads
  have hst : ¬ ((s.threads i).state = State.EXITED ∨ (s.threads i).state = State.KILLED) := by
    obtain ⟨_, h0, hr, he⟩ := h
    by_cases hi0 : i = 0
    · subst hi0; rw [h0]; decide
    · have h1 : 1 ≤ i.val := by
        rcases Nat.eq_zero_or_pos i.val with h | h
        · exact absurd (Fin.ext h) hi0
        · exact h
      by_cases hik : i.val ≤ k
      · rw [hr i h1 hik]; decide
      · rw [he i (by omega)]; decide
  simp [hst]

theorem slot_pos_of_ne_zero (i : Slot) (h : i ≠ 0) : 1 ≤ i.val := by
  rcases Nat.eq_zero_or_pos i.val with h0 | h0
  · exact absurd (Fin.ext h0) h
  · exact h0

/-- One successful `ThreadCreate` on top of `k < MAX_THREADS - 1` created
threads returns `k + 1` and leaves `k + 1` created threads. -/
theorem ThreadCreate_createdUpTo (k : Nat) (hk : k + 1 < MAX_THREADS) (s : Sched)
    (h : CreatedUpTo k s) (env : Env) (f arg : Nat)
    (hm : env.malloc ≠ none) (hc : env.getcontext = 0) :
    (ThreadCreate s env f arg).2 = ((k + 1 : Nat) : Int)
      ∧ CreatedUpTo (k + 1) (ThreadCreate s env f arg).1 := by
  obtain ⟨sp, hsp⟩ := Option.ne_none_iff_exists'.mp hm
  have hre := reapedThreads_of_createdUpTo k s h
  obtain ⟨hrun, h0, hr, he⟩ := h
  have hfind : findSlot (reapedThreads s) 0 = (⟨k + 1, hk⟩ : Slot).val := by
    rw [hre]
    apply findSlot_eq_of_least
    · intro hb
      exact hb.1 (he ⟨k + 1, hk⟩ (by simp))
    · exact Nat.zero_le _
    · intro j _ hj
      have hjk : j.val ≤ k := by simp at hj; omega
      by_cases hj0 : j = 0
      · subst hj0; unfold State.busy; rw [h0]; decide
      · unfold State.busy; rw [hr j (slot_pos_of_ne_zero j hj0) hjk]; decide
  rw [ThreadCreate_found s env f arg sp hsp hc ⟨k + 1, hk⟩ hfind, hre]
  refine ⟨rfl, hrun, ?_, ?_, ?_⟩
  · have : (0 : Slot) ≠ ⟨k + 1, hk⟩ := fun h => by
      have := congrArg Fin.val h
      simp at this
    simp [Function.update_noteq this, h0]
  · intro i h1 hik
    by_cases hi : i = ⟨k + 1, hk⟩
    · subst hi
      simp [createdTCB]
    · have : i.val ≠ k + 1 := fun hv => hi (Fin.ext hv)
      simp [Function.update_noteq hi]
      exact hr i h1 (by omega)
  · intro i hik
    have hi : i ≠ ⟨k + 1, hk⟩ := fun hv => by rw [hv] at hik; simp at hik
    simp [Function.update_noteq hi]
    exact he i (by omega)

theorem createMany_cons (c : Env × Nat × Nat) (rest : List (Env × Nat × Nat)) (s : Sched) :
    createMany (c :: rest) s
      = ((createMany rest (ThreadCreate s c.1 c.2.1 c.2.2).1).1,
          (ThreadCreate s c.1 c.2.1 c.2.2).2
            :: (createMany rest (ThreadCreate s c.1 c.2.1 c.2.2).1).2) := rfl

theorem createMany_createdUpTo (calls : List (Env × Nat × Nat)) (k : Nat) (s : Sched)
    (h : CreatedUpTo k s) (hlen : k + calls.length < MAX_THREADS)
    (hok : ∀ c ∈ calls, c.1.malloc ≠ none ∧ c.1.getcontext = 0) :
    (createMany calls s).2 = (List.range' (k + 1) calls.length).map (fun (n : Nat) => (n : Int))
      ∧ CreatedUpTo (k + calls.length) (createMany calls s).1 := by
  induction calls generalizing k s with
  | nil => exact ⟨rfl, h⟩
  | cons c rest ih =>
    have hk : k + 1 < MAX_THREADS := by simp at hlen; omega
    have hc := hok c (List.mem_cons_self _ _)
    obtain ⟨hret, hinv⟩ := ThreadCreate_createdUpTo k hk s h c.1 c.2.1 c.2.2 hc.1 hc.2
    have hrest := ih (k + 1) _ hinv (by simp at hlen ⊢; omega)
      (fun c' hc' => hok c' (List.mem_cons_of_mem _ hc'))
    rw [createMany_cons]
    constructor
    · rw [hret, hrest.1]
      rfl
    · have : k + (c :: rest).length = k + 1 + rest.length := by simp; omega
      rw [this]
      exact hrest.2

theorem ThreadCreate_of_createdUpTo_max (s : Sched) (h : CreatedUpTo (MAX_THREADS - 1) s)
    (env : Env) (f arg : Nat) :
    (ThreadCreate s env f arg).2 = ERROR_SYS_THREAD := by
  rw [ThreadCreate_ret_sys_thread_iff, reapedThreads_of_createdUpTo _ s h]
  obtain ⟨_, h0, hr, _⟩ := h
  have : findSlot s.threads 0 = MAX_THREADS := by
    apply findSlot_eq_max _ _ (Nat.zero_le _)
    intro j _
    by_cases hj0 : j = 0
    · subst hj0; unfold State.busy; rw [h0]; decide
    · unfold State.busy
      rw [hr j (slot_pos_of_ne_zero j hj0) (by have := j.isLt; omega)]
      decide
  omega

/-- C2: starting from the state a successful `ThreadInit` leaves,
`MAX_THREADS - 1 = 255` consecutive calls to `ThreadCreate` whose stack
allocation and context capture succeed return the tids `1, 2, ..., 255` in
this order, and the next `ThreadCreate` returns `ERROR_SYS_THREAD` whatever
the platform answers; and in every state whose current thread is not a
zombie, `ThreadCreate` returns `ERROR_SYS_THREAD` exactly when no slot is
`EMPTY` after reaping. -/
theorem C2_ThreadCreate_capacity (s0 : Sched) (env0 : Env) (calls : List (Env × Nat × Nat))
    (h0 : env0.getcontext = 0) (hlen : calls.length = MAX_THREADS - 1)
    (hok : ∀ c ∈ calls, c.1.malloc ≠ none ∧ c.1.getcontext = 0)
    (s : Sched) (hrun : s.CurrentNotZombie) (env : Env) (f arg : Nat) :
    (ThreadInit s0 env0).2 = 0
      ∧ (createMany calls (ThreadInit s0 env0).1).2
          = (List.range' 1 (MAX_THREADS - 1)).map (fun (n : Nat) => (n : Int))
      ∧ (ThreadCreate (createMany calls (ThreadInit s0 env0).1).1 env f arg).2
          = ERROR_SYS_THREAD
      ∧ ((ThreadCreate s env f arg).2 = ERROR_SYS_THREAD
          ↔ ∀ i : Slot, ((free_exited_threads s).threads i).state ≠ State.EMPTY) := by
  have hinit := ThreadInit_createdUpTo s0 env0 h0
  have hmany := createMany_createdUpTo calls 0 _ hinit (by rw [hlen]; decide) hok
  rw [hlen] at hmany
  refine ⟨?_, ?_, ?_, ?_⟩
  · rw [ThreadInit_ok s0 env0 h0]
  · exact hmany.1
  · exact ThreadCreate_of_createdUpTo_max _ (by simpa using hmany.2) env f arg
  · rw [ThreadCreate_ret_sys_thread_iff, findSlot_full_iff s hrun, free_exited_threads_eq]

theorem C2_ThreadCreate_capacity_witness :
    (Env.healthy 0).getcontext = 0
      ∧ (List.replicate 255 (Env.healthy 4096, 7, 9)).length = MAX_THREADS - 1
      ∧ bootSched.CurrentNotZombie
      ∧ (ThreadCreate (createMany (List.replicate 255 (Env.healthy 4096, 7, 9))
            (ThreadInit bootSched (Env.healthy 0)).1).1 (Env.healthy 4096) 7 9).2
          = ERROR_SYS_THREAD := by
  have hrun : bootSched.CurrentNotZombie := by simp [Sched.CurrentNotZombie, bootSched]
  have h := C2_ThreadCreate_capacity bootSched (Env.healthy 0)
    (List.replicate 255 (Env.healthy 4096, 7, 9)) rfl (List.length_replicate _ _)
    (by
      intro c hc
      rw [List.eq_of_mem_replicate hc]
      exact ⟨by simp [Env.healthy], rfl⟩)
    bootSched hrun (Env.healthy 4096) 7 9
  exact ⟨rfl, List.length_replicate _ _, hrun, h.2.2.1⟩

theorem markReady_nil (threads : Slot → TCB) : markReady [] threads = threads := by
  funext i
  simp [markReady]

theorem markReady_cons (t : Slot) (l : List Slot) (threads : Slot → TCB) :
    markReady l (Function.update threads t { threads t with state := State.READY })
      = markReady (t :: l) threads := by
  funext i
  unfold markReady
  by_cases hit : i = t
  · subst hit
    by_cases hil : i ∈ l <;> simp [hil]
  · by_cases hil : i ∈ l <;> simp [hil, hit, Function.update_noteq hit]

theorem wakeAllLoop_eq (q : WaitQueuePtr) (fuel : Nat) (s : Sched) (count : Int)
    (hfuel : (s.queue (.wq q)).length ≤ fuel) :
    wakeAllLoop q fuel s count
      = some (wokenAll s q, count + ((s.queue (.wq q)).length : Int)) := by
  induction fuel generalizing s count with
  | zero =>
    have hq : s.queue (.wq q) = [] := List.length_eq_zero.mp (Nat.le_zero.mp hfuel)
    simp only [wakeAllLoop, hq, if_true, wokenAll, markReady_nil, List.append_nil,
      List.length_nil, Int.ofNat_zero, add_zero, Nat.cast_zero]
    cases q with
    | join i =>
      simp only [Sched.queue] at hq
      simp [Sched.setQueue, ← hq]
    | user a =>
      simp only [Sched.queue] at hq
      simp [Sched.setQueue, ← hq]
  | succ fuel ih =>
    cases hq : s.queue (.wq q) with
    | nil =>
      simp only [wakeAllLoop, hq, if_true, wokenAll, markReady_nil, List.append_nil,
        List.length_nil, Int.ofNat_zero, add_zero, Nat.cast_zero]
      cases q with
      | join i =>
        simp only [Sched.queue] at hq
        simp [Sched.setQueue, ← hq]
      | user a =>
        simp only [Sched.queue] at hq
        simp [Sched.setQueue, ← hq]
    | cons t rest =>
      have hlen : rest.length ≤ fuel := by
        rw [hq] at hfuel
        simpa using hfuel
      cases q with
      | join i =>
        simp only [Sched.queue] at hq
        simp only [wakeAllLoop, Sched.queue, hq, extract_from_queue, InterruptsDisable,
          InterruptsSet, Sched.setQueue, insert_into_queue_rq, Sched.setState]
        simp only [reduceCtorEq, if_false]
        rw [ih _ _ (by simpa [Sched.queue] using hlen)]
        simp only [wokenAll, Sched.queue, Sched.setQueue, Function.update_same,
          Function.update_idem, markReady_cons, hq, List.append_assoc, List.singleton_append,
          List.length_cons, Nat.cast_add, Nat.cast_one]
        congr 2
        omega
      | user a =>
        simp only [Sched.queue] at hq
        simp only [wakeAllLoop, Sched.queue, hq, extract_from_queue, InterruptsDisable,
          InterruptsSet, Sched.setQueue, insert_into_queue_rq, Sched.setState]
        simp only [reduceCtorEq, if_false]
        rw [ih _ _ (by simpa [Sched.queue] using hlen)]
        simp only [wokenAll, Sched.queue, Sched.setQueue, Function.update_same,
          Function.update_idem, markReady_cons, hq, List.append_assoc, List.singleton_append,
          List.length_cons, Nat.cast_add, Nat.cast_one]
        congr 2
        omega

theorem wokenAll_of_empty (s : Sched) (q : WaitQueuePtr) (hq : s.queue (.wq q) = []) :
    wokenAll s q = s := by
  cases q with
  | join i =>
    simp only [Sched.queue] at hq
    simp only [wokenAll, Sched.queue, hq, markReady_nil, List.append_nil]
    simp [Sched.setQueue, ← hq]
  | user a =>
    simp only [Sched.queue] at hq
    simp only [wokenAll, Sched.queue, hq, markReady_nil, List.append_nil]
    simp [Sched.setQueue, ← hq]

theorem ThreadWakeAll_eq (s : Sched) (q : WaitQueuePtr) :
    ThreadWakeAll s q = (wokenAll s q, Outcome.ret ((s.queue (.wq q)).length : Int)) := by
  unfold ThreadWakeAll
  dsimp only [InterruptsDisable, InterruptsSet]
  have hq1 : ({ s with interrupts := false } : Sched).queue (.wq q) = s.queue (.wq q) := by
    cases q <;> rfl
  by_cases hq : s.queue (.wq q) = []
  · rw [if_pos (by rw [hq1]; exact hq)]
    rw [wokenAll_of_empty s q hq, hq]
    rfl
  · rw [if_neg (by rw [hq1]; exact hq)]
    rw [wakeAllLoop_eq q _ _ 0 (le_refl _)]
    simp only [hq1, zero_add]
    cases q <;> rfl

theorem remove_from_queue_rq (s : Sched) (tid : Int) (hi : s.interrupts = false) :
    remove_from_queue s .rq tid = { s with rq := unlinked s.threads tid s.rq } := by
  unfold remove_from_queue unlinked
  dsimp only [InterruptsDisable, InterruptsSet, Sched.queue]
  cases h : unlinkTid s.threads tid s.rq with
  | none => simp [← hi]
  | some l => simp [Sched.setQueue]

theorem removeFromWaitQueue_eq (tid : Int) (s : Sched) (i : Slot) (hi : s.interrupts = false) :
    removeFromWaitQueue tid s i
      = { s with wait_queues :=
            Function.update s.wait_queues i (unlinked s.threads tid (s.wait_queues i)) } := by
  unfold removeFromWaitQueue
  by_cases hq : s.wait_queues i = []
  · rw [if_neg (not_not.mpr hq)]
    have hsame : unlinked s.threads tid (s.wait_queues i) = s.wait_queues i := by
      rw [hq]
      rfl
    rw [hsame, Function.update_eq_self]
  · rw [if_pos hq]
    unfold remove_from_queue unlinked
    dsimp only [InterruptsDisable, InterruptsSet, Sched.queue]
    cases h : unlinkTid s.threads tid (s.wait_queues i) with
    | none => simp [← hi]
    | some l => simp [Sched.setQueue]

theorem foldl_removeFromWaitQueue (tid : Int) (l : List Slot) (hl : l.Nodup) (s : Sched)
    (hi : s.interrupts = false) :
    l.foldl (removeFromWaitQueue tid) s
      = { s with wait_queues := (fun i =>
            if i ∈ l then unlinked s.threads tid (s.wait_queues i) else s.wait_queues i) } := by
  induction l generalizing s with
  | nil => simp
  | cons x rest ih =>
    have hx : x ∉ rest := (List.nodup_cons.mp hl).1
    rw [List.foldl_cons, removeFromWaitQueue_eq tid s x hi]
    rw [ih (List.nodup_cons.mp hl).2
      { s with wait_queues :=
          Function.update s.wait_queues x (unlinked s.threads tid (s.wait_queues x)) } hi]
    congr 1
    funext i
    by_cases hix : i = x
    · subst hix
      simp [hx]
    · simp [hix, Function.update_noteq hix]

theorem remove_from_all_wait_queues_eq (s : Sched) (tid : Int) :
    remove_from_all_wait_queues s tid
      = { s with wait_queues := (fun i => unlinked s.threads tid (s.wait_queues i)) } := by
  unfold remove_from_all_wait_queues
  dsimp only [InterruptsDisable, InterruptsSet]
  rw [foldl_removeFromWaitQueue tid _ (List.nodup_finRange _) _ rfl]
  simp only [List.mem_finRange, if_true]

theorem remove_from_all_wait_queues_fun :
    remove_from_all_wait_queues = fun s tid =>
      { s with wait_queues := (fun i => unlinked s.threads tid (s.wait_queues i)) } :=
  funext fun s => funext fun tid => remove_from_all_wait_queues_eq s tid

theorem ThreadKill_invalid (s : Sched) (tid : Int) (h : tid < 0 ∨ tid ≥ (MAX_THREADS : Int)) :
    ThreadKill s tid = (s, Outcome.ret ERROR_TID_INVALID) := by
  unfold ThreadKill
  exact dif_pos h

theorem ThreadKill_self (s : Sched) (tid : Int) (h : ¬ (tid < 0 ∨ tid ≥ (MAX_THREADS : Int)))
    (hself : tid = (s.threads s.running_thread).thread_id) :
    ThreadKill s tid = (s, Outcome.ret ERROR_THREAD_BAD) := by
  unfold ThreadKill
  refine (dif_neg h).trans ?_
  exact if_pos hself

theorem ThreadKill_dead (s : Sched) (tid : Int) (h : ¬ (tid < 0 ∨ tid ≥ (MAX_THREADS : Int)))
    (hself : tid ≠ (s.threads s.running_thread).thread_id)
    (hdead : (s.threads (slotOf tid h)).state = State.EMPTY
      ∨ (s.threads (slotOf tid h)).state = State.KILLED
      ∨ (s.threads (slotOf tid h)).state = State.EXITED) :
    ThreadKill s tid = (s, Outcome.ret ERROR_SYS_THREAD) := by
  unfold ThreadKill
  refine (dif_neg h).trans ?_
  refine (if_neg hself).trans ?_
  exact if_pos hdead

theorem ThreadKill_live (s : Sched) (tid : Int) (h : ¬ (tid < 0 ∨ tid ≥ (MAX_THREADS : Int)))
    (hself : tid ≠ (s.threads s.running_thread).thread_id)
    (hlive : ¬ ((s.threads (slotOf tid h)).state = State.EMPTY
      ∨ (s.threads (slotOf tid h)).state = State.KILLED
      ∨ (s.threads (slotOf tid h)).state = State.EXITED)) :
    ThreadKill s tid = (killedSched s tid (slotOf tid h), Outcome.ret tid) := by
  unfold ThreadKill
  refine (dif_neg h).trans ?_
  refine (if_neg hself).trans ?_
  refine (if_neg hlive).trans ?_
  conv => zeta
  rw [remove_from_queue_rq _ _ rfl, remove_from_all_wait_queues_eq, ThreadWakeAll_eq]
  simp only [wokenAll, Sched.queue, Sched.setQueue, Sched.setState, Sched.setExitCode,
    Function.update_same, Function.update_idem, killedSched, killedThreads, InterruptsSet]

theorem slot_in_range (t : Slot) : ¬ (((t.val : Nat) : Int) < 0 ∨ ((t.val : Nat) : Int) ≥ (MAX_THREADS : Int)) := by
  have := t.isLt
  omega

theorem slotOf_val (t : Slot) (h : ¬ (((t.val : Nat) : Int) < 0 ∨ ((t.val : Nat) : Int) ≥ (MAX_THREADS : Int))) :
    slotOf (t.val : Int) h = t := by
  apply Fin.ext
  simp [slotOf]

/-- C3: `ThreadKill` classifies its argument in this order: it returns
`ERROR_TID_INVALID` exactly when `tid < 0` or `tid >= MAX_THREADS`; for a
`tid` in range it returns `ERROR_THREAD_BAD` exactly when `tid` is the thread
id of the running thread; otherwise it returns `ERROR_SYS_THREAD` exactly when
the state of `threads[tid]` is `EMPTY`, `EXITED` or `KILLED`; otherwise it
returns `tid`. -/
theorem C3_ThreadKill_classification (s : Sched) :
    (∀ tid : Int, (ThreadKill s tid).2 = Outcome.ret ERROR_TID_INVALID
        ↔ (tid < 0 ∨ tid ≥ (MAX_THREADS : Int)))
      ∧ (∀ t : Slot, (ThreadKill s (t.val : Int)).2 = Outcome.ret ERROR_THREAD_BAD
        ↔ (t.val : Int) = (s.threads s.running_thread).thread_id)
      ∧ (∀ t : Slot, (t.val : Int) ≠ (s.threads s.running_thread).thread_id →
        ((ThreadKill s (t.val : Int)).2 = Outcome.ret ERROR_SYS_THREAD
          ↔ ((s.threads t).state = State.EMPTY ∨ (s.threads t).state = State.KILLED
              ∨ (s.threads t).state = State.EXITED)))
      ∧ (∀ t : Slot, (t.val : Int) ≠ (s.threads s.running_thread).thread_id →
        ¬ ((s.threads t).state = State.EMPTY ∨ (s.threads t).state = State.KILLED
              ∨ (s.threads t).state = State.EXITED) →
        (ThreadKill s (t.val : Int)).2 = Outcome.ret (t.val : Int)) := by
  have key : ∀ t : Slot,
      (ThreadKill s (t.val : Int)).2 =
        if (t.val : Int) = (s.threads s.running_thread).thread_id then
          Outcome.ret ERROR_THREAD_BAD
        else if (s.threads t).state = State.EMPTY ∨ (s.threads t).state = State.KILLED
            ∨ (s.threads t).state = State.EXITED then Outcome.ret ERROR_SYS_THREAD
        else Outcome.ret (t.val : Int) := by
    intro t
    have hr := slot_in_range t
    by_cases hself : (t.val : Int) = (s.threads s.running_thread).thread_id
    · rw [ThreadKill_self s _ hr hself, if_pos hself]
    · rw [if_neg hself]
      by_cases hdead : (s.threads t).state = State.EMPTY ∨ (s.threads t).state = State.KILLED
          ∨ (s.threads t).state = State.EXITED
      · rw [ThreadKill_dead s _ hr hself (by rw [slotOf_val]; exact hdead), if_pos hdead]
      · rw [ThreadKill_live s _ hr hself (by rw [slotOf_val]; exact hdead), if_neg hdead]
  have hnat : ∀ t : Slot, (0 : Int) ≤ (t.val : Int) := fun t => Int.ofNat_nonneg _
  refine ⟨?_, ?_, ?_, ?_⟩
  · intro tid
    constructor
    · intro h
      by_contra hr
      have ht : tid = ((slotOf tid hr).val : Int) := by
        simp only [slotOf]
        omega
      rw [ht, key] at h
      have h0 := hnat (slotOf tid hr)
      split at h
      · simp [ERROR_THREAD_BAD, ERROR_TID_INVALID] at h
      · split at h
        · simp [ERROR_SYS_THREAD, ERROR_TID_INVALID] at h
        · simp only [ERROR_TID_INVALID, Outcome.ret.injEq] at h
          omega
    · intro h
      rw [ThreadKill_invalid s tid h]
  · intro t
    rw [key]
    have h0 := hnat t
    constructor
    · intro h
      by_contra hne
      rw [if_neg hne] at h
      split at h
      · simp [ERROR_SYS_THREAD, ERROR_THREAD_BAD] at h
      · simp only [ERROR_THREAD_BAD, Outcome.ret.injEq] at h
        omega
    · intro h
      rw [if_pos h]
  · intro t hne
    rw [key, if_neg hne]
    have h0 := hnat t
    constructor
    · intro h
      by_contra hd
      rw [if_neg hd] at h
      simp only [ERROR_SYS_THREAD, Outcome.ret.injEq] at h
      omega
    · intro h
      rw [if_pos h]
  · intro t hne hlive
    rw [key, if_neg hne, if_neg hlive]

/-- The three error tests of `check_thread_3.c`, run on the state in which
only the bootstrap thread exists. -/
theorem C3_ThreadKill_classification_witness :
    (ThreadKill bootSched (-42)).2 = Outcome.ret ERROR_TID_INVALID
      ∧ (ThreadKill bootSched ((0 : Slot).val : Int)).2 = Outcome.ret ERROR_THREAD_BAD
      ∧ (ThreadKill bootSched ((42 : Slot).val : Int)).2 = Outcome.ret ERROR_SYS_THREAD := by
  have h := C3_ThreadKill_classification bootSched
  refine ⟨(h.1 (-42)).mpr (by decide), (h.2.1 0).mpr (by decide), ?_⟩
  exact (h.2.2.1 42 (by decide)).mpr (by decide)

theorem unlinked_eq_erase (threads : Slot → TCB) (tid : Int) (t : Slot) (l : List Slot)
    (h : ∀ p ∈ l, ((threads p).thread_id = tid ↔ p = t)) :
    unlinked threads tid l = l.erase t := by
  induction l with
  | nil => rfl
  | cons x rest ih =>
    have ihr := ih (fun p hp => h p (List.mem_cons_of_mem _ hp))
    unfold unlinked at ihr ⊢
    by_cases hx : (threads x).thread_id = tid
    · have hxt : x = t := (h x (List.mem_cons_self _ _)).mp hx
      subst hxt
      simp [unlinkTid, hx]
    · have hxt : ¬ x = t := fun e => hx ((h x (List.mem_cons_self _ _)).mpr e)
      simp only [unlinkTid, hx, if_false]
      rw [List.erase_cons_tail (by simpa using hxt)]
      cases hu : unlinkTid threads tid rest with
      | none =>
        rw [hu] at ihr
        simp only [Option.map_none', Option.getD_none]
        simp only [Option.getD_none] at ihr
        rw [← ihr]
      | some l' =>
        rw [hu] at ihr
        simp only [Option.map_some', Option.getD_some]
        simp only [Option.getD_some] at ihr
        rw [ihr]

theorem tid_match_iff (threads : Slot → TCB) (t p : Slot)
    (hp : (threads p).thread_id = (p.val : Int)) :
    (threads p).thread_id = (t.val : Int) ↔ p = t := by
  rw [hp]
  constructor
  · intro h
    exact Fin.ext (by exact_mod_cast h)
  · intro h
    rw [h]

theorem killedThreads_thread_id (s : Sched) (t p : Slot) :
    (killedThreads s t p).thread_id = (s.threads p).thread_id := by
  unfold killedThreads
  by_cases hpt : p = t
  · subst hpt
    simp
  · simp [Function.update_noteq hpt]

/-- Effect of `ThreadKill` under the queue invariants: after a successful
`ThreadKill(tid)` (the target is `READY` or
`BLOCKED` and is not the caller), in a state where the TCBs in the ready
queue and in the join queue of `tid` carry their table index as thread id,
the ready queue holds no TCB twice and the target does not wait in its own
join queue: the call returns `tid`, the target is `KILLED` with exit code
`EXIT_CODE_KILL = -999`, it is no longer in the ready queue, the join queue of
`tid` is empty, and every thread that waited in it is `READY` and follows the
remaining ready threads in the ready queue, in the order it held in the join
queue. -/
theorem ThreadKill_effect_of_invariants (s : Sched) (t : Slot)
    (hself : (t.val : Int) ≠ (s.threads s.running_thread).thread_id)
    (hlive : (s.threads t).state = State.READY ∨ (s.threads t).state = State.BLOCKED)
    (hrq : ∀ p ∈ s.rq, (s.threads p).thread_id = (p.val : Int))
    (hjq : ∀ p ∈ s.wait_queues t, (s.threads p).thread_id = (p.val : Int))
    (hnodup : s.rq.Nodup) (hnoself : t ∉ s.wait_queues t) :
    (ThreadKill s (t.val : Int)).2 = Outcome.ret (t.val : Int)
      ∧ ((ThreadKill s (t.val : Int)).1.threads t).state = State.KILLED
      ∧ ((ThreadKill s (t.val : Int)).1.threads t).exit_code = EXIT_CODE_KILL
      ∧ EXIT_CODE_KILL = -999
      ∧ t ∉ (ThreadKill s (t.val : Int)).1.rq
      ∧ (ThreadKill s (t.val : Int)).1.wait_queues t = []
      ∧ (∀ p ∈ s.wait_queues t, ((ThreadKill s (t.val : Int)).1.threads p).state = State.READY)
      ∧ (ThreadKill s (t.val : Int)).1.rq = s.rq.erase t ++ s.wait_queues t := by
  have hr := slot_in_range t
  have hnd : ¬ ((s.threads (slotOf (t.val : Int) hr)).state = State.EMPTY
      ∨ (s.threads (slotOf (t.val : Int) hr)).state = State.KILLED
      ∨ (s.threads (slotOf (t.val : Int) hr)).state = State.EXITED) := by
    rw [slotOf_val]
    rcases hlive with h | h <;> rw [h] <;> decide
  rw [ThreadKill_live s _ hr hself hnd, slotOf_val]
  have hq1 : unlinked (killedThreads s t) (t.val : Int) s.rq = s.rq.erase t :=
    unlinked_eq_erase _ _ t _ (fun p hp => by
      rw [killedThreads_thread_id]
      exact tid_match_iff s.threads t p (hrq p hp))
  have hq2 : unlinked (killedThreads s t) (t.val : Int) (s.wait_queues t) = s.wait_queues t := by
    rw [unlinked_eq_erase _ _ t _ (fun p hp => by
      rw [killedThreads_thread_id]
      exact tid_match_iff s.threads t p (hjq p hp))]
    exact List.erase_of_not_mem hnoself
  simp only [killedSched, hq1, hq2, Function.update_same]
  refine ⟨trivial, ?_, ?_, rfl, ?_, trivial, ?_, trivial⟩
  · simp [markReady, hnoself, killedThreads]
  · simp [markReady, hnoself, killedThreads]
  · intro hmem
    rcases List.mem_append.mp hmem with h | h
    · exact (List.Nodup.mem_erase_iff hnodup).mp h |>.1 rfl
    · exact hnoself h
  · intro p hp
    simp [markReady, hp]

theorem ThreadKill_effect_of_invariants_witness :
    (ThreadKill joinSched ((1 : Slot).val : Int)).2 = Outcome.ret 1
      ∧ ((ThreadKill joinSched ((1 : Slot).val : Int)).1.threads 1).state = State.KILLED
      ∧ ((ThreadKill joinSched ((1 : Slot).val : Int)).1.threads 2).state = State.READY
      ∧ (ThreadKill joinSched ((1 : Slot).val : Int)).1.rq = [2] := by
  have h := ThreadKill_effect_of_invariants joinSched 1 (by decide) (by decide)
    (by
      intro p hp
      have hp1 : p = 1 := by simpa [joinSched] using hp
      subst hp1
      rfl)
    (by
      intro p hp
      have hp2 : p = 2 := by simpa [joinSched] using hp
      subst hp2
      rfl)
    (by simp [joinSched]) (by simp [joinSched])
  exact ⟨h.1, h.2.1, h.2.2.2.2.2.2.1 2 (by decide), h.2.2.2.2.2.2.2⟩

theorem ThreadWakeNext_empty (s : Sched) (q : WaitQueuePtr) (hq : s.queue (.wq q) = []) :
    ThreadWakeNext s q = (s, Outcome.ret 0) := by
  unfold ThreadWakeNext
  dsimp only [InterruptsDisable, InterruptsSet]
  have hq1 : ({ s with interrupts := false } : Sched).queue (.wq q) = s.queue (.wq q) := by
    cases q <;> rfl
  rw [if_pos (by rw [hq1]; exact hq)]

theorem ThreadWakeNext_cons (s : Sched) (q : WaitQueuePtr) (t : Slot) (rest : List Slot)
    (hq : s.queue (.wq q) = t :: rest) :
    ThreadWakeNext s q =
      (Sched.setQueue
        { s with threads := Function.update s.threads t { s.threads t with state := State.READY },
                 rq := s.rq ++ [t] } (.wq q) rest, Outcome.ret 1) := by
  unfold ThreadWakeNext
  dsimp only [InterruptsDisable, InterruptsSet]
  have hq1 : ({ s with interrupts := false } : Sched).queue (.wq q) = t :: rest := by
    rw [← hq]
    cases q <;> rfl
  rw [if_neg (by rw [hq1]; simp)]
  unfold extract_from_queue
  dsimp only [InterruptsDisable, InterruptsSet]
  rw [hq1]
  simp only [insert_into_queue_rq, Sched.setState]
  cases q <;> rfl

/-- C5 (failing input): thread 3 of `joinSched` sleeps on the user wait queue
at address 64.  `ThreadKill(3)` succeeds and marks it `KILLED`, but the queue
still references its TCB, and a following `ThreadWakeNext` on that queue moves
the killed thread to the ready queue and marks it `READY`. -/
theorem C5_ThreadKill_leaves_user_queue :
    joinSched.user_queues 64 = [3]
      ∧ (ThreadKill joinSched 3).2 = Outcome.ret 3
      ∧ ((ThreadKill joinSched 3).1.threads 3).state = State.KILLED
      ∧ (ThreadKill joinSched 3).1.user_queues 64 = [3]
      ∧ (ThreadWakeNext (ThreadKill joinSched 3).1 (.user 64)).2 = Outcome.ret 1
      ∧ ((ThreadWakeNext (ThreadKill joinSched 3).1 (.user 64)).1.threads 3).state = State.READY
      ∧ (3 : Slot) ∈ (ThreadWakeNext (ThreadKill joinSched 3).1 (.user 64)).1.rq := by
  have hk : ThreadKill joinSched 3 = (killedSched joinSched 3 3, Outcome.ret 3) := by
    have h := ThreadKill_live joinSched ((3 : Slot).val : Int) (slot_in_range 3) (by decide)
      (by rw [slotOf_val]; decide)
    rw [slotOf_val] at h
    exact h
  have hu : (killedSched joinSched 3 3).queue (.wq (.user 64)) = [3] := rfl
  rw [hk]
  dsimp only
  rw [ThreadWakeNext_cons _ _ 3 [] hu]
  refine ⟨rfl, rfl, ?_, rfl, rfl, ?_, ?_⟩
  · simp [killedSched, markReady, unlinked, unlinkTid, joinSched, killedThreads]
  · simp [Sched.setQueue]
  · simp [Sched.setQueue]

theorem reapedThreads_thread_id (s : Sched) (i : Slot) :
    (reapedThreads s i).thread_id = (s.threads i).thread_id := by
  unfold reapedThreads
  split <;> rfl

theorem ThreadYieldTo_invalid (s : Sched) (env : Env) (tid : Int)
    (h : tid < 0 ∨ tid ≥ (MAX_THREADS : Int)) :
    ThreadYieldTo s env tid = (reapedSched s, Outcome.ret ERROR_TID_INVALID) := by
  unfold ThreadYieldTo
  refine (dif_pos h).trans ?_
  rw [free_exited_threads_eq]
  rfl

theorem ThreadYieldTo_self (s : Sched) (env : Env) (tid : Int)
    (h : ¬ (tid < 0 ∨ tid ≥ (MAX_THREADS : Int)))
    (hself : tid = (s.threads s.running_thread).thread_id) :
    ThreadYieldTo s env tid = (reapedSched s, Outcome.ret tid) := by
  unfold ThreadYieldTo
  refine (dif_neg h).trans ?_
  rw [free_exited_threads_eq]
  refine (if_pos ?_).trans rfl
  dsimp only [reapedThreads_intr]
  rw [reapedThreads_thread_id]
  exact hself

theorem ThreadYieldTo_not_ready (s : Sched) (env : Env) (tid : Int)
    (h : ¬ (tid < 0 ∨ tid ≥ (MAX_THREADS : Int)))
    (hself : tid ≠ (s.threads s.running_thread).thread_id)
    (hst : (reapedThreads s (slotOf tid h)).state ≠ State.READY) :
    ThreadYieldTo s env tid = (reapedSched s, Outcome.ret ERROR_THREAD_BAD) := by
  unfold ThreadYieldTo
  refine (dif_neg h).trans ?_
  rw [free_exited_threads_eq]
  refine (if_neg ?_).trans ?_
  · dsimp only [reapedThreads_intr]
    rw [reapedThreads_thread_id]
    exact hself
  · exact (if_pos hst).trans rfl

theorem ThreadYieldTo_no_context (s : Sched) (env : Env) (tid : Int)
    (h : ¬ (tid < 0 ∨ tid ≥ (MAX_THREADS : Int)))
    (hself : tid ≠ (s.threads s.running_thread).thread_id)
    (hst : (reapedThreads s (slotOf tid h)).state = State.READY)
    (hc : env.getcontext ≠ 0) :
    ThreadYieldTo s env tid = (reapedSched s, Outcome.ret ERROR_THREAD_BAD) := by
  unfold ThreadYieldTo
  refine (dif_neg h).trans ?_
  rw [free_exited_threads_eq]
  refine (if_neg ?_).trans ?_
  · dsimp only [reapedThreads_intr]
    rw [reapedThreads_thread_id]
    exact hself
  · refine (if_neg (not_not.mpr hst)).trans ?_
    exact (if_pos hc).trans rfl

theorem ThreadYieldTo_switch (s : Sched) (env : Env) (tid : Int)
    (h : ¬ (tid < 0 ∨ tid ≥ (MAX_THREADS : Int)))
    (hself : tid ≠ (s.threads s.running_thread).thread_id)
    (hst : (reapedThreads s (slotOf tid h)).state = State.READY)
    (hc : env.getcontext = 0) :
    ThreadYieldTo s env tid =
      if env.setcontext = 0 then (yieldedToSched s tid (slotOf tid h), Outcome.switched)
      else ({ yieldedToSched s tid (slotOf tid h) with interrupts := s.interrupts },
        Outcome.ret tid) := by
  unfold ThreadYieldTo
  refine (dif_neg h).trans ?_
  rw [free_exited_threads_eq]
  refine (if_neg ?_).trans ?_
  · dsimp only [reapedThreads_intr]
    rw [reapedThreads_thread_id]
    exact hself
  · refine (if_neg (not_not.mpr hst)).trans ?_
    refine (if_neg (not_not.mpr hc)).trans ?_
    dsimp only [reapedThreads_intr, InterruptsSet]
    rw [insert_into_queue_rq, remove_from_queue_rq _ _ rfl]
    simp only [Sched.setContext, Sched.setState, Function.update_same, Function.update_idem,
      yieldedToSched]

theorem reapedThreads_running (s : Sched) :
    reapedThreads s s.running_thread = s.threads s.running_thread := by
  simp [reapedThreads]

theorem reapedThreads_ready (s : Sched) (t : Slot) (h : (s.threads t).state = State.READY) :
    reapedThreads s t = s.threads t := by
  simp [reapedThreads, h]

/-- C6: `ThreadYieldTo` classifies its argument in this order: it returns
`ERROR_TID_INVALID` for every `tid < 0` or `tid >= MAX_THREADS`, for example
for `0xDEADBEEF` read as a 32-bit `int`; otherwise, if `tid` is the thread id
of the running thread, it returns `tid` at once and the current thread, its
state and the ready queue are as before; otherwise, if the state of the target
after reaping is not `READY`, it returns `ERROR_THREAD_BAD`. -/
theorem C6_ThreadYieldTo_classification (s : Sched) (env : Env) :
    (∀ tid : Int, (tid < 0 ∨ tid ≥ (MAX_THREADS : Int)) →
        (ThreadYieldTo s env tid).2 = Outcome.ret ERROR_TID_INVALID)
      ∧ asInt32 0xDEADBEEF = -559038737
      ∧ (ThreadYieldTo s env (asInt32 0xDEADBEEF)).2 = Outcome.ret ERROR_TID_INVALID
      ∧ (∀ t : Slot, (t.val : Int) = (s.threads s.running_thread).thread_id →
          (ThreadYieldTo s env (t.val : Int)).2 = Outcome.ret (t.val : Int)
            ∧ (ThreadYieldTo s env (t.val : Int)).1.running_thread = s.running_thread
            ∧ (ThreadYieldTo s env (t.val : Int)).1.threads s.running_thread
                = s.threads s.running_thread
            ∧ (ThreadYieldTo s env (t.val : Int)).1.rq = s.rq)
      ∧ (∀ t : Slot, (t.val : Int) ≠ (s.threads s.running_thread).thread_id →
          ((free_exited_threads s).threads t).state ≠ State.READY →
          (ThreadYieldTo s env (t.val : Int)).2 = Outcome.ret ERROR_THREAD_BAD) := by
  have hbeef : asInt32 0xDEADBEEF = -559038737 := by decide
  refine ⟨?_, hbeef, ?_, ?_, ?_⟩
  · intro tid h
    rw [ThreadYieldTo_invalid s env tid h]
  · rw [ThreadYieldTo_invalid s env _ (by rw [hbeef]; decide)]
  · intro t ht
    rw [ThreadYieldTo_self s env _ (slot_in_range t) ht]
    exact ⟨rfl, rfl, reapedThreads_running s, rfl⟩
  · intro t ht hst
    rw [free_exited_threads_eq] at hst
    rw [ThreadYieldTo_not_ready s env _ (slot_in_range t) ht (by rw [slotOf_val]; exact hst)]

/-- The first error test of `check_thread_3.c`, and two more calls, on the
state in which only the bootstrap thread exists. -/
theorem C6_ThreadYieldTo_classification_witness :
    (ThreadYieldTo bootSched (Env.healthy 0) (asInt32 0xDEADBEEF)).2
        = Outcome.ret ERROR_TID_INVALID
      ∧ (ThreadYieldTo bootSched (Env.healthy 0) ((0 : Slot).val : Int)).2 = Outcome.ret 0
      ∧ (ThreadYieldTo bootSched (Env.healthy 0) ((5 : Slot).val : Int)).2
          = Outcome.ret ERROR_THREAD_BAD := by
  have h := C6_ThreadYieldTo_classification bootSched (Env.healthy 0)
  refine ⟨h.2.2.1, (h.2.2.2.1 0 (by decide)).1, h.2.2.2.2 5 (by decide) ?_⟩
  rw [free_exited_threads_eq]
  simp [reapedThreads, bootSched]

theorem erase_append_singleton (l : List Slot) (t c : Slot) (htc : t ≠ c) :
    (l ++ [c]).erase t = l.erase t ++ [c] := by
  by_cases hm : t ∈ l
  · exact List.erase_append_left _ hm
  · rw [List.erase_append_right _ hm, List.erase_of_not_mem hm]
    congr 1
    exact List.erase_of_not_mem (by simpa using htc)

/-- Effect of `ThreadYieldTo` under the queue invariants: in a state where the
running TCB and the TCBs in the ready queue
carry their table index as thread id and the ready queue holds no TCB twice,
for a target `tid` in range that differs from the caller's thread id and is
`READY`, and when `getcontext` succeeds: `ThreadYieldTo(tid)` switches to the
target (or, should `setcontext` fail, returns `tid` at once); the caller is
`READY` and the last element of the ready queue, the target is no longer in
the ready queue, is `RUNNING` and is the current thread, the other entries of
the ready queue keep their order, and the caller, when it is resumed from the
context saved here, receives `tid`. -/
theorem ThreadYieldTo_switch_of_invariants (s : Sched) (env : Env) (t : Slot)
    (hself : (t.val : Int) ≠ (s.threads s.running_thread).thread_id)
    (hready : (s.threads t).state = State.READY)
    (hc : env.getcontext = 0)
    (hcur : (s.threads s.running_thread).thread_id = (s.running_thread.val : Int))
    (hrq : ∀ p ∈ s.rq, (s.threads p).thread_id = (p.val : Int))
    (hnodup : s.rq.Nodup) :
    (ThreadYieldTo s env (t.val : Int)).2
        = (if env.setcontext = 0 then Outcome.switched else Outcome.ret (t.val : Int))
      ∧ ((ThreadYieldTo s env (t.val : Int)).1.threads s.running_thread).state = State.READY
      ∧ (ThreadYieldTo s env (t.val : Int)).1.rq.getLast? = some s.running_thread
      ∧ t ∉ (ThreadYieldTo s env (t.val : Int)).1.rq
      ∧ ((ThreadYieldTo s env (t.val : Int)).1.threads t).state = State.RUNNING
      ∧ (ThreadYieldTo s env (t.val : Int)).1.running_thread = t
      ∧ (ThreadYieldTo s env (t.val : Int)).1.rq = s.rq.erase t ++ [s.running_thread]
      ∧ (∀ sr : Sched, sr.running_thread = s.running_thread →
          (sr.threads s.running_thread).context
            = ((ThreadYieldTo s env (t.val : Int)).1.threads s.running_thread).context →
          (resume sr).map (fun r => r.value) = some (some (t.val : Int))) := by
  have hr := slot_in_range t
  have htc : t ≠ s.running_thread := by
    intro h
    apply hself
    rw [hcur, h]
  have hct : s.running_thread ≠ t := fun h => htc h.symm
  have hst : (reapedThreads s (slotOf (t.val : Int) hr)).state = State.READY := by
    rw [slotOf_val, reapedThreads_ready s t hready]
    exact hready
  have hq : unlinked
      (Function.update (reapedThreads s) s.running_thread
        { reapedThreads s s.running_thread with
          context := Context.saved [Frame.yieldTo (t.val : Int) s.interrupts],
          state := State.READY })
      (t.val : Int) (s.rq ++ [s.running_thread]) = s.rq.erase t ++ [s.running_thread] := by
    rw [unlinked_eq_erase _ _ t]
    · exact erase_append_singleton _ _ _ htc
    · intro p hp
      have hid : (Function.update (reapedThreads s) s.running_thread
          { reapedThreads s s.running_thread with
            context := Context.saved [Frame.yieldTo (t.val : Int) s.interrupts],
            state := State.READY } p).thread_id = (p.val : Int) := by
        by_cases hpc : p = s.running_thread
        · subst hpc
          simp [reapedThreads_thread_id, hcur]
        · rw [Function.update_noteq hpc, reapedThreads_thread_id]
          rcases List.mem_append.mp hp with h | h
          · exact hrq p h
          · exact absurd (by simpa using h) hpc
      exact tid_match_iff _ t p hid
  have hnot : t ∉ s.rq.erase t ++ [s.running_thread] := by
    intro hmem
    rcases List.mem_append.mp hmem with h | h
    · exact ((List.Nodup.mem_erase_iff hnodup).mp h).1 rfl
    · exact htc (by simpa using h)
  have hstate : ∀ b : Bool,
      (({ yieldedToSched s (t.val : Int) t with interrupts := b } : Sched).threads
          s.running_thread).state = State.READY
        ∧ ({ yieldedToSched s (t.val : Int) t with interrupts := b } : Sched).rq
            = s.rq.erase t ++ [s.running_thread]
        ∧ (({ yieldedToSched s (t.val : Int) t with interrupts := b } : Sched).threads t).state
            = State.RUNNING
        ∧ ({ yieldedToSched s (t.val : Int) t with interrupts := b } : Sched).running_thread = t
        ∧ (({ yieldedToSched s (t.val : Int) t with interrupts := b } : Sched).threads
            s.running_thread).context
              = Context.saved [Frame.yieldTo (t.val : Int) s.interrupts] := by
    intro b
    refine ⟨?_, ?_, ?_, rfl, ?_⟩
    · simp [yieldedToSched, Function.update_noteq hct]
    · simp only [yieldedToSched, hq]
    · simp [yieldedToSched]
    · simp [yieldedToSched, Function.update_noteq hct]
  have hres : ∀ sr : Sched, sr.running_thread = s.running_thread →
      (sr.threads s.running_thread).context
        = Context.saved [Frame.yieldTo (t.val : Int) s.interrupts] →
      (resume sr).map (fun r => r.value) = some (some (t.val : Int)) := by
    intro sr h1 h2
    unfold resume
    rw [h1, h2]
    rfl
  rw [ThreadYieldTo_switch s env _ hr hself hst hc, slotOf_val]
  by_cases hsc : env.setcontext = 0
  · rw [if_pos hsc, if_pos hsc]
    obtain ⟨h1, h2, h3, h4, h5⟩ := hstate false
    refine ⟨rfl, h1, ?_, ?_, h3, h4, h2, ?_⟩
    · rw [show (yieldedToSched s (t.val : Int) t).rq = _ from h2]
      simp
    · rw [show (yieldedToSched s (t.val : Int) t).rq = _ from h2]
      exact hnot
    · intro sr hsr hctx
      exact hres sr hsr (hctx.trans h5)
  · rw [if_neg hsc, if_neg hsc]
    obtain ⟨h1, h2, h3, h4, h5⟩ := hstate s.interrupts
    refine ⟨rfl, h1, ?_, ?_, h3, h4, h2, ?_⟩
    · dsimp only
      rw [h2]
      simp
    · dsimp only
      rw [h2]
      exact hnot
    · intro sr hsr hctx
      exact hres sr hsr (hctx.trans h5)

theorem ThreadYieldTo_switch_of_invariants_witness :
    (ThreadYieldTo joinSched (Env.healthy 0) ((1 : Slot).val : Int)).2 = Outcome.switched
      ∧ (ThreadYieldTo joinSched (Env.healthy 0) ((1 : Slot).val : Int)).1.running_thread = 1
      ∧ (ThreadYieldTo joinSched (Env.healthy 0) ((1 : Slot).val : Int)).1.rq = [0]
      ∧ ((ThreadYieldTo joinSched (Env.healthy 0) ((1 : Slot).val : Int)).1.threads
            joinSched.running_thread).state = State.READY := by
  have h := ThreadYieldTo_switch_of_invariants joinSched (Env.healthy 0) 1 (by decide) (by decide) rfl
    (by decide)
    (by
      intro p hp
      have hp1 : p = 1 := by simpa [joinSched] using hp
      subst hp1
      rfl)
    (by simp [joinSched])
  exact ⟨h.1, h.2.2.2.2.2.1, h.2.2.2.2.2.2.1, h.2.1⟩

theorem ThreadYield_empty (s : Sched) (env : Env) (hq : s.rq = []) :
    ThreadYield s env
      = (reapedSched s, Outcome.ret (s.threads s.running_thread).thread_id) := by
  unfold ThreadYield
  refine (if_pos (by rw [free_exited_threads_eq]; exact hq)).trans ?_
  rw [free_exited_threads_eq]
  dsimp only [reapedThreads_intr]
  rw [reapedThreads_thread_id]
  rfl

theorem ThreadYield_no_context (s : Sched) (env : Env) (hq : s.rq ≠ [])
    (hc : env.getcontext ≠ 0) :
    ThreadYield s env = (reapedSched s, Outcome.ret ERROR_THREAD_BAD) := by
  unfold ThreadYield
  refine (if_neg (by rw [free_exited_threads_eq]; exact hq)).trans ?_
  refine (if_pos hc).trans ?_
  rw [free_exited_threads_eq]
  rfl

theorem ThreadYield_switch (s : Sched) (env : Env) (head : Slot) (rest : List Slot)
    (hq : s.rq = head :: rest) (hc : env.getcontext = 0) :
    ThreadYield s env =
      if env.setcontext = 0 then (yieldedSched s head rest, Outcome.switched)
      else ({ yieldedSched s head rest with interrupts := s.interrupts },
        Outcome.ret (s.threads head).thread_id) := by
  unfold ThreadYield
  refine (if_neg (by rw [free_exited_threads_eq, hq]; simp)).trans ?_
  refine (if_neg (not_not.mpr hc)).trans ?_
  rw [free_exited_threads_eq]
  conv => zeta
  dsimp only [reapedThreads_intr]
  rw [insert_into_queue_rq]
  unfold extract_from_queue
  dsimp only [InterruptsDisable, InterruptsSet, Sched.queue, Sched.setContext, Sched.setState]
  rw [hq]
  dsimp only [List.cons_append, Sched.setQueue]
  simp only [Function.update_same, Function.update_idem]
  have hid : ∀ (tcb : TCB),
      tcb.thread_id = (reapedThreads s s.running_thread).thread_id →
      (Function.update (reapedThreads s) s.running_thread tcb head).thread_id
        = (s.threads head).thread_id := by
    intro tcb htcb
    by_cases hh : head = s.running_thread
    · subst hh
      simp [htcb, reapedThreads_thread_id]
    · simp [Function.update_noteq hh, reapedThreads_thread_id]
  simp only [hid, yieldedSched, yieldingTCB]

/-- Effect of `ThreadYield` when another thread is at the head: in a state
whose ready queue is `head :: rest` with `head` not the
caller, and when `getcontext` succeeds, `ThreadYield` dispatches `head` (it
becomes `RUNNING` and the current thread), the caller becomes `READY` and the
last element of the ready queue, behind every thread that was ready at the
call, and the value the caller receives (when it is resumed from the context
saved here, or at once should `setcontext` fail) is the thread id of `head`. -/
theorem ThreadYield_dispatches_other_head (s : Sched) (env : Env) (head : Slot)
    (rest : List Slot) (hq : s.rq = head :: rest) (hne : head ≠ s.running_thread)
    (hc : env.getcontext = 0) :
    (ThreadYield s env).2
        = (if env.setcontext = 0 then Outcome.switched
            else Outcome.ret (s.threads head).thread_id)
      ∧ ((ThreadYield s env).1.threads head).state = State.RUNNING
      ∧ (ThreadYield s env).1.running_thread = head
      ∧ ((ThreadYield s env).1.threads s.running_thread).state = State.READY
      ∧ (ThreadYield s env).1.rq = rest ++ [s.running_thread]
      ∧ (ThreadYield s env).1.rq.getLast? = some s.running_thread
      ∧ (∀ sr : Sched, sr.running_thread = s.running_thread →
          (sr.threads s.running_thread).context
            = ((ThreadYield s env).1.threads s.running_thread).context →
          (resume sr).map (fun r => r.value) = some (some (s.threads head).thread_id)) := by
  have hcn : s.running_thread ≠ head := fun h => hne h.symm
  have hstate : ∀ b : Bool,
      (({ yieldedSched s head rest with interrupts := b } : Sched).threads head).state
          = State.RUNNING
        ∧ ({ yieldedSched s head rest with interrupts := b } : Sched).running_thread = head
        ∧ (({ yieldedSched s head rest with interrupts := b } : Sched).threads
            s.running_thread).state = State.READY
        ∧ ({ yieldedSched s head rest with interrupts := b } : Sched).rq
            = rest ++ [s.running_thread]
        ∧ (({ yieldedSched s head rest with interrupts := b } : Sched).threads
            s.running_thread).context
              = Context.saved [Frame.yield (s.threads head).thread_id s.interrupts] := by
    intro b
    refine ⟨?_, rfl, ?_, rfl, ?_⟩
    · simp [yieldedSched]
    · simp [yieldedSched, yieldingTCB, Function.update_noteq hcn]
    · simp [yieldedSched, yieldingTCB, Function.update_noteq hcn]
  have hres : ∀ sr : Sched, sr.running_thread = s.running_thread →
      (sr.threads s.running_thread).context
        = Context.saved [Frame.yield (s.threads head).thread_id s.interrupts] →
      (resume sr).map (fun r => r.value) = some (some (s.threads head).thread_id) := by
    intro sr h1 h2
    unfold resume
    rw [h1, h2]
    rfl
  rw [ThreadYield_switch s env head rest hq hc]
  by_cases hsc : env.setcontext = 0
  · rw [if_pos hsc, if_pos hsc]
    obtain ⟨h1, h2, h3, h4, h5⟩ := hstate false
    refine ⟨rfl, h1, h2, h3, h4, ?_, ?_⟩
    · rw [show (yieldedSched s head rest).rq = _ from h4]
      simp
    · intro sr hsr hctx
      exact hres sr hsr (hctx.trans h5)
  · rw [if_neg hsc, if_neg hsc]
    obtain ⟨h1, h2, h3, h4, h5⟩ := hstate s.interrupts
    refine ⟨rfl, h1, h2, h3, h4, ?_, ?_⟩
    · dsimp only
      rw [h4]
      simp
    · intro sr hsr hctx
      exact hres sr hsr (hctx.trans h5)

theorem ThreadYield_dispatches_other_head_witness :
    joinSched.rq = [1]
      ∧ (ThreadYield joinSched (Env.healthy 0)).2 = Outcome.switched
      ∧ (ThreadYield joinSched (Env.healthy 0)).1.running_thread = 1
      ∧ (ThreadYield joinSched (Env.healthy 0)).1.rq = [joinSched.running_thread] := by
  have h := ThreadYield_dispatches_other_head joinSched (Env.healthy 0) 1 [] rfl (by decide) rfl
  exact ⟨rfl, h.1, h.2.2.1, h.2.2.2.2.1⟩

/-- C9: in every state whose ready queue is empty, `ThreadYield` returns the
thread id of the calling thread; the current thread, its TCB (so its state),
the ready queue, every wait queue and the interrupt state are as before.
Right after a successful `ThreadInit`, `ThreadYield` returns 0. -/
theorem C9_ThreadYield_empty_ready_queue (s : Sched) (env : Env) (hq : s.rq = [])
    (s0 : Sched) (env0 : Env) (h0 : env0.getcontext = 0) :
    (ThreadYield s env).2 = Outcome.ret (s.threads s.running_thread).thread_id
      ∧ (ThreadYield s env).1.running_thread = s.running_thread
      ∧ (ThreadYield s env).1.threads s.running_thread = s.threads s.running_thread
      ∧ (ThreadYield s env).1.rq = s.rq
      ∧ (ThreadYield s env).1.wait_queues = s.wait_queues
      ∧ (ThreadYield s env).1.user_queues = s.user_queues
      ∧ (ThreadYield s env).1.interrupts = s.interrupts
      ∧ (ThreadYield (ThreadInit s0 env0).1 env).2 = Outcome.ret 0 := by
  rw [ThreadYield_empty s env hq]
  refine ⟨rfl, rfl, reapedThreads_running s, rfl, rfl, rfl, rfl, ?_⟩
  rw [ThreadInit_ok s0 env0 h0, ThreadYield_empty _ env rfl]
  simp [initThreads]

theorem C9_ThreadYield_empty_ready_queue_witness :
    bootSched.rq = [] ∧ (Env.healthy 0).getcontext = 0
      ∧ (ThreadYield bootSched (Env.healthy 0)).2
          = Outcome.ret (bootSched.threads bootSched.running_thread).thread_id
      ∧ (ThreadYield (ThreadInit joinSched (Env.healthy 0)).1 (Env.healthy 0)).2
          = Outcome.ret 0 := by
  have h := C9_ThreadYield_empty_ready_queue bootSched (Env.healthy 0) rfl joinSched
    (Env.healthy 0) rfl
  exact ⟨rfl, rfl, h.1, h.2.2.2.2.2.2.2⟩

theorem ThreadJoin_invalid (s : Sched) (env : Env) (tid : Int) (out : Option Int)
    (h : tid < 0 ∨ tid ≥ (MAX_THREADS : Int)) :
    ThreadJoin s env tid out = (s, Outcome.ret ERROR_TID_INVALID, out) := by
  unfold ThreadJoin
  exact dif_pos h

theorem ThreadJoin_dead (s : Sched) (env : Env) (tid : Int) (out : Option Int)
    (h : ¬ (tid < 0 ∨ tid ≥ (MAX_THREADS : Int)))
    (hdead : (s.threads (slotOf tid h)).state = State.EMPTY
      ∨ (s.threads (slotOf tid h)).state = State.KILLED
      ∨ (s.threads (slotOf tid h)).state = State.EXITED) :
    ThreadJoin s env tid out = (s, Outcome.ret ERROR_SYS_THREAD, out) := by
  unfold ThreadJoin
  refine (dif_neg h).trans ?_
  exact if_pos hdead

theorem ThreadJoin_self (s : Sched) (env : Env) (tid : Int) (out : Option Int)
    (h : ¬ (tid < 0 ∨ tid ≥ (MAX_THREADS : Int)))
    (hlive : ¬ ((s.threads (slotOf tid h)).state = State.EMPTY
      ∨ (s.threads (slotOf tid h)).state = State.KILLED
      ∨ (s.threads (slotOf tid h)).state = State.EXITED))
    (hself : tid = (s.threads s.running_thread).thread_id) :
    ThreadJoin s env tid out = (s, Outcome.ret ERROR_THREAD_BAD, out) := by
  unfold ThreadJoin
  refine (dif_neg h).trans ?_
  refine (if_neg hlive).trans ?_
  exact if_pos hself

/-- C10: in a state whose current TCB is stored under its own thread id and
is neither `EMPTY` nor a zombie, `ThreadJoin(tid, out)` returns
`ERROR_TID_INVALID` for every `tid` out of range, `ERROR_THREAD_BAD` when
`tid` is the caller's own thread id, and `ERROR_SYS_THREAD` when the state of
`threads[tid]` is `EMPTY`, `KILLED` or `EXITED`; on each of these returns the
integer `out` points to (if any) holds the value it held before, and the
scheduler state is as before. -/
theorem C10_ThreadJoin_errors (s : Sched) (env : Env) (out : Option Int)
    (hcur : s.CurrentLive) :
    (∀ tid : Int, (tid < 0 ∨ tid ≥ (MAX_THREADS : Int)) →
        ThreadJoin s env tid out = (s, Outcome.ret ERROR_TID_INVALID, out))
      ∧ (∀ t : Slot, (t.val : Int) = (s.threads s.running_thread).thread_id →
        ThreadJoin s env (t.val : Int) out = (s, Outcome.ret ERROR_THREAD_BAD, out))
      ∧ (∀ t : Slot, ((s.threads t).state = State.EMPTY ∨ (s.threads t).state = State.KILLED
            ∨ (s.threads t).state = State.EXITED) →
        ThreadJoin s env (t.val : Int) out = (s, Outcome.ret ERROR_SYS_THREAD, out)) := by
  refine ⟨?_, ?_, ?_⟩
  · intro tid h
    exact ThreadJoin_invalid s env tid out h
  · intro t ht
    have htr : t = s.running_thread := by
      apply Fin.ext
      have := ht.trans hcur.1
      exact_mod_cast this
    apply ThreadJoin_self s env _ out (slot_in_range t) _ ht
    rw [slotOf_val, htr]
    exact hcur.2
  · intro t hdead
    apply ThreadJoin_dead s env _ out (slot_in_range t)
    rw [slotOf_val]
    exact hdead

/-- The two error tests of `check_thread_2.c`, on the state in which only the
bootstrap thread exists, with `out` pointing to an integer that holds 17. -/
theorem C10_ThreadJoin_errors_witness :
    bootSched.CurrentLive
      ∧ ThreadJoin bootSched (Env.healthy 0) ((0 : Slot).val : Int) (some 17)
          = (bootSched, Outcome.ret ERROR_THREAD_BAD, some 17)
      ∧ ThreadJoin bootSched (Env.healthy 0) ((5 : Slot).val : Int) (some 17)
          = (bootSched, Outcome.ret ERROR_SYS_THREAD, some 17) := by
  have hcur : bootSched.CurrentLive := ⟨rfl, by decide⟩
  have h := C10_ThreadJoin_errors bootSched (Env.healthy 0) (some 17) hcur
  exact ⟨hcur, h.2.1 0 rfl, h.2.2 5 (by decide)⟩

theorem ThreadSleep_empty (s : Sched) (env : Env) (q : WaitQueuePtr) (hq : s.rq = []) :
    ThreadSleep s env q = (reapedSched s, Outcome.ret ERROR_SYS_THREAD) := by
  refine (congrFun (congrFun (congrFun (?_ : ThreadSleep = ?g) s) env) q).trans ?_
  case refine_1 => delta ThreadSleep; exact rfl
  beta_reduce
  rw [free_exited_threads_fun]
  dsimp only [InterruptsDisable, InterruptsSet, reapedThreads_intr]
  split
  · rfl
  · rename_i hh
    rw [hq] at hh
    exact absurd hh (by simp)

theorem ThreadSleep_no_context (s : Sched) (env : Env) (q : WaitQueuePtr) (head : Slot)
    (rest : List Slot) (hq : s.rq = head :: rest) (hc : env.getcontext ≠ 0) :
    ThreadSleep s env q = (reapedSched s, Outcome.ret ERROR_THREAD_BAD) := by
  refine (congrFun (congrFun (congrFun (?_ : ThreadSleep = ?g) s) env) q).trans ?_
  case refine_1 => delta ThreadSleep; exact rfl
  beta_reduce
  rw [free_exited_threads_fun]
  dsimp only [InterruptsDisable, InterruptsSet, reapedThreads_intr]
  split
  · rename_i hh
    rw [hq] at hh
    exact absurd hh (by simp)
  · rw [if_pos hc]
    rfl

theorem ThreadSleep_switch (s : Sched) (env : Env) (q : WaitQueuePtr) (head : Slot)
    (rest : List Slot) (hq : s.rq = head :: rest) (hc : env.getcontext = 0) :
    ThreadSleep s env q =
      if env.setcontext = 0 then (sleptSched s q head rest, Outcome.switched)
      else ({ sleptSched s q head rest with interrupts := s.interrupts },
        Outcome.ret (s.threads head).thread_id) := by
  refine (congrFun (congrFun (congrFun (?_ : ThreadSleep = ?g) s) env) q).trans ?_
  case refine_1 => delta ThreadSleep; exact rfl
  beta_reduce
  rw [free_exited_threads_fun]
  dsimp only [InterruptsDisable, InterruptsSet, reapedThreads_intr]
  split
  · rename_i hh
    rw [hq] at hh
    exact absurd hh (by simp)
  rename_i head' rest' hh
  have hhr : head = head' ∧ rest = rest' := by
    rw [hq] at hh
    exact ⟨(List.cons.inj hh).1, (List.cons.inj hh).2⟩
  obtain ⟨hh1, hh2⟩ := hhr
  subst hh1
  subst hh2
  rw [if_neg (not_not.mpr hc)]
  have hid : ∀ (tcb : TCB),
      tcb.thread_id = (s.threads s.running_thread).thread_id →
      (Function.update (reapedThreads s) s.running_thread tcb head).thread_id
        = (s.threads head).thread_id := by
    intro tcb htcb
    by_cases hh : head = s.running_thread
    · rw [hh]
      simp [htcb]
    · simp [Function.update_noteq hh, reapedThreads_thread_id]
  cases q with
  | join i =>
    rw [insert_into_queue_join]
    unfold extract_from_queue
    dsimp only [InterruptsDisable, InterruptsSet, Sched.queue, Sched.setContext,
      Sched.setState]
    rw [hq]
    dsimp only [Sched.setQueue]
    simp only [Function.update_same, Function.update_idem, reapedThreads_thread_id]
    simp only [hid, reapedThreads_thread_id, sleptSched, sleepingTCB, Sched.setQueue,
      Sched.queue]
  | user a =>
    rw [insert_into_queue_user]
    unfold extract_from_queue
    dsimp only [InterruptsDisable, InterruptsSet, Sched.queue, Sched.setContext,
      Sched.setState]
    rw [hq]
    dsimp only [Sched.setQueue]
    simp only [Function.update_same, Function.update_idem, reapedThreads_thread_id]
    simp only [hid, reapedThreads_thread_id, sleptSched, sleepingTCB, Sched.setQueue,
      Sched.queue]

theorem sleptSched_facts (s : Sched) (q : WaitQueuePtr) (head : Slot) (rest : List Slot)
    (hne : head ≠ s.running_thread) (b : Bool) :
    (({ sleptSched s q head rest with interrupts := b } : Sched).threads
        s.running_thread).state = State.BLOCKED
      ∧ ({ sleptSched s q head rest with interrupts := b } : Sched).queue (.wq q)
          = s.queue (.wq q) ++ [s.running_thread]
      ∧ ({ sleptSched s q head rest with interrupts := b } : Sched).rq = rest
      ∧ (({ sleptSched s q head rest with interrupts := b } : Sched).threads head).state
          = State.RUNNING
      ∧ ({ sleptSched s q head rest with interrupts := b } : Sched).running_thread = head
      ∧ (({ sleptSched s q head rest with interrupts := b } : Sched).threads
          s.running_thread).context
            = Context.saved [Frame.sleep (s.threads head).thread_id s.interrupts] := by
  have hcn : s.running_thread ≠ head := fun h => hne h.symm
  cases q with
  | join i =>
    refine ⟨?_, ?_, rfl, ?_, rfl, ?_⟩
    · simp [sleptSched, sleepingTCB, Sched.setQueue, Function.update_noteq hcn]
    · simp [sleptSched, Sched.setQueue, Sched.queue]
    · simp [sleptSched, Sched.setQueue]
    · simp [sleptSched, sleepingTCB, Sched.setQueue, Function.update_noteq hcn]
  | user a =>
    refine ⟨?_, ?_, rfl, ?_, rfl, ?_⟩
    · simp [sleptSched, sleepingTCB, Sched.setQueue, Function.update_noteq hcn]
    · simp [sleptSched, Sched.setQueue, Sched.queue]
    · simp [sleptSched, Sched.setQueue]
    · simp [sleptSched, sleepingTCB, Sched.setQueue, Function.update_noteq hcn]

/-- Effect of `ThreadSleep` when another thread is at the head: for every wait
queue `q`: if the ready queue is empty, `ThreadSleep(q)`
returns `ERROR_SYS_THREAD`, the current thread and its TCB (so its `RUNNING`
state) are as before and `q` is unchanged; if the ready queue is
`head :: rest` with `head` not the caller and `getcontext` succeeds, the
caller becomes `BLOCKED` and the last element of `q`, `head` leaves the ready
queue and becomes `RUNNING` and the current thread, and the value the caller
receives (when it is resumed from the context saved here, or at once should
`setcontext` fail) is the thread id of `head`. -/
theorem ThreadSleep_effect_other_head (s : Sched) (env : Env) (q : WaitQueuePtr) :
    (s.rq = [] →
        (ThreadSleep s env q).2 = Outcome.ret ERROR_SYS_THREAD
          ∧ (ThreadSleep s env q).1.running_thread = s.running_thread
          ∧ (ThreadSleep s env q).1.threads s.running_thread = s.threads s.running_thread
          ∧ (ThreadSleep s env q).1.queue (.wq q) = s.queue (.wq q))
      ∧ (∀ (head : Slot) (rest : List Slot), s.rq = head :: rest →
          head ≠ s.running_thread → env.getcontext = 0 →
        (ThreadSleep s env q).2
            = (if env.setcontext = 0 then Outcome.switched
                else Outcome.ret (s.threads head).thread_id)
          ∧ ((ThreadSleep s env q).1.threads s.running_thread).state = State.BLOCKED
          ∧ (ThreadSleep s env q).1.queue (.wq q) = s.queue (.wq q) ++ [s.running_thread]
          ∧ (ThreadSleep s env q).1.rq = rest
          ∧ ((ThreadSleep s env q).1.threads head).state = State.RUNNING
          ∧ (ThreadSleep s env q).1.running_thread = head
          ∧ (∀ sr : Sched, sr.running_thread = s.running_thread →
              (sr.threads s.running_thread).context
                = ((ThreadSleep s env q).1.threads s.running_thread).context →
              (resume sr).map (fun r => r.value)
                = some (some (s.threads head).thread_id))) := by
  constructor
  · intro hq
    rw [ThreadSleep_empty s env q hq]
    refine ⟨rfl, rfl, reapedThreads_running s, ?_⟩
    cases q <;> rfl
  · intro head rest hq hne hc
    have hres : ∀ sr : Sched, sr.running_thread = s.running_thread →
        (sr.threads s.running_thread).context
          = Context.saved [Frame.sleep (s.threads head).thread_id s.interrupts] →
        (resume sr).map (fun r => r.value) = some (some (s.threads head).thread_id) := by
      intro sr h1 h2
      unfold resume
      rw [h1, h2]
      rfl
    rw [ThreadSleep_switch s env q head rest hq hc]
    by_cases hsc : env.setcontext = 0
    · rw [if_pos hsc, if_pos hsc]
      obtain ⟨h1, h2, h3, h4, h5, h6⟩ := sleptSched_facts s q head rest hne false
      exact ⟨rfl, h1, h2, h3, h4, h5, fun sr hsr hctx => hres sr hsr (hctx.trans h6)⟩
    · rw [if_neg hsc, if_neg hsc]
      obtain ⟨h1, h2, h3, h4, h5, h6⟩ := sleptSched_facts s q head rest hne s.interrupts
      exact ⟨rfl, h1, h2, h3, h4, h5, fun sr hsr hctx => hres sr hsr (hctx.trans h6)⟩

theorem ThreadSleep_effect_other_head_witness :
    (ThreadSleep bootSched (Env.healthy 0) (.user 64)).2 = Outcome.ret ERROR_SYS_THREAD
      ∧ (ThreadSleep joinSched (Env.healthy 0) (.user 64)).2 = Outcome.switched
      ∧ (ThreadSleep joinSched (Env.healthy 0) (.user 64)).1.running_thread = 1
      ∧ (ThreadSleep joinSched (Env.healthy 0) (.user 64)).1.queue (.wq (.user 64))
          = joinSched.queue (.wq (.user 64)) ++ [joinSched.running_thread] := by
  have hb := (ThreadSleep_effect_other_head bootSched (Env.healthy 0) (.user 64)).1 rfl
  have hj := (ThreadSleep_effect_other_head joinSched (Env.healthy 0) (.user 64)).2 1 [] rfl
    (by decide) rfl
  exact ⟨hb.1, hj.1, hj.2.2.2.2.2.1, hj.2.2.1⟩

theorem wokenAll_facts (s : Sched) (q : WaitQueuePtr) :
    (wokenAll s q).queue (.wq q) = []
      ∧ (wokenAll s q).rq = s.rq ++ s.queue (.wq q)
      ∧ (wokenAll s q).threads = markReady (s.queue (.wq q)) s.threads
      ∧ (wokenAll s q).running_thread = s.running_thread
      ∧ (wokenAll s q).interrupts = s.interrupts := by
  cases q with
  | join i => exact ⟨by simp [wokenAll, Sched.setQueue, Sched.queue], rfl, rfl, rfl, rfl⟩
  | user a => exact ⟨by simp [wokenAll, Sched.setQueue, Sched.queue], rfl, rfl, rfl, rfl⟩

/-- Effect of `ThreadWakeAll` on a queue without the caller: for every wait
queue `q` that does not hold the calling thread,
`ThreadWakeAll(q)` returns the number of threads that were in `q`, leaves `q`
empty and the ready queue equal to the former ready queue followed by the
former contents of `q` in the same order, marks each moved thread `READY` and
leaves every other TCB, the current thread and the interrupt state as they
were (so the calling thread stays `RUNNING`). -/
theorem ThreadWakeAll_effect_caller_outside (s : Sched) (q : WaitQueuePtr)
    (hcaller : s.running_thread ∉ s.queue (.wq q)) :
    (ThreadWakeAll s q).2 = Outcome.ret ((s.queue (.wq q)).length : Int)
      ∧ (ThreadWakeAll s q).1.queue (.wq q) = []
      ∧ (ThreadWakeAll s q).1.rq = s.rq ++ s.queue (.wq q)
      ∧ (∀ p ∈ s.queue (.wq q), ((ThreadWakeAll s q).1.threads p).state = State.READY)
      ∧ (∀ p, p ∉ s.queue (.wq q) → (ThreadWakeAll s q).1.threads p = s.threads p)
      ∧ (ThreadWakeAll s q).1.running_thread = s.running_thread
      ∧ (ThreadWakeAll s q).1.threads s.running_thread = s.threads s.running_thread
      ∧ (ThreadWakeAll s q).1.interrupts = s.interrupts := by
  rw [ThreadWakeAll_eq]
  obtain ⟨h1, h2, h3, h4, h5⟩ := wokenAll_facts s q
  refine ⟨rfl, h1, h2, ?_, ?_, h4, ?_, h5⟩
  · intro p hp
    show ((wokenAll s q).threads p).state = State.READY
    rw [h3]
    simp [markReady, hp]
  · intro p hp
    show (wokenAll s q).threads p = s.threads p
    rw [h3]
    simp [markReady, hp]
  · show (wokenAll s q).threads s.running_thread = s.threads s.running_thread
    rw [h3]
    simp [markReady, hcaller]

theorem ThreadWakeAll_effect_caller_outside_witness :
    joinSched.running_thread ∉ joinSched.queue (.wq (.join 1))
      ∧ (ThreadWakeAll joinSched (.join 1)).2 = Outcome.ret 1
      ∧ (ThreadWakeAll joinSched (.join 1)).1.rq = [1, 2] := by
  have hc : joinSched.running_thread ∉ joinSched.queue (.wq (.join 1)) := by
    simp [joinSched, Sched.queue]
  have h := ThreadWakeAll_effect_caller_outside joinSched (.join 1) hc
  exact ⟨hc, h.1, h.2.2.1⟩

/-- Effect of `ThreadWakeNext` when the head is not the caller:
`ThreadWakeNext(q)` returns 0 and changes nothing when `q` is empty;
when `q` is `t :: rest` with `t` not the calling thread it returns 1, leaves
`rest` in `q`, appends `t` to the tail of the ready queue, marks `t` `READY`,
and leaves every other TCB, the current thread and the interrupt state as
they were. -/
theorem ThreadWakeNext_effect_other_head (s : Sched) (q : WaitQueuePtr) :
    (s.queue (.wq q) = [] → ThreadWakeNext s q = (s, Outcome.ret 0))
      ∧ (∀ (t : Slot) (rest : List Slot), s.queue (.wq q) = t :: rest →
          t ≠ s.running_thread →
          (ThreadWakeNext s q).2 = Outcome.ret 1
            ∧ (ThreadWakeNext s q).1.queue (.wq q) = rest
            ∧ (ThreadWakeNext s q).1.rq = s.rq ++ [t]
            ∧ ((ThreadWakeNext s q).1.threads t).state = State.READY
            ∧ (∀ p, p ≠ t → (ThreadWakeNext s q).1.threads p = s.threads p)
            ∧ (ThreadWakeNext s q).1.running_thread = s.running_thread
            ∧ (ThreadWakeNext s q).1.threads s.running_thread = s.threads s.running_thread
            ∧ (ThreadWakeNext s q).1.interrupts = s.interrupts) := by
  constructor
  · intro hq
    exact ThreadWakeNext_empty s q hq
  · intro t rest hq hne
    rw [ThreadWakeNext_cons s q t rest hq]
    have hct : s.running_thread ≠ t := fun h => hne h.symm
    cases q with
    | join i =>
      refine ⟨rfl, ?_, rfl, ?_, ?_, rfl, ?_, rfl⟩
      · simp [Sched.setQueue, Sched.queue]
      · simp [Sched.setQueue]
      · intro p hp
        simp [Sched.setQueue, Function.update_noteq hp]
      · simp [Sched.setQueue, Function.update_noteq hct]
    | user a =>
      refine ⟨rfl, ?_, rfl, ?_, ?_, rfl, ?_, rfl⟩
      · simp [Sched.setQueue, Sched.queue]
      · simp [Sched.setQueue]
      · intro p hp
        simp [Sched.setQueue, Function.update_noteq hp]
      · simp [Sched.setQueue, Function.update_noteq hct]

theorem ThreadWakeNext_effect_other_head_witness :
    ThreadWakeNext joinSched (.user 5) = (joinSched, Outcome.ret 0)
      ∧ (ThreadWakeNext joinSched (.user 64)).2 = Outcome.ret 1
      ∧ (ThreadWakeNext joinSched (.user 64)).1.queue (.wq (.user 64)) = []
      ∧ (ThreadWakeNext joinSched (.user 64)).1.rq = joinSched.rq ++ [3] := by
  have h := ThreadWakeNext_effect_other_head joinSched
  have h2 := (h (.user 64)).2 3 [] rfl (by decide)
  exact ⟨(h (.user 5)).1 rfl, h2.1, h2.2.1, h2.2.2.1⟩

theorem WaitQueueDestroy_eq (s : Sched) (addr : Nat) :
    WaitQueueDestroy s addr
      = (s, if s.user_queues addr ≠ [] then ERROR_OTHER else 0) := by
  unfold WaitQueueDestroy
  dsimp only [InterruptsDisable, InterruptsSet, Sched.queue]
  split <;> rfl

/-- C19: when its allocation succeeds, `WaitQueueCreate` returns the address of
a queue with no members (and touches nothing else but that queue);
`WaitQueueDestroy(q)` returns `ERROR_OTHER` exactly when `q` is non-empty,
returns 0 otherwise, and in both cases leaves the scheduler state, so `q` and
its members, as it was. -/
theorem C19_WaitQueue_create_destroy (s : Sched) (env : Env) (addr : Nat)
    (hm : env.malloc = some addr) (q : Nat) :
    (WaitQueueCreate s env).2 = some addr
      ∧ (WaitQueueCreate s env).1.user_queues addr = []
      ∧ (WaitQueueCreate s env).1.queue (.wq (.user addr)) = []
      ∧ (∀ a, a ≠ addr → (WaitQueueCreate s env).1.user_queues a = s.user_queues a)
      ∧ (WaitQueueCreate s env).1.threads = s.threads
      ∧ (WaitQueueCreate s env).1.rq = s.rq
      ∧ (WaitQueueCreate s env).1.wait_queues = s.wait_queues
      ∧ ((WaitQueueDestroy s q).2 = ERROR_OTHER ↔ s.user_queues q ≠ [])
      ∧ (s.user_queues q = [] → (WaitQueueDestroy s q).2 = 0)
      ∧ (WaitQueueDestroy s q).1 = s := by
  have hc : WaitQueueCreate s env
      = ({ s with user_queues := Function.update s.user_queues addr [] }, some addr) := by
    unfold WaitQueueCreate
    dsimp only [InterruptsDisable, InterruptsSet]
    rw [hm]
    rfl
  rw [hc, WaitQueueDestroy_eq]
  refine ⟨rfl, ?_, ?_, ?_, rfl, rfl, rfl, ?_, ?_, rfl⟩
  · simp
  · simp [Sched.queue]
  · intro a ha
    simp [Function.update_noteq ha]
  · by_cases h : s.user_queues q = []
    · simp [h, ERROR_OTHER]
    · simp [h]
  · intro h
    simp [h]

theorem C19_WaitQueue_create_destroy_witness :
    (Env.healthy 4096).malloc = some 4096
      ∧ (WaitQueueCreate joinSched (Env.healthy 4096)).2 = some 4096
      ∧ (WaitQueueCreate joinSched (Env.healthy 4096)).1.user_queues 4096 = []
      ∧ (WaitQueueDestroy joinSched 64).2 = ERROR_OTHER
      ∧ (WaitQueueDestroy joinSched 64).1 = joinSched := by
  have h := C19_WaitQueue_create_destroy joinSched (Env.healthy 4096) 4096 rfl 64
  exact ⟨rfl, h.1, h.2.1, h.2.2.2.2.2.2.2.1.mpr (by simp [joinSched]), h.2.2.2.2.2.2.2.2.2⟩

/-- C20: when `ThreadInit` succeeds (its `getcontext` returns 0) it returns 0
and, whatever the state before, slot 0 has thread id 0, state `RUNNING` and a
null stack and is the current thread, so that `ThreadId` returns 0; every slot
`1 .. MAX_THREADS - 1` is `EMPTY`; the ready queue is empty. -/
theorem C20_ThreadInit_effect (s : Sched) (env : Env) (hc : env.getcontext = 0) :
    (ThreadInit s env).2 = 0
      ∧ ((ThreadInit s env).1.threads 0).thread_id = 0
      ∧ ((ThreadInit s env).1.threads 0).state = State.RUNNING
      ∧ ((ThreadInit s env).1.threads 0).sp = none
      ∧ (ThreadInit s env).1.running_thread = 0
      ∧ ThreadId (ThreadInit s env).1 = 0
      ∧ (∀ i : Slot, 1 ≤ i.val → ((ThreadInit s env).1.threads i).state = State.EMPTY)
      ∧ (ThreadInit s env).1.rq = [] := by
  rw [ThreadInit_ok s env hc]
  refine ⟨rfl, ?_, ?_, ?_, rfl, ?_, ?_, rfl⟩
  · simp [initThreads]
  · simp [initThreads]
  · simp [initThreads]
  · simp [ThreadId, initThreads]
  · intro i hi
    have hne : i ≠ 0 := fun h => by rw [h] at hi; simp at hi
    simp [initThreads, hne]

theorem C20_ThreadInit_effect_witness :
    (Env.healthy 0).getcontext = 0
      ∧ (ThreadInit joinSched (Env.healthy 0)).2 = 0
      ∧ ThreadId (ThreadInit joinSched (Env.healthy 0)).1 = 0
      ∧ ((ThreadInit joinSched (Env.healthy 0)).1.threads 1).state = State.EMPTY
      ∧ (ThreadInit joinSched (Env.healthy 0)).1.rq = [] := by
  have h := C20_ThreadInit_effect joinSched (Env.healthy 0) rfl
  exact ⟨rfl, h.1, h.2.2.2.2.2.1, h.2.2.2.2.2.2.1 1 (by decide), h.2.2.2.2.2.2.2⟩

theorem ThreadJoin_live (s : Sched) (env : Env) (tid : Int) (out : Option Int)
    (h : ¬ (tid < 0 ∨ tid ≥ (MAX_THREADS : Int)))
    (hlive : ¬ ((s.threads (slotOf tid h)).state = State.EMPTY
      ∨ (s.threads (slotOf tid h)).state = State.KILLED
      ∨ (s.threads (slotOf tid h)).state = State.EXITED))
    (hself : tid ≠ (s.threads s.running_thread).thread_id) :
    ThreadJoin s env tid out =
      match ThreadSleep { s with interrupts := false } env (.join (slotOf tid h)) with
      | (s2, .ret _) =>
        ({ s2 with interrupts := s.interrupts }, Outcome.ret tid,
          out.map (fun _ => (s2.threads (slotOf tid h)).exit_code))
      | (s2, .switched) =>
        (s2.pushOuterFrame s.running_thread (.join tid out.isSome s.interrupts),
          Outcome.switched, out)
      | (s2, o) => (s2, o, out) := by
  unfold ThreadJoin
  refine (dif_neg h).trans ?_
  refine (if_neg hlive).trans ?_
  refine (if_neg hself).trans ?_
  generalize ThreadSleep _ _ _ = r
  obtain ⟨s2, o⟩ := r
  cases o <;> rfl

/-- When no thread is ready, `ThreadJoin` on a live target returns `tid` at
once: the error of `ThreadSleep` is dropped. -/
theorem ThreadJoin_live_no_ready (s : Sched) (env : Env) (tid : Int) (out : Option Int)
    (h : ¬ (tid < 0 ∨ tid ≥ (MAX_THREADS : Int)))
    (hlive : ¬ ((s.threads (slotOf tid h)).state = State.EMPTY
      ∨ (s.threads (slotOf tid h)).state = State.KILLED
      ∨ (s.threads (slotOf tid h)).state = State.EXITED))
    (hself : tid ≠ (s.threads s.running_thread).thread_id) (hq : s.rq = []) :
    ThreadJoin s env tid out =
      (reapedSched s, Outcome.ret tid,
        out.map (fun _ => (reapedThreads s (slotOf tid h)).exit_code)) := by
  rw [ThreadJoin_live s env tid out h hlive hself,
    ThreadSleep_empty { s with interrupts := false } env _ hq]
  rfl

/-- C11 (failing input): thread 1 of `joinSched` is killed with
`ThreadKill(1)`, which returns 1 and stores `EXIT_CODE_KILL` in its TCB.  A
following `ThreadJoin(1, &exit_value)` returns `ERROR_SYS_THREAD` and
`exit_value` keeps whatever it held before the call, for example 17; it does
not become `EXIT_CODE_KILL`. -/
theorem C11_ThreadJoin_previously_killed :
    (ThreadKill joinSched ((1 : Slot).val : Int)).2 = Outcome.ret 1
      ∧ ((ThreadKill joinSched ((1 : Slot).val : Int)).1.threads 1).exit_code = EXIT_CODE_KILL
      ∧ (∀ v : Int,
          ThreadJoin (ThreadKill joinSched ((1 : Slot).val : Int)).1 (Env.healthy 0)
              ((1 : Slot).val : Int) (some v)
            = ((ThreadKill joinSched ((1 : Slot).val : Int)).1,
                Outcome.ret ERROR_SYS_THREAD, some v))
      ∧ (ThreadJoin (ThreadKill joinSched ((1 : Slot).val : Int)).1 (Env.healthy 0)
              ((1 : Slot).val : Int) (some 17)).2.2 ≠ some EXIT_CODE_KILL := by
  have hk : ((ThreadKill joinSched ((1 : Slot).val : Int)).1.threads 1).state = State.KILLED
      ∧ ((ThreadKill joinSched ((1 : Slot).val : Int)).1.threads 1).exit_code
          = EXIT_CODE_KILL := by
    have h := ThreadKill_live joinSched ((1 : Slot).val : Int) (slot_in_range 1) (by decide)
      (by rw [slotOf_val]; decide)
    rw [slotOf_val] at h
    rw [h]
    constructor
    · simp [killedSched, markReady, unlinked, unlinkTid, joinSched, killedThreads]
    · simp [killedSched, markReady, unlinked, unlinkTid, joinSched, killedThreads]
  have hj : ∀ v : Int,
      ThreadJoin (ThreadKill joinSched ((1 : Slot).val : Int)).1 (Env.healthy 0)
          ((1 : Slot).val : Int) (some v)
        = ((ThreadKill joinSched ((1 : Slot).val : Int)).1,
            Outcome.ret ERROR_SYS_THREAD, some v) := by
    intro v
    apply ThreadJoin_dead _ _ _ _ (slot_in_range 1)
    rw [slotOf_val]
    exact Or.inr (Or.inl hk.1)
  refine ⟨?_, hk.2, hj, ?_⟩
  · have h := ThreadKill_live joinSched ((1 : Slot).val : Int) (slot_in_range 1) (by decide)
      (by rw [slotOf_val]; decide)
    rw [h]
    rfl
  · rw [hj 17]
    decide

/-- C12 (failing input): in `sleeperSched` thread 1 is `BLOCKED` (it sleeps on
a user wait queue) and the ready queue is empty.  `ThreadJoin(1, &out)` called
by the bootstrap thread returns 1 at once: the caller is still `RUNNING` and
the current thread, it was not added to the join queue of thread 1, and thread
1 is still `BLOCKED`. -/
theorem C12_ThreadJoin_returns_while_target_live :
    (sleeperSched.threads 1).state = State.BLOCKED
      ∧ sleeperSched.rq = []
      ∧ (ThreadJoin sleeperSched (Env.healthy 0) ((1 : Slot).val : Int) (some 17)).2.1
          = Outcome.ret 1
      ∧ ((ThreadJoin sleeperSched (Env.healthy 0) ((1 : Slot).val : Int) (some 17)).1.threads
          1).state = State.BLOCKED
      ∧ ((ThreadJoin sleeperSched (Env.healthy 0) ((1 : Slot).val : Int) (some 17)).1.threads
          0).state = State.RUNNING
      ∧ (ThreadJoin sleeperSched (Env.healthy 0) ((1 : Slot).val : Int) (some 17)).1.running_thread
          = 0
      ∧ (ThreadJoin sleeperSched (Env.healthy 0) ((1 : Slot).val : Int)
          (some 17)).1.wait_queues 1 = [] := by
  have h := ThreadJoin_live_no_ready sleeperSched (Env.healthy 0) ((1 : Slot).val : Int)
    (some 17) (slot_in_range 1) (by rw [slotOf_val]; decide) (by decide) rfl
  rw [h]
  refine ⟨rfl, rfl, rfl, ?_, ?_, rfl, rfl⟩
  · simp [reapedSched, reapedThreads, sleeperSched]
  · simp [reapedSched, reapedThreads, sleeperSched]

theorem exitPrep_facts (s : Sched) (c : Int) :
    (exitPrep s c).running_thread = s.running_thread
      ∧ (exitPrep s c).rq = s.rq ++ s.wait_queues s.running_thread
      ∧ (exitPrep s c).user_queues = s.user_queues
      ∧ (exitPrep s c).interrupts = false
      ∧ (exitPrep s c).threads
          = reapedThreads
              { s with threads := (markReady (s.wait_queues s.running_thread)
                  (Function.update s.threads s.running_thread
                    { s.threads s.running_thread with exit_code := c })) }
      ∧ (exitPrep s c).wait_queues
          = (fun i => unlinked
              (markReady (s.wait_queues s.running_thread)
                (Function.update s.threads s.running_thread
                  { s.threads s.running_thread with exit_code := c }))
              (s.threads s.running_thread).thread_id
              (Function.update s.wait_queues s.running_thread [] i)) := by
  unfold exitPrep
  exact ⟨rfl, rfl, rfl, rfl, rfl, rfl⟩

theorem exitPrep_eq (s : Sched) (c : Int) :
    free_exited_threads
      (remove_from_all_wait_queues
        (wokenAll (Sched.setExitCode { s with interrupts := false } s.running_thread c)
          (.join s.running_thread))
        (s.threads s.running_thread).thread_id) = exitPrep s c := by
  rw [free_exited_threads_eq, remove_from_all_wait_queues_eq]
  rfl

theorem markReady_thread_id (l : List Slot) (threads : Slot → TCB) (i : Slot) :
    (markReady l threads i).thread_id = (threads i).thread_id := by
  unfold markReady
  split <;> rfl

theorem ThreadExit_last (s : Sched) (env : Env) (c : Int)
    (hcur : (s.threads s.running_thread).thread_id = (s.running_thread.val : Int))
    (hq : (exitPrep s c).rq = []) :
    ThreadExit s env c = (lastExitSched s c, Outcome.exited c) := by
  have hid : ((Sched.setExitCode { s with interrupts := false } s.running_thread c).threads
      (Sched.setExitCode { s with interrupts := false } s.running_thread c).running_thread).thread_id
        = (s.running_thread.val : Int) := by
    simp [Sched.setExitCode, hcur]
  have hr : ¬ (((Sched.setExitCode { s with interrupts := false } s.running_thread c).threads
      (Sched.setExitCode { s with interrupts := false } s.running_thread c).running_thread).thread_id < 0
      ∨ ((Sched.setExitCode { s with interrupts := false } s.running_thread c).threads
      (Sched.setExitCode { s with interrupts := false } s.running_thread c).running_thread).thread_id
        ≥ (MAX_THREADS : Int)) := by
    rw [hid]
    exact slot_in_range _
  have hslot : slotOf _ hr = s.running_thread := by
    apply Fin.ext
    simp only [slotOf, hid]
    simp
  unfold ThreadExit
  refine (dif_neg hr).trans ?_
  rw [hslot, ThreadWakeAll_eq]
  conv =>
    lhs
    simp_match
  rw [free_exited_threads_fun, remove_from_all_wait_queues_fun]
  dsimp only [wokenAll, Sched.queue, Sched.setQueue, Sched.setExitCode, Sched.setState,
    InterruptsSet]
  refine (if_pos hq).trans ?_
  simp only [lastExitSched, exitPrep, Sched.setState, Sched.setExitCode, markReady_thread_id,
    Function.update_same]
  rfl

theorem ThreadExit_switch (s : Sched) (env : Env) (c : Int) (head : Slot) (rest : List Slot)
    (hcur : (s.threads s.running_thread).thread_id = (s.running_thread.val : Int))
    (hq : (exitPrep s c).rq = head :: rest) :
    ThreadExit s env c =
      if env.setcontext = 0 then (exitedSched s c head rest, Outcome.switched)
      else
        ({ (Sched.setExitCode (exitedSched s c head rest) head EXIT_CODE_FATAL)
            with interrupts := s.interrupts },
          Outcome.exited EXIT_CODE_FATAL) := by
  have hid : ((Sched.setExitCode { s with interrupts := false } s.running_thread c).threads
      (Sched.setExitCode { s with interrupts := false } s.running_thread c).running_thread).thread_id
        = (s.running_thread.val : Int) := by
    simp [Sched.setExitCode, hcur]
  have hr : ¬ (((Sched.setExitCode { s with interrupts := false } s.running_thread c).threads
      (Sched.setExitCode { s with interrupts := false } s.running_thread c).running_thread).thread_id < 0
      ∨ ((Sched.setExitCode { s with interrupts := false } s.running_thread c).threads
      (Sched.setExitCode { s with interrupts := false } s.running_thread c).running_thread).thread_id
        ≥ (MAX_THREADS : Int)) := by
    rw [hid]
    exact slot_in_range _
  have hslot : slotOf _ hr = s.running_thread := by
    apply Fin.ext
    simp only [slotOf, hid]
    simp
  unfold ThreadExit
  refine (dif_neg hr).trans ?_
  rw [hslot, ThreadWakeAll_eq]
  conv =>
    lhs
    simp_match
  rw [free_exited_threads_fun, remove_from_all_wait_queues_fun]
  dsimp only [wokenAll, Sched.queue, Sched.setQueue, Sched.setExitCode, Sched.setState,
    InterruptsSet]
  have hq2 : s.rq ++ s.wait_queues s.running_thread = head :: rest := hq
  refine (if_neg (by rw [hq2]; simp)).trans ?_
  unfold extract_from_queue
  dsimp only [InterruptsDisable, InterruptsSet, Sched.queue, Sched.setState]
  rw [hq2]
  dsimp only
  simp only [exitedSched, exitPrep, Sched.setState, Sched.setExitCode, Sched.setQueue,
    markReady_thread_id, Function.update_same]
  rfl

theorem mem_of_mem_unlinked (threads : Slot → TCB) (tid : Int) (l : List Slot) (p : Slot)
    (h : p ∈ unlinked threads tid l) : p ∈ l := by
  induction l with
  | nil => exact h
  | cons x rest ih =>
    unfold unlinked at h ih
    by_cases hx : (threads x).thread_id = tid
    · simp only [unlinkTid, hx, if_true, Option.getD_some] at h
      exact List.mem_cons_of_mem _ h
    · simp only [unlinkTid, hx, if_false] at h
      cases hu : unlinkTid threads tid rest with
      | none =>
        rw [hu] at h
        simpa using h
      | some l' =>
        rw [hu] at h ih
        simp only [Option.map_some', Option.getD_some, List.mem_cons] at h
        rcases h with h | h
        · rw [h]
          exact List.mem_cons_self _ _
        · exact List.mem_cons_of_mem _ (ih h)

theorem exitPrep_threads_self (s : Sched) (c : Int)
    (hj : s.running_thread ∉ s.wait_queues s.running_thread) :
    (exitPrep s c).threads s.running_thread
      = { s.threads s.running_thread with exit_code := c } := by
  rw [(exitPrep_facts s c).2.2.2.2.1]
  simp [reapedThreads, markReady, hj]

theorem exitPrep_threads_joiner (s : Sched) (c : Int) (p : Slot)
    (hp : p ∈ s.wait_queues s.running_thread) :
    ((exitPrep s c).threads p).state = State.READY := by
  have h := (exitPrep_facts s c).2.2.2.2.1
  rw [congrFun h p]
  simp [reapedThreads, markReady, hp]

/-- Effect of `ThreadExit` on an unqueued caller: in a state whose current TCB
is stored under its own thread id and is
referenced from no queue, and when `setcontext` transfers control:
`ThreadExit(c)` terminates the process with code `c` exactly when the ready
queue is empty after the joiners of the caller were appended to it; in both
cases `c` is stored in the caller's TCB and the caller is `EXITED` (not
reaped); in the other case the joiners followed the former ready queue in
their order, the head of that queue is dispatched (`RUNNING` and current), the
rest is the new ready queue, the join queue of the caller is empty, every
other joiner is `READY`, and the caller is referenced from no queue. -/
theorem ThreadExit_effect_of_unqueued (s : Sched) (env : Env) (c : Int)
    (hcur : (s.threads s.running_thread).thread_id = (s.running_thread.val : Int))
    (hunq : s.Unqueued s.running_thread) (hsc : env.setcontext = 0) :
    ((ThreadExit s env c).2 = Outcome.exited c
        ↔ s.rq ++ s.wait_queues s.running_thread = [])
      ∧ ((ThreadExit s env c).1.threads s.running_thread).exit_code = c
      ∧ ((ThreadExit s env c).1.threads s.running_thread).state = State.EXITED
      ∧ (∀ (head : Slot) (rest : List Slot),
          s.rq ++ s.wait_queues s.running_thread = head :: rest →
          (ThreadExit s env c).2 = Outcome.switched
            ∧ (ThreadExit s env c).1.rq = rest
            ∧ ((ThreadExit s env c).1.threads head).state = State.RUNNING
            ∧ (ThreadExit s env c).1.running_thread = head
            ∧ (ThreadExit s env c).1.wait_queues s.running_thread = []
            ∧ (∀ p ∈ s.wait_queues s.running_thread, p ≠ head →
                ((ThreadExit s env c).1.threads p).state = State.READY)
            ∧ (ThreadExit s env c).1.Unqueued s.running_thread) := by
  obtain ⟨hnrq, hnwq, hnuq⟩ := hunq
  have hj := hnwq s.running_thread
  obtain ⟨hp1, hp2, hp3, hp4, hp5, hp6⟩ := exitPrep_facts s c
  have hself := exitPrep_threads_self s c hj
  cases hR : s.rq ++ s.wait_queues s.running_thread with
  | nil =>
    have hq : (exitPrep s c).rq = [] := hp2.trans hR
    rw [ThreadExit_last s env c hcur hq]
    refine ⟨⟨fun _ => rfl, fun _ => rfl⟩, ?_, ?_, ?_⟩
    · simp [lastExitSched, Sched.setExitCode, Sched.setState]
    · simp [lastExitSched, Sched.setExitCode, Sched.setState]
    · intro head rest h
      exact absurd h (by simp)
  | cons head rest =>
    have hq : (exitPrep s c).rq = head :: rest := hp2.trans hR
    have hmem : head ∈ s.rq ++ s.wait_queues s.running_thread := by
      rw [hR]
      exact List.mem_cons_self _ _
    have hne : s.running_thread ≠ head := by
      intro h
      rw [← h] at hmem
      rcases List.mem_append.mp hmem with h1 | h1
      · exact hnrq h1
      · exact hj h1
    have hrest : ∀ p, p ∈ rest → p ∈ s.rq ++ s.wait_queues s.running_thread := by
      intro p hp
      rw [hR]
      exact List.mem_cons_of_mem _ hp
    rw [ThreadExit_switch s env c head rest hcur hq, if_pos hsc]
    refine ⟨⟨fun h => by simp at h, fun h => by simp at h⟩, ?_, ?_, ?_⟩
    · simp [exitedSched, Sched.setState, Sched.setQueue, Function.update_noteq hne, hself]
    · simp [exitedSched, Sched.setState, Sched.setQueue, Function.update_noteq hne]
    · intro head' rest' h
      obtain ⟨hh1, hh2⟩ := List.cons.inj h
      subst hh1
      subst hh2
      have hwq : (exitedSched s c head rest).wait_queues = (exitPrep s c).wait_queues := by
        simp only [exitedSched, Sched.setState, Sched.setQueue]
      have huq : (exitedSched s c head rest).user_queues = s.user_queues := by
        simp only [exitedSched, Sched.setState, Sched.setQueue, hp3]
      have hrq : (exitedSched s c head rest).rq = rest := by
        simp only [exitedSched, Sched.setState, Sched.setQueue]
      refine ⟨rfl, hrq, ?_, rfl, ?_, ?_, ⟨?_, ?_, ?_⟩⟩
      · simp [exitedSched, Sched.setState, Sched.setQueue]
      · dsimp only
        rw [hwq, hp6]
        simp [unlinked, unlinkTid]
      · intro p hp hph
        have hps : p ≠ s.running_thread := fun h => hj (h ▸ hp)
        simp [exitedSched, Sched.setState, Sched.setQueue, Function.update_noteq hph,
          Function.update_noteq hps, exitPrep_threads_joiner s c p hp]
      · dsimp only
        rw [hrq]
        intro hmem'
        rcases List.mem_append.mp (hrest _ hmem') with h1 | h1
        · exact hnrq h1
        · exact hj h1
      · intro i hmem'
        dsimp only at hmem'
        rw [hwq, hp6] at hmem'
        have hm := mem_of_mem_unlinked _ _ _ _ hmem'
        by_cases hi : i = s.running_thread
        · rw [hi] at hm
          simp at hm
        · rw [Function.update_noteq hi] at hm
          exact hnwq i hm
      · intro a hmem'
        dsimp only at hmem'
        rw [huq] at hmem'
        exact hnuq a hmem'

theorem joinSched_unqueued : joinSched.Unqueued joinSched.running_thread := by
  refine ⟨by simp [joinSched], ?_, ?_⟩
  · intro i
    show (0 : Slot) ∉ (if i = 1 then [2] else [])
    split <;> simp
  · intro a
    show (0 : Slot) ∉ (if a = 64 then [3] else [])
    split <;> simp

theorem ThreadExit_effect_of_unqueued_witness :
    joinSched.Unqueued joinSched.running_thread
      ∧ (ThreadExit joinSched (Env.healthy 0) 5).2 = Outcome.switched
      ∧ ((ThreadExit joinSched (Env.healthy 0) 5).1.threads joinSched.running_thread).exit_code
          = 5
      ∧ (ThreadExit joinSched (Env.healthy 0) 5).1.running_thread = 1
      ∧ (ThreadExit joinSched (Env.healthy 0) 5).1.rq = [] := by
  have h := ThreadExit_effect_of_unqueued joinSched (Env.healthy 0) 5 rfl joinSched_unqueued rfl
  have h2 := h.2.2.2 1 [] rfl
  exact ⟨joinSched_unqueued, h2.1, h.2.1, h2.2.2.2.1, h2.2.1⟩

theorem reusedSched_create :
    ThreadCreate reusedSched (Env.healthy 4096) 7 9 =
      ({ reusedSched with
          threads := Function.update (reapedThreads reusedSched) 1
            (createdTCB (reapedThreads reusedSched 1) 1 4096 7 9),
          wait_queues := Function.update reusedSched.wait_queues 1 [],
          rq := reusedSched.rq ++ [1] }, 1) := by
  have hfind : findSlot (reapedThreads reusedSched) 0 = (1 : Slot).val := by
    apply findSlot_eq_of_least
    · intro hb
      exact hb.1 (by simp [reapedThreads, reusedSched])
    · exact Nat.zero_le _
    · intro j _ hj
      have hj0 : j = 0 := Fin.ext (by simpa using hj)
      subst hj0
      simp [State.busy, reapedThreads, reusedSched]
  exact ThreadCreate_found reusedSched (Env.healthy 4096) 7 9 4096 rfl rfl 1 hfind

theorem ThreadJoin_switch (s : Sched) (env : Env) (tid : Int) (out : Option Int)
    (h : ¬ (tid < 0 ∨ tid ≥ (MAX_THREADS : Int)))
    (hlive : ¬ ((s.threads (slotOf tid h)).state = State.EMPTY
      ∨ (s.threads (slotOf tid h)).state = State.KILLED
      ∨ (s.threads (slotOf tid h)).state = State.EXITED))
    (hself : tid ≠ (s.threads s.running_thread).thread_id)
    (head : Slot) (rest : List Slot) (hq : s.rq = head :: rest)
    (hc : env.getcontext = 0) (hsc : env.setcontext = 0) :
    ThreadJoin s env tid out
      = (joinedSched s tid (slotOf tid h) head rest out, Outcome.switched, out) := by
  rw [ThreadJoin_live s env tid out h hlive hself,
    ThreadSleep_switch { s with interrupts := false } env _ head rest hq hc, if_pos hsc]
  rfl

theorem joinedSched_facts (s : Sched) (tid : Int) (t : Slot) (head : Slot) (rest : List Slot)
    (out : Option Int) (hne : head ≠ s.running_thread) :
    (joinedSched s tid t head rest out).running_thread = head
      ∧ (joinedSched s tid t head rest out).rq = rest
      ∧ (joinedSched s tid t head rest out).wait_queues
          = Function.update s.wait_queues t (s.wait_queues t ++ [s.running_thread])
      ∧ (joinedSched s tid t head rest out).user_queues = s.user_queues
      ∧ (joinedSched s tid t head rest out).interrupts = false
      ∧ (joinedSched s tid t head rest out).threads s.running_thread
          = { reapedThreads s s.running_thread with
              context := Context.saved [Frame.sleep (s.threads head).thread_id false,
                Frame.join tid out.isSome s.interrupts],
              state := State.BLOCKED }
      ∧ (joinedSched s tid t head rest out).threads head
          = { reapedThreads s head with state := State.RUNNING }
      ∧ (∀ p, p ≠ s.running_thread → p ≠ head →
          (joinedSched s tid t head rest out).threads p = reapedThreads s p) := by
  have hcn : s.running_thread ≠ head := fun h => hne h.symm
  have hctx : ((sleptSched { s with interrupts := false } (.join t) head rest).threads
      s.running_thread).context
        = Context.saved [Frame.sleep (s.threads head).thread_id false] := by
    simp [sleptSched, sleepingTCB, Sched.setQueue, Function.update_noteq hcn]
  have hj : joinedSched s tid t head rest out
      = Sched.setContext (sleptSched { s with interrupts := false } (.join t) head rest)
          s.running_thread
          (Context.saved [Frame.sleep (s.threads head).thread_id false,
            Frame.join tid out.isSome s.interrupts]) := by
    unfold joinedSched Sched.pushOuterFrame
    rw [hctx]
    rfl
  rw [hj]
  refine ⟨rfl, rfl, ?_, rfl, rfl, ?_, ?_, ?_⟩
  · simp [Sched.setContext, sleptSched, Sched.setQueue, Sched.queue]
  · simp [Sched.setContext, sleptSched, sleepingTCB, Sched.setQueue,
      Function.update_noteq hcn, reapedThreads_intr]
  · simp [Sched.setContext, sleptSched, sleepingTCB, Sched.setQueue,
      Function.update_noteq hne, reapedThreads_intr]
  · intro p hp1 hp2
    simp [Sched.setContext, sleptSched, sleepingTCB, Sched.setQueue,
      Function.update_noteq hp1, Function.update_noteq hp2, reapedThreads_intr]

theorem c14Created_create :
    ThreadCreate reusedSched (Env.healthy 4096) 7 9 = (c14Created, 1) :=
  reusedSched_create

theorem c14Created_facts :
    c14Created.running_thread = 0 ∧ c14Created.rq = [1] ∧ c14Created.interrupts = true
      ∧ c14Created.threads 0 = reusedSched.threads 0
      ∧ (c14Created.threads 1).state = State.READY
      ∧ (c14Created.threads 1).exit_code = EXIT_CODE_KILL
      ∧ (c14Created.threads 1).thread_id = 1
      ∧ (c14Created.threads 1).context = Context.entry (4096 + THREAD_STACK_SIZE - 8) 4096 7 9
      ∧ c14Created.wait_queues 1 = [] := by
  unfold c14Created
  refine ⟨rfl, rfl, rfl, ?_, ?_, ?_, ?_, ?_, ?_⟩
  · simp [reapedThreads, reusedSched]
  · simp [createdTCB]
  · simp [createdTCB, reapedThreads, reusedSched]
  · simp [createdTCB]
  · simp [createdTCB]
  · simp

theorem c14Joined_eq :
    ThreadJoin c14Created (Env.healthy 0) ((1 : Slot).val : Int) (some 17)
      = (c14Joined, Outcome.switched, some 17) := by
  obtain ⟨h1, h2, h3, h4, h5, h6, h7, h8, h9⟩ := c14Created_facts
  have h := ThreadJoin_switch c14Created (Env.healthy 0) ((1 : Slot).val : Int) (some 17)
    (slot_in_range 1)
    (by rw [slotOf_val, h5]; decide)
    (by rw [h1, h4]; decide)
    1 [] h2 rfl rfl
  rw [slotOf_val] at h
  exact h

theorem c14Joined_facts :
    c14Joined.running_thread = 1 ∧ c14Joined.rq = []
      ∧ c14Joined.wait_queues 1 = [0]
      ∧ (c14Joined.threads 0).context
          = Context.saved [Frame.sleep 1 false, Frame.join 1 true true]
      ∧ (c14Joined.threads 0).thread_id = 0
      ∧ (c14Joined.threads 1).context = Context.entry (4096 + THREAD_STACK_SIZE - 8) 4096 7 9
      ∧ (c14Joined.threads 1).exit_code = EXIT_CODE_KILL
      ∧ (c14Joined.threads 1).thread_id = 1
      ∧ c14Joined.wait_queues 0 = [] := by
  obtain ⟨h1, h2, h3, h4, h5, h6, h7, h8, h9⟩ := c14Created_facts
  have hne : (1 : Slot) ≠ c14Created.running_thread := by rw [h1]; decide
  obtain ⟨j1, j2, j3, j4, j5, j6, j7, j8⟩ :=
    joinedSched_facts c14Created ((1 : Slot).val : Int) 1 1 [] (some 17) hne
  have hr1 : reapedThreads c14Created 1 = c14Created.threads 1 :=
    reapedThreads_ready _ _ h5
  have hr0 : reapedThreads c14Created 0 = c14Created.threads 0 := by
    have := reapedThreads_running c14Created
    rw [h1] at this
    exact this
  unfold c14Joined
  rw [h1] at j6
  refine ⟨j1, j2, ?_, ?_, ?_, ?_, ?_, ?_, ?_⟩
  · rw [j3, h1, h9]
    simp
  · rw [j6, h7, h3]
    rfl
  · rw [j6, hr0, h4]
    rfl
  · rw [j7, hr1]
    exact h8
  · rw [j7, hr1]
    exact h6
  · rw [j7, hr1]
    exact h7
  · rw [j3, h1]
    have : (0 : Slot) ≠ 1 := by decide
    rw [Function.update_noteq this]
    unfold c14Created
    simp [reusedSched]

theorem resume_of_entry (s : Sched) (rsp rbp rdi rsi : Nat)
    (h : (s.threads s.running_thread).context = Context.entry rsp rbp rdi rsi) :
    resume s = some ⟨{ s with interrupts := true }, none, none⟩ := by
  unfold resume
  rw [h]
  rfl

theorem resume_of_join (s : Sched) (id : Int) (enabled : Bool) (t : Slot) (hasOut : Bool)
    (enabledJoin : Bool)
    (h : (s.threads s.running_thread).context
      = Context.saved [Frame.sleep id enabled, Frame.join (t.val : Int) hasOut enabledJoin]) :
    resume s = some ⟨{ s with interrupts := enabledJoin }, some (t.val : Int),
      if hasOut then some (s.threads t).exit_code else none⟩ := by
  unfold resume
  rw [h]
  simp only [unwind, InterruptsSet]
  rw [dif_neg (slot_in_range t), slotOf_val]

theorem c14Started_eq : c14Started = { c14Joined with interrupts := true } := rfl

theorem c14Started_resume : resume c14Joined = some ⟨c14Started, none, none⟩ := by
  obtain ⟨j1, j2, j3, j4, j5, j6, j7, j8, j9⟩ := c14Joined_facts
  exact resume_of_entry c14Joined _ _ _ _ (by rw [j1]; exact j6)

theorem c14Exited_eq :
    thread_stub_return c14Started (Env.healthy 0) = (c14Exited, Outcome.switched) := by
  obtain ⟨j1, j2, j3, j4, j5, j6, j7, j8, j9⟩ := c14Joined_facts
  have hrun : c14Started.running_thread = 1 := by rw [c14Started_eq]; exact j1
  have hth : c14Started.threads = c14Joined.threads := by rw [c14Started_eq]
  have hcode : (c14Started.threads c14Started.running_thread).exit_code = EXIT_CODE_KILL := by
    rw [hrun, hth]
    exact j7
  have hcur : (c14Started.threads c14Started.running_thread).thread_id
      = (c14Started.running_thread.val : Int) := by
    rw [hrun, hth, j8]
    rfl
  have hq : (exitPrep c14Started EXIT_CODE_KILL).rq = [0] := by
    rw [(exitPrep_facts _ _).2.1, hrun, c14Started_eq]
    show c14Joined.rq ++ c14Joined.wait_queues 1 = [0]
    rw [j2, j3]
    rfl
  unfold thread_stub_return
  rw [hcode, ThreadExit_switch c14Started (Env.healthy 0) EXIT_CODE_KILL 0 [] hcur hq]
  rfl

theorem exitPrep_threads_other (s : Sched) (c : Int) (p : Slot)
    (hp : p ≠ s.running_thread) :
    ((exitPrep s c).threads p).context = (s.threads p).context
      ∧ ((exitPrep s c).threads p).thread_id = (s.threads p).thread_id
      ∧ ((exitPrep s c).threads p).exit_code = (s.threads p).exit_code := by
  have h := congrFun (exitPrep_facts s c).2.2.2.2.1 p
  have hr : ∀ (s1 : Sched), (reapedThreads s1 p).context = (s1.threads p).context
      ∧ (reapedThreads s1 p).thread_id = (s1.threads p).thread_id
      ∧ (reapedThreads s1 p).exit_code = (s1.threads p).exit_code := by
    intro s1
    unfold reapedThreads
    split <;> exact ⟨rfl, rfl, rfl⟩
  have hm : ∀ (l : List Slot) (th : Slot → TCB), (markReady l th p).context = (th p).context
      ∧ (markReady l th p).thread_id = (th p).thread_id
      ∧ (markReady l th p).exit_code = (th p).exit_code := by
    intro l th
    unfold markReady
    split <;> exact ⟨rfl, rfl, rfl⟩
  rw [h]
  refine ⟨?_, ?_, ?_⟩
  · rw [(hr _).1]
    exact ((hm _ _).1).trans (by rw [Function.update_noteq hp])
  · rw [(hr _).2.1]
    exact ((hm _ _).2.1).trans (by rw [Function.update_noteq hp])
  · rw [(hr _).2.2]
    exact ((hm _ _).2.2).trans (by rw [Function.update_noteq hp])

theorem c14Started_facts :
    c14Started.running_thread = 1 ∧ c14Started.threads = c14Joined.threads
      ∧ c14Started.wait_queues = c14Joined.wait_queues ∧ c14Started.rq = c14Joined.rq :=
  ⟨c14Joined_facts.1, rfl, rfl, rfl⟩

theorem c14Exited_running : c14Exited.running_thread = 0 := rfl

theorem exitedSched_threads_self (s : Sched) (c : Int) (head : Slot) (rest : List Slot)
    (hne : s.running_thread ≠ head)
    (hj : s.running_thread ∉ s.wait_queues s.running_thread) :
    (exitedSched s c head rest).threads s.running_thread
      = { s.threads s.running_thread with exit_code := c, state := State.EXITED } := by
  have hself := exitPrep_threads_self s c hj
  unfold exitedSched
  simp only [Sched.setState, Sched.setQueue, Function.update_noteq hne, Function.update_same,
    hself]

theorem exitedSched_threads_head (s : Sched) (c : Int) (head : Slot) (rest : List Slot)
    (hne : head ≠ s.running_thread) :
    ((exitedSched s c head rest).threads head).context = (s.threads head).context := by
  have ho := (exitPrep_threads_other s c head hne).1
  unfold exitedSched
  simp only [Sched.setState, Sched.setQueue, Function.update_noteq hne, Function.update_same,
    ho]

theorem c14Exited_thread1 :
    c14Exited.threads 1
      = { c14Started.threads 1 with exit_code := EXIT_CODE_KILL, state := State.EXITED } := by
  obtain ⟨j1, j2, j3, j4, j5, j6, j7, j8, j9⟩ := c14Joined_facts
  obtain ⟨hrun, hth, hwq, hrq⟩ := c14Started_facts
  have h := exitedSched_threads_self c14Started EXIT_CODE_KILL 0 []
    (by rw [hrun]; decide) (by rw [hrun, hwq, j3]; decide)
  rw [hrun] at h
  exact h

theorem c14Exited_thread0 :
    (c14Exited.threads 0).context
      = Context.saved [Frame.sleep 1 false, Frame.join ((1 : Slot).val : Int) true true] := by
  obtain ⟨j1, j2, j3, j4, j5, j6, j7, j8, j9⟩ := c14Joined_facts
  obtain ⟨hrun, hth, hwq, hrq⟩ := c14Started_facts
  have h := exitedSched_threads_head c14Started EXIT_CODE_KILL 0 [] (by rw [hrun]; decide)
  rw [hth, j4] at h
  exact h

theorem c14Exited_resume :
    (resume c14Exited).map (fun r => (r.value, r.stored))
      = some (some 1, some EXIT_CODE_KILL) := by
  rw [resume_of_join c14Exited 1 false 1 true true
    (by rw [c14Exited_running]; exact c14Exited_thread0)]
  simp only [Option.map_some', if_true, c14Exited_thread1]
  rfl

/-- C14 (failing input): slot 1 of `reusedSched` is `EMPTY` and still holds
`EXIT_CODE_KILL` from the killed thread that used it before.  `ThreadCreate`
puts a new thread into slot 1 without resetting the exit code (state
`c14Created`); the bootstrap thread joins it and is suspended (`c14Joined`);
the thread enters its function through `thread_stub` (`c14Started`), the
function returns, and `thread_stub` calls `ThreadExit` with the exit code found
in the TCB (`c14Exited`).  When the bootstrap thread is resumed, `ThreadJoin`
returns 1 and has stored `EXIT_CODE_KILL`, not `EXIT_CODE_NORMAL`, through its
pointer. -/
theorem C14_returning_thread_exits_with_stale_code :
    (reusedSched.threads 1).state = State.EMPTY
      ∧ ThreadCreate reusedSched (Env.healthy 4096) 7 9 = (c14Created, 1)
      ∧ (c14Created.threads 1).exit_code = EXIT_CODE_KILL
      ∧ ThreadJoin c14Created (Env.healthy 0) ((1 : Slot).val : Int) (some 17)
          = (c14Joined, Outcome.switched, some 17)
      ∧ resume c14Joined = some ⟨c14Started, none, none⟩
      ∧ thread_stub_return c14Started (Env.healthy 0) = (c14Exited, Outcome.switched)
      ∧ (c14Exited.threads 1).state = State.EXITED
      ∧ (c14Exited.threads 1).exit_code = EXIT_CODE_KILL
      ∧ c14Exited.running_thread = 0
      ∧ (resume c14Exited).map (fun r => (r.value, r.stored))
          = some (some 1, some EXIT_CODE_KILL)
      ∧ EXIT_CODE_KILL ≠ EXIT_CODE_NORMAL := by
  refine ⟨by simp [reusedSched], c14Created_create, c14Created_facts.2.2.2.2.2.1, c14Joined_eq,
    c14Started_resume, c14Exited_eq, ?_, ?_, c14Exited_running, c14Exited_resume, by decide⟩
  · rw [c14Exited_thread1]
  · rw [c14Exited_thread1]

theorem exitedSched_facts (s : Sched) (c : Int) (head : Slot) (rest : List Slot)
    (_hne : head ≠ s.running_thread) :
    (exitedSched s c head rest).running_thread = head
      ∧ (exitedSched s c head rest).rq = rest
      ∧ (exitedSched s c head rest).interrupts = false
      ∧ ((exitedSched s c head rest).threads head).state = State.RUNNING
      ∧ (exitedSched s c head rest).wait_queues = (exitPrep s c).wait_queues
      ∧ (∀ p, p ≠ s.running_thread → p ≠ head →
          (exitedSched s c head rest).threads p = (exitPrep s c).threads p) := by
  have hrun := (exitPrep_facts s c).1
  have hint := (exitPrep_facts s c).2.2.2.1
  unfold exitedSched
  refine ⟨rfl, ?_, ?_, ?_, ?_, ?_⟩
  · simp only [Sched.setState, Sched.setQueue]
  · simp only [Sched.setState, Sched.setQueue, hint]
  · simp only [Sched.setState, Sched.setQueue, Function.update_same]
  · simp only [Sched.setState, Sched.setQueue]
  · intro p hp1 hp2
    simp only [Sched.setState, Sched.setQueue, hrun, Function.update_noteq hp1,
      Function.update_noteq hp2]

theorem reapedThreads_fields (s : Sched) (p : Slot) :
    (reapedThreads s p).context = (s.threads p).context
      ∧ (reapedThreads s p).thread_id = (s.threads p).thread_id
      ∧ (reapedThreads s p).exit_code = (s.threads p).exit_code := by
  unfold reapedThreads
  split <;> exact ⟨rfl, rfl, rfl⟩

theorem reapedThreads_zombie (s : Sched) (p : Slot)
    (hz : (s.threads p).state = State.EXITED ∨ (s.threads p).state = State.KILLED)
    (hne : s.running_thread ≠ p) :
    (reapedThreads s p).state = State.EMPTY := by
  unfold reapedThreads
  rw [if_pos ⟨hz, hne⟩]

theorem markReady_fields (l : List Slot) (th : Slot → TCB) (p : Slot) :
    (markReady l th p).context = (th p).context
      ∧ (markReady l th p).thread_id = (th p).thread_id
      ∧ (markReady l th p).exit_code = (th p).exit_code := by
  unfold markReady
  split <;> exact ⟨rfl, rfl, rfl⟩

theorem exitedSched_fields (s : Sched) (c : Int) (head : Slot) (rest : List Slot) (p : Slot)
    (hne : head ≠ s.running_thread) (hp : p ≠ s.running_thread) :
    ((exitedSched s c head rest).threads p).context = (s.threads p).context
      ∧ ((exitedSched s c head rest).threads p).thread_id = (s.threads p).thread_id
      ∧ ((exitedSched s c head rest).threads p).exit_code = (s.threads p).exit_code := by
  have ho := exitPrep_threads_other s c p hp
  by_cases hph : p = head
  · subst hph
    have hrun := (exitPrep_facts s c).1
    unfold exitedSched
    simp only [Sched.setState, Sched.setQueue, Function.update_same, hrun,
      Function.update_noteq hp]
    exact ho
  · rw [(exitedSched_facts s c head rest hne).2.2.2.2.2 p hp hph]
    exact ho

theorem killedSched_fields (s : Sched) (tid : Int) (t p : Slot) :
    ((killedSched s tid t).threads p).context = (s.threads p).context
      ∧ ((killedSched s tid t).threads p).thread_id = (s.threads p).thread_id
      ∧ (p ≠ t → ((killedSched s tid t).threads p).exit_code = (s.threads p).exit_code)
      ∧ ((killedSched s tid t).threads t).exit_code = EXIT_CODE_KILL := by
  have hk : ∀ q, ((killedSched s tid t).threads q).context = (killedThreads s t q).context
      ∧ ((killedSched s tid t).threads q).thread_id = (killedThreads s t q).thread_id
      ∧ ((killedSched s tid t).threads q).exit_code = (killedThreads s t q).exit_code :=
    fun q => markReady_fields _ _ q
  refine ⟨?_, ?_, ?_, ?_⟩
  · rw [(hk p).1]
    unfold killedThreads
    by_cases hpt : p = t
    · subst hpt
      rw [Function.update_same]
    · rw [Function.update_noteq hpt]
  · rw [(hk p).2.1]
    exact killedThreads_thread_id s t p
  · intro hpt
    rw [(hk p).2.2]
    unfold killedThreads
    rw [Function.update_noteq hpt]
  · rw [(hk t).2.2]
    unfold killedThreads
    rw [Function.update_same]

theorem yieldedSched_fields (s : Sched) (head : Slot) (rest : List Slot) (p : Slot)
    (hp : p ≠ s.running_thread) :
    ((yieldedSched s head rest).threads p).context = (s.threads p).context
      ∧ ((yieldedSched s head rest).threads p).thread_id = (s.threads p).thread_id
      ∧ ((yieldedSched s head rest).threads p).exit_code = (s.threads p).exit_code := by
  have hr := reapedThreads_fields s p
  unfold yieldedSched
  by_cases hph : p = head
  · subst hph
    simp only [Function.update_same, Function.update_noteq hp]
    exact hr
  · simp only [Function.update_noteq hph, Function.update_noteq hp]
    exact hr

theorem c13Start_facts :
    c13Start.running_thread = 1 ∧ c13Start.rq = [2] ∧ c13Start.wait_queues 1 = [0]
      ∧ (c13Start.threads 0).state = State.BLOCKED
      ∧ (c13Start.threads 0).context
          = Context.saved [Frame.sleep 1 false, Frame.join ((1 : Slot).val : Int) true true]
      ∧ (c13Start.threads 2).context = Context.entry (8192 + THREAD_STACK_SIZE - 8) 8192 7 9
      ∧ (∀ p : Slot, (c13Start.threads p).thread_id = (p.val : Int))
      ∧ (∀ p : Slot, (c13Start.threads p).exit_code = 0) := by
  refine ⟨rfl, rfl, ?_, ?_, ?_, ?_, fun p => rfl, fun p => rfl⟩
  · simp [c13Start]
  · simp [c13Start]
  · simp [c13Start]
  · simp [c13Start]

theorem c13Exited_eq :
    ThreadExit c13Start (Env.healthy 0) 5 = (c13Exited, Outcome.switched) := by
  obtain ⟨s1, s2, s3, s4, s5, s6, s7, s8⟩ := c13Start_facts
  have hq : (exitPrep c13Start 5).rq = 2 :: [0] := by
    rw [(exitPrep_facts _ _).2.1, s1, s2, s3]
    rfl
  rw [ThreadExit_switch c13Start (Env.healthy 0) 5 2 [0] (s7 _) hq]
  rfl

theorem c13Exited_facts :
    c13Exited.running_thread = 2 ∧ c13Exited.rq = [0]
      ∧ (c13Exited.threads 0).state = State.READY
      ∧ (c13Exited.threads 1).state = State.EXITED
      ∧ (c13Exited.threads 1).exit_code = 5
      ∧ (c13Exited.threads 2).context = Context.entry (8192 + THREAD_STACK_SIZE - 8) 8192 7 9
      ∧ (c13Exited.threads 0).context
          = Context.saved [Frame.sleep 1 false, Frame.join ((1 : Slot).val : Int) true true]
      ∧ (∀ p : Slot, (c13Exited.threads p).thread_id = (p.val : Int)) := by
  obtain ⟨s1, s2, s3, s4, s5, s6, s7, s8⟩ := c13Start_facts
  have hne : (2 : Slot) ≠ c13Start.running_thread := by rw [s1]; decide
  have h0 : (0 : Slot) ≠ c13Start.running_thread := by rw [s1]; decide
  have hj : c13Start.running_thread ∉ c13Start.wait_queues c13Start.running_thread := by
    rw [s1, s3]; decide
  obtain ⟨e1, e2, e3, e4, e5, e6⟩ := exitedSched_facts c13Start 5 2 [0] hne
  have hself := exitedSched_threads_self c13Start 5 2 [0] (fun h => hne h.symm) hj
  rw [s1] at hself
  unfold c13Exited
  refine ⟨e1, e2, ?_, ?_, ?_, ?_, ?_, ?_⟩
  · rw [e6 0 h0 (by decide)]
    exact exitPrep_threads_joiner c13Start 5 0 (by rw [s1, s3]; decide)
  · rw [hself]
  · rw [hself]
  · rw [(exitedSched_fields c13Start 5 2 [0] 2 hne hne).1]
    exact s6
  · rw [(exitedSched_fields c13Start 5 2 [0] 0 hne h0).1]
    exact s5
  · intro p
    by_cases hp : p = c13Start.running_thread
    · rw [hp, s1, hself]
      exact s7 1
    · rw [(exitedSched_fields c13Start 5 2 [0] p hne hp).2.1]
      exact s7 p

theorem c13Running_resume : resume c13Exited = some ⟨c13Running, none, none⟩ := by
  obtain ⟨e1, e2, e3, e4, e5, e6, e7, e8⟩ := c13Exited_facts
  exact resume_of_entry c13Exited _ _ _ _ (by rw [e1]; exact e6)

theorem c13Running_facts :
    c13Running.running_thread = 2 ∧ c13Running.rq = [0]
      ∧ c13Running.threads = c13Exited.threads ∧ c13Running.interrupts = true :=
  ⟨c13Exited_facts.1, c13Exited_facts.2.1, rfl, rfl⟩

theorem c13Created_eq :
    ThreadCreate c13Running (Env.healthy 4096) 7 9 = (c13Created, 1) := by
  obtain ⟨e1, e2, e3, e4, e5, e6, e7, e8⟩ := c13Exited_facts
  obtain ⟨r1, r2, r3, r4⟩ := c13Running_facts
  have hfind : findSlot (reapedThreads c13Running) 0 = (1 : Slot).val := by
    apply findSlot_eq_of_least
    · intro hb
      apply hb.1
      apply reapedThreads_zombie
      · rw [r3]; exact Or.inl e4
      · rw [r1]; decide
    · exact Nat.zero_le _
    · intro j _ hj
      have hj0 : j = 0 := Fin.ext (by
        have h1 : (1 : Slot).val = 1 := rfl
        rw [h1] at hj
        exact Nat.lt_one_iff.mp hj)
      rw [hj0, reapedThreads_ready c13Running 0 (by rw [r3]; exact e3), r3, e3]
      unfold State.busy
      decide
  exact ThreadCreate_found c13Running (Env.healthy 4096) 7 9 4096 rfl rfl 1 hfind

theorem c13Created_facts :
    c13Created.running_thread = 2 ∧ c13Created.rq = [0, 1]
      ∧ c13Created.wait_queues 1 = []
      ∧ (c13Created.threads 1).state = State.READY
      ∧ (c13Created.threads 1).exit_code = 5
      ∧ (c13Created.threads 0).context
          = Context.saved [Frame.sleep 1 false, Frame.join ((1 : Slot).val : Int) true true]
      ∧ (∀ p : Slot, (c13Created.threads p).thread_id = (p.val : Int)) := by
  obtain ⟨e1, e2, e3, e4, e5, e6, e7, e8⟩ := c13Exited_facts
  obtain ⟨r1, r2, r3, r4⟩ := c13Running_facts
  have h01 : (0 : Slot) ≠ 1 := by decide
  unfold c13Created
  refine ⟨r1, ?_, ?_, ?_, ?_, ?_, ?_⟩
  · show c13Running.rq ++ [1] = [0, 1]
    rw [r2]
    rfl
  · show Function.update c13Running.wait_queues 1 [] 1 = []
    rw [Function.update_same]
  · show (Function.update (reapedThreads c13Running) 1
      (createdTCB (reapedThreads c13Running 1) 1 4096 7 9) 1).state = State.READY
    rw [Function.update_same]
    rfl
  · show (Function.update (reapedThreads c13Running) 1
      (createdTCB (reapedThreads c13Running 1) 1 4096 7 9) 1).exit_code = 5
    rw [Function.update_same]
    show (reapedThreads c13Running 1).exit_code = 5
    rw [(reapedThreads_fields _ _).2.2, r3]
    exact e5
  · show (Function.update (reapedThreads c13Running) 1
      (createdTCB (reapedThreads c13Running 1) 1 4096 7 9) 0).context
        = Context.saved [Frame.sleep 1 false, Frame.join ((1 : Slot).val : Int) true true]
    rw [Function.update_noteq h01, (reapedThreads_fields _ _).1, r3]
    exact e7
  · intro p
    show (Function.update (reapedThreads c13Running) 1
      (createdTCB (reapedThreads c13Running 1) 1 4096 7 9) p).thread_id = (p.val : Int)
    by_cases hp : p = 1
    · rw [hp, Function.update_same]
      rfl
    · rw [Function.update_noteq hp, (reapedThreads_fields _ _).2.1, r3]
      exact e8 p

theorem c13Killed_eq :
    ThreadKill c13Created ((1 : Slot).val : Int) = (c13Killed, Outcome.ret 1) := by
  obtain ⟨c1, c2, c3, c4, c5, c6, c7⟩ := c13Created_facts
  have h := ThreadKill_live c13Created ((1 : Slot).val : Int) (slot_in_range 1)
    (by rw [c1, c7]; decide) (by rw [slotOf_val, c4]; decide)
  rw [slotOf_val] at h
  exact h

theorem c13Killed_facts :
    c13Killed.running_thread = 2 ∧ c13Killed.rq = [0]
      ∧ (c13Killed.threads 1).exit_code = EXIT_CODE_KILL
      ∧ (c13Killed.threads 0).context
          = Context.saved [Frame.sleep 1 false, Frame.join ((1 : Slot).val : Int) true true] := by
  obtain ⟨c1, c2, c3, c4, c5, c6, c7⟩ := c13Created_facts
  obtain ⟨k1, k2, k3, k4⟩ := killedSched_fields c13Created ((1 : Slot).val : Int) 1 0
  have k5 := (killedSched_fields c13Created ((1 : Slot).val : Int) 1 1).2.2.2
  unfold c13Killed
  refine ⟨c1, ?_, k5, k1.trans c6⟩
  show unlinked (killedThreads c13Created 1) _ c13Created.rq
      ++ unlinked (killedThreads c13Created 1) _ (c13Created.wait_queues 1) = [0]
  rw [c3, c2, unlinked_eq_erase _ _ 1 [0, 1]
    (fun p _ => tid_match_iff _ 1 p ((killedThreads_thread_id _ _ _).trans (c7 p)))]
  rfl

theorem c13Yielded_eq :
    ThreadYield c13Killed (Env.healthy 0) = (c13Yielded, Outcome.switched) := by
  rw [ThreadYield_switch c13Killed (Env.healthy 0) 0 [] c13Killed_facts.2.1 rfl]
  rfl

theorem c13Yielded_facts :
    c13Yielded.running_thread = 0
      ∧ (c13Yielded.threads 0).context
          = Context.saved [Frame.sleep 1 false, Frame.join ((1 : Slot).val : Int) true true]
      ∧ (c13Yielded.threads 1).exit_code = EXIT_CODE_KILL := by
  obtain ⟨k1, k2, k3, k4⟩ := c13Killed_facts
  unfold c13Yielded
  refine ⟨rfl, ?_, ?_⟩
  · rw [(yieldedSched_fields c13Killed 0 [] 0 (by rw [k1]; decide)).1]
    exact k4
  · rw [(yieldedSched_fields c13Killed 0 [] 1 (by rw [k1]; decide)).2.2]
    exact k3

/-- C13 (failing input): in `c13Start` the bootstrap thread `A` is blocked in
`ThreadJoin(1, &out)` and thread 1 (`B`) runs.  `B` calls `ThreadExit(5)`: `A`
becomes `READY` and is appended to the ready queue, and thread 2 is dispatched.
Before `A` runs again thread 2 calls `ThreadCreate`, which reaps slot 1 and
creates a new thread in it, then `ThreadKill(1)`, then `ThreadYield`, which
dispatches `A`.  The resumed `ThreadJoin` returns 1 and has stored the exit code
it finds in slot 1 at that time, `EXIT_CODE_KILL`, not the 5 that `B` exited
with. -/
theorem C13_ThreadJoin_reads_exit_code_late :
    (c13Start.threads 0).state = State.BLOCKED
      ∧ c13Start.wait_queues 1 = [0]
      ∧ (c13Start.threads 0).context
          = Context.saved [Frame.sleep 1 false, Frame.join 1 true true]
      ∧ ThreadExit c13Start (Env.healthy 0) 5 = (c13Exited, Outcome.switched)
      ∧ c13Exited.rq = [0]
      ∧ (c13Exited.threads 0).state = State.READY
      ∧ (c13Exited.threads 1).exit_code = 5
      ∧ resume c13Exited = some ⟨c13Running, none, none⟩
      ∧ ThreadCreate c13Running (Env.healthy 4096) 7 9 = (c13Created, 1)
      ∧ ThreadKill c13Created 1 = (c13Killed, Outcome.ret 1)
      ∧ ThreadYield c13Killed (Env.healthy 0) = (c13Yielded, Outcome.switched)
      ∧ c13Yielded.running_thread = 0
      ∧ (resume c13Yielded).map (fun r => (r.value, r.stored))
          = some (some 1, some EXIT_CODE_KILL)
      ∧ EXIT_CODE_KILL ≠ 5 := by
  obtain ⟨s1, s2, s3, s4, s5, s6, s7, s8⟩ := c13Start_facts
  obtain ⟨e1, e2, e3, e4, e5, e6, e7, e8⟩ := c13Exited_facts
  obtain ⟨y1, y2, y3⟩ := c13Yielded_facts
  refine ⟨s4, s3, s5, c13Exited_eq, e2, e3, e5, c13Running_resume, c13Created_eq,
    c13Killed_eq, c13Yielded_eq, y1, ?_, by decide⟩
  rw [resume_of_join c13Yielded 1 false 1 true true (by rw [y1]; exact y2)]
  simp only [Option.map_some', if_true, y3]
  rfl

/-- C21 (counterexample): `ThreadInit` on `joinSched`, where the join queue of
thread 1 holds thread 2, returns 0 and that queue still holds thread 2. -/
theorem C21_ThreadInit_keeps_other_wait_queues :
    (ThreadInit joinSched (Env.healthy 0)).2 = 0
      ∧ (ThreadInit joinSched (Env.healthy 0)).1.wait_queues 1 = [2]
      ∧ ¬ (∀ i : Slot, (ThreadInit joinSched (Env.healthy 0)).1.wait_queues i = []) := by
  have h1 : (ThreadInit joinSched (Env.healthy 0)).1.wait_queues 1 = [2] := by
    rw [ThreadInit_ok joinSched (Env.healthy 0) rfl]
    show Function.update joinSched.wait_queues 0 [] 1 = [2]
    rw [Function.update_noteq (by decide)]
    simp [joinSched]
  refine ⟨?_, h1, ?_⟩
  · rw [ThreadInit_ok joinSched (Env.healthy 0) rfl]
  · intro h
    have h2 := h 1
    rw [h1] at h2
    exact absurd h2 (by simp)

/-- C21 (amended): when `ThreadInit` succeeds (its `getcontext` returns 0) it
returns 0, the per-thread wait queue of slot 0 is empty, and every other
per-thread wait queue and every user wait queue is as it was before the call;
so every per-thread wait queue is empty afterwards when every one other than
that of slot 0 was empty before, as at program start. -/
theorem C21_ThreadInit_wait_queues (s : Sched) (env : Env) (hc : env.getcontext = 0) :
    (ThreadInit s env).2 = 0
      ∧ (ThreadInit s env).1.wait_queues 0 = []
      ∧ (∀ i : Slot, i ≠ 0 → (ThreadInit s env).1.wait_queues i = s.wait_queues i)
      ∧ (ThreadInit s env).1.user_queues = s.user_queues
      ∧ ((∀ i : Slot, i ≠ 0 → s.wait_queues i = []) →
          ∀ i : Slot, (ThreadInit s env).1.wait_queues i = []) := by
  rw [ThreadInit_ok s env hc]
  have h0 : Function.update s.wait_queues 0 [] 0 = [] := Function.update_same _ _ _
  have hi : ∀ i : Slot, i ≠ 0 → Function.update s.wait_queues 0 [] i = s.wait_queues i :=
    fun i h => Function.update_noteq h _ _
  refine ⟨rfl, h0, hi, rfl, ?_⟩
  intro hall i
  by_cases h : i = 0
  · rw [h]
    exact h0
  · exact (hi i h).trans (hall i h)

theorem C21_ThreadInit_wait_queues_witness :
    (Env.healthy 0).getcontext = 0
      ∧ (ThreadInit joinSched (Env.healthy 0)).1.wait_queues 0 = []
      ∧ (ThreadInit joinSched (Env.healthy 0)).1.wait_queues 1 = joinSched.wait_queues 1 :=
  ⟨rfl, (C21_ThreadInit_wait_queues joinSched (Env.healthy 0) rfl).2.1,
    (C21_ThreadInit_wait_queues joinSched (Env.healthy 0) rfl).2.2.1 1 (by decide)⟩

/-- C22: in a state whose current thread is not a zombie and in which a slot
is free after reaping, when the stack allocation fails `ThreadCreate` returns
`ERROR_SYS_MEM`; the slot it had selected (the lowest free one) is `EMPTY`
after the call, every TCB is as the reaper left it, and the ready queue, the
wait queues, the current thread and the interrupt state are unchanged. -/
theorem C22_ThreadCreate_no_memory (s : Sched) (env : Env) (f arg : Nat)
    (hrun : s.CurrentNotZombie) (hfree : findSlot (reapedThreads s) 0 < MAX_THREADS)
    (hm : env.malloc = none) :
    (ThreadCreate s env f arg).2 = ERROR_SYS_MEM
      ∧ ((ThreadCreate s env f arg).1.threads ⟨findSlot (reapedThreads s) 0, hfree⟩).state
          = State.EMPTY
      ∧ (ThreadCreate s env f arg).1.threads = reapedThreads s
      ∧ (ThreadCreate s env f arg).1.rq = s.rq
      ∧ (ThreadCreate s env f arg).1.wait_queues = s.wait_queues
      ∧ (ThreadCreate s env f arg).1.user_queues = s.user_queues
      ∧ (ThreadCreate s env f arg).1.running_thread = s.running_thread
      ∧ (ThreadCreate s env f arg).1.interrupts = s.interrupts := by
  rw [ThreadCreate_no_memory s env f arg hfree hm]
  refine ⟨rfl, ?_, rfl, rfl, rfl, rfl, rfl, rfl⟩
  have h := findSlot_lt_free (reapedThreads s) 0 hfree
  by_contra hne
  exact h ((reaped_busy_iff s hrun _).mpr hne)

theorem C22_ThreadCreate_no_memory_witness :
    (ThreadCreate bootSched { malloc := none, getcontext := 0, setcontext := 0 } 7 9).2
        = ERROR_SYS_MEM
      ∧ (ThreadCreate bootSched { malloc := none, getcontext := 0, setcontext := 0 } 7 9).1.rq
          = bootSched.rq := by
  have hfind : findSlot (reapedThreads bootSched) 0 = (1 : Slot).val := by
    apply findSlot_eq_of_least
    · intro hb
      exact hb.1 (by simp [reapedThreads, bootSched])
    · exact Nat.zero_le _
    · intro j _ hj
      have hj0 : j = 0 := Fin.ext (by
        have h1 : (1 : Slot).val = 1 := rfl
        rw [h1] at hj
        exact Nat.lt_one_iff.mp hj)
      rw [hj0]
      unfold State.busy
      simp [reapedThreads, bootSched]
  have h := C22_ThreadCreate_no_memory bootSched
    { malloc := none, getcontext := 0, setcontext := 0 } 7 9
    ⟨by simp [bootSched], by simp [bootSched]⟩ (by rw [hfind]; decide) rfl
  exact ⟨h.1, h.2.2.2.1⟩

/-- Effect of one run of the reaper: `free_exited_threads` sets to `EMPTY`
exactly the slots whose state is
`EXITED` or `KILLED` and that are not the currently running TCB; it leaves the
state of every other slot, every thread id, context, stack field and exit code,
the ready queue, every wait queue, the current-running pointer and the
interrupt state unchanged; and applying it twice gives the state that applying
it once gives. -/
theorem free_exited_threads_effect (s : Sched) :
    (∀ i : Slot, ((free_exited_threads s).threads i).state
        = if ((s.threads i).state = State.EXITED ∨ (s.threads i).state = State.KILLED)
              ∧ s.running_thread ≠ i
          then State.EMPTY else (s.threads i).state)
      ∧ (∀ i : Slot, ((free_exited_threads s).threads i).exit_code = (s.threads i).exit_code
          ∧ ((free_exited_threads s).threads i).thread_id = (s.threads i).thread_id
          ∧ ((free_exited_threads s).threads i).context = (s.threads i).context
          ∧ ((free_exited_threads s).threads i).sp = (s.threads i).sp)
      ∧ (free_exited_threads s).rq = s.rq
      ∧ (free_exited_threads s).wait_queues = s.wait_queues
      ∧ (free_exited_threads s).user_queues = s.user_queues
      ∧ (free_exited_threads s).running_thread = s.running_thread
      ∧ (free_exited_threads s).interrupts = s.interrupts
      ∧ free_exited_threads (free_exited_threads s) = free_exited_threads s := by
  rw [free_exited_threads_eq, free_exited_threads_eq]
  refine ⟨?_, ?_, rfl, rfl, rfl, rfl, rfl, ?_⟩
  · intro i
    show (reapedThreads s i).state = _
    unfold reapedThreads
    split <;> rfl
  · intro i
    show (reapedThreads s i).exit_code = _ ∧ (reapedThreads s i).thread_id = _
      ∧ (reapedThreads s i).context = _ ∧ (reapedThreads s i).sp = _
    unfold reapedThreads
    split <;> exact ⟨rfl, rfl, rfl, rfl⟩
  · show ({ s with threads := reapedThreads { s with threads := reapedThreads s } } : Sched)
      = { s with threads := reapedThreads s }
    have h : reapedThreads { s with threads := reapedThreads s } = reapedThreads s := by
      funext i
      unfold reapedThreads
      by_cases hz : ((s.threads i).state = State.EXITED ∨ (s.threads i).state = State.KILLED)
          ∧ s.running_thread ≠ i
      · simp [hz]
      · simp only [if_neg hz]
    rw [h]

theorem setQueue_queue (s : Sched) (q : QueuePtr) (l : List Slot) :
    (s.setQueue q l).queue q = l := by
  cases q with
  | rq => rfl
  | wq w =>
    cases w with
    | join i => simp [Sched.setQueue, Sched.queue]
    | user a => simp [Sched.setQueue, Sched.queue]

theorem setQueue_queue_ne (s : Sched) (q q' : QueuePtr) (l : List Slot) (h : q' ≠ q) :
    (s.setQueue q l).queue q' = s.queue q' := by
  cases q with
  | rq =>
    cases q' with
    | rq => exact absurd rfl h
    | wq w' => cases w' <;> rfl
  | wq w =>
    cases w with
    | join i =>
      cases q' with
      | rq => rfl
      | wq w' =>
        cases w' with
        | join j =>
          have hji : j ≠ i := fun e => h (by rw [e])
          simp [Sched.setQueue, Sched.queue, Function.update_noteq hji]
        | user b => rfl
    | user a =>
      cases q' with
      | rq => rfl
      | wq w' =>
        cases w' with
        | join j => rfl
        | user b =>
          have hba : b ≠ a := fun e => h (by rw [e])
          simp [Sched.setQueue, Sched.queue, Function.update_noteq hba]

theorem queue_interrupts (s : Sched) (b : Bool) (q : QueuePtr) :
    ({ s with interrupts := b } : Sched).queue q = s.queue q := by
  cases q with
  | rq => rfl
  | wq w => cases w <;> rfl

theorem insert_into_queue_queue (s : Sched) (q : QueuePtr) (t : Slot) :
    (insert_into_queue s q t).queue q = s.queue q ++ [t] := by
  unfold insert_into_queue
  dsimp only [InterruptsDisable, InterruptsSet]
  rw [queue_interrupts, setQueue_queue, queue_interrupts, linkAtTail_eq]

theorem extract_from_queue_nil (s : Sched) (q : QueuePtr) (h : s.queue q = []) :
    extract_from_queue s q = none := by
  unfold extract_from_queue
  dsimp only [InterruptsDisable, InterruptsSet]
  rw [queue_interrupts, h]

theorem extract_from_queue_cons (s : Sched) (q : QueuePtr) (t : Slot) (rest : List Slot)
    (h : s.queue q = t :: rest) :
    ∃ s1, extract_from_queue s q = some (t, s1) ∧ s1.queue q = rest := by
  unfold extract_from_queue
  dsimp only [InterruptsDisable, InterruptsSet]
  rw [queue_interrupts, h]
  exact ⟨_, rfl, by rw [queue_interrupts, setQueue_queue]⟩

theorem runQueueOps_spec (q : QueuePtr) (ops : List QueueOp) :
    ∀ s : Sched, extractsServed ops (s.queue q).length →
      ∃ s1 outs, runQueueOps q ops s = some (s1, outs)
        ∧ s.queue q ++ insertedBy ops = outs ++ s1.queue q := by
  induction ops with
  | nil =>
    intro s _
    exact ⟨s, [], rfl, by simp [insertedBy]⟩
  | cons op ops ih =>
    intro s h
    cases op with
    | insert t =>
      have hlen : ((insert_into_queue s q t).queue q).length = (s.queue q).length + 1 := by
        rw [insert_into_queue_queue]
        simp
      obtain ⟨s1, outs, hrun, heq⟩ := ih (insert_into_queue s q t) (by rw [hlen]; exact h)
      refine ⟨s1, outs, hrun, ?_⟩
      rw [← heq, insert_into_queue_queue]
      simp [insertedBy]
    | extract =>
      obtain ⟨hpos, hrestServed⟩ := h
      cases hq : s.queue q with
      | nil =>
        rw [hq] at hpos
        exact absurd hpos (by simp)
      | cons t rest =>
        rw [hq] at hrestServed
        obtain ⟨s0, hex, hrest⟩ := extract_from_queue_cons s q t rest hq
        obtain ⟨s1, outs, hrun, heq⟩ := ih s0 (by rw [hrest]; exact hrestServed)
        refine ⟨s1, t :: outs, ?_, ?_⟩
        · show (match extract_from_queue s q with
            | none => none
            | some (t, s1) => (runQueueOps q ops s1).map (fun r => (r.1, t :: r.2)))
              = some (s1, t :: outs)
          rw [hex]
          show (runQueueOps q ops s0).map (fun r => (r.1, t :: r.2)) = some (s1, t :: outs)
          rw [hrun]
          rfl
        · rw [hrest] at heq
          show t :: rest ++ insertedBy ops = t :: outs ++ s1.queue q
          rw [List.cons_append, List.cons_append, heq]

/-- C29: for every queue (the ready queue, a per-thread or a user wait queue),
every state and every finite run of `insert_into_queue` and
`extract_from_queue` calls against that queue in which no extract is applied to
an empty queue: every extract returns a TCB, and the queue contents at the start
followed by the TCBs inserted, in insertion order, are the TCBs extracted, in
extraction order, followed by the queue contents at the end; so, the queue
being empty at the start, the TCBs extracted are a prefix of the TCBs
inserted. -/
theorem C29_queue_is_fifo (q : QueuePtr) (ops : List QueueOp) (s : Sched)
    (h : extractsServed ops (s.queue q).length) :
    ∃ s1 outs, runQueueOps q ops s = some (s1, outs)
      ∧ s.queue q ++ insertedBy ops = outs ++ s1.queue q
      ∧ (s.queue q = [] → outs <+: insertedBy ops) := by
  obtain ⟨s1, outs, hrun, heq⟩ := runQueueOps_spec q ops s h
  refine ⟨s1, outs, hrun, heq, ?_⟩
  intro hnil
  rw [hnil, List.nil_append] at heq
  exact ⟨s1.queue q, heq.symm⟩

theorem C29_queue_is_fifo_witness :
    extractsServed
        [QueueOp.insert 1, QueueOp.insert 2, QueueOp.extract, QueueOp.insert 3, QueueOp.extract]
        (bootSched.queue QueuePtr.rq).length
      ∧ ∃ s1 outs, runQueueOps QueuePtr.rq
            [QueueOp.insert 1, QueueOp.insert 2, QueueOp.extract, QueueOp.insert 3,
              QueueOp.extract] bootSched = some (s1, outs)
          ∧ bootSched.queue QueuePtr.rq
              ++ insertedBy [QueueOp.insert 1, QueueOp.insert 2, QueueOp.extract,
                  QueueOp.insert 3, QueueOp.extract] = outs ++ s1.queue QueuePtr.rq
          ∧ (bootSched.queue QueuePtr.rq = [] →
              outs <+: insertedBy [QueueOp.insert 1, QueueOp.insert 2, QueueOp.extract,
                QueueOp.insert 3, QueueOp.extract]) :=
  ⟨by simp [extractsServed, bootSched, Sched.queue],
    C29_queue_is_fifo QueuePtr.rq _ bootSched
      (by simp [extractsServed, bootSched, Sched.queue])⟩

theorem unlinked_eq_removeFirst (threads : Slot → TCB) (tid : Int) (l : List Slot) :
    unlinked threads tid l = removeFirstWithTid threads tid l := by
  unfold unlinked removeFirstWithTid
  induction l with
  | nil => rfl
  | cons x rest ih =>
    by_cases hx : (threads x).thread_id = tid
    · simp [unlinkTid, hx]
    · cases hu : unlinkTid threads tid rest with
      | none =>
        rw [hu] at ih
        simp only [Option.getD_none] at ih
        simp [unlinkTid, hx, hu, ← ih]
      | some l' =>
        rw [hu] at ih
        simp only [Option.getD_some] at ih
        simp [unlinkTid, hx, hu, ← ih]

theorem remove_from_queue_eq (s : Sched) (q : QueuePtr) (tid : Int) :
    remove_from_queue s q tid
      = match unlinkTid s.threads tid (s.queue q) with
        | some l => s.setQueue q l
        | none => { s with interrupts := false } := by
  have hq : ({ s with interrupts := false } : Sched).queue q = s.queue q :=
    queue_interrupts s false q
  unfold remove_from_queue
  dsimp only [InterruptsDisable, InterruptsSet]
  rw [hq]
  cases unlinkTid s.threads tid (s.queue q) with
  | none => rfl
  | some l =>
    cases q with
    | rq => rfl
    | wq w => cases w <;> rfl

theorem setQueue_fields (s : Sched) (q : QueuePtr) (l : List Slot) :
    (s.setQueue q l).threads = s.threads
      ∧ (s.setQueue q l).running_thread = s.running_thread := by
  cases q with
  | rq => exact ⟨rfl, rfl⟩
  | wq w => cases w <;> exact ⟨rfl, rfl⟩

theorem remove_from_queue_queue (s : Sched) (q : QueuePtr) (tid : Int) :
    (remove_from_queue s q tid).queue q = unlinked s.threads tid (s.queue q)
      ∧ (remove_from_queue s q tid).threads = s.threads
      ∧ (remove_from_queue s q tid).running_thread = s.running_thread
      ∧ (∀ q2 : QueuePtr, q2 ≠ q → (remove_from_queue s q tid).queue q2 = s.queue q2) := by
  rw [remove_from_queue_eq]
  unfold unlinked
  cases unlinkTid s.threads tid (s.queue q) with
  | none =>
    exact ⟨queue_interrupts s false q, rfl, rfl, fun q2 _ => queue_interrupts s false q2⟩
  | some l =>
    exact ⟨setQueue_queue s q l, (setQueue_fields s q l).1, (setQueue_fields s q l).2,
      fun q2 hq2 => setQueue_queue_ne s q q2 l hq2⟩

/-- C30: for every queue (the ready queue, a per-thread or a user wait queue),
every state and every `tid`, the queue after `remove_from_queue(queue, tid)` is
the queue without the first node whose TCB has thread id `tid`, the other nodes
in their order: if the queue is `pre ++ x :: post` with `x` the first such node
it becomes `pre ++ post`, and if no node has that thread id (the empty queue
included) it is unchanged; the TCBs, the current thread and every other queue
are unchanged. -/
theorem C30_remove_from_queue_effect (s : Sched) (q : QueuePtr) (tid : Int) :
    (remove_from_queue s q tid).queue q = removeFirstWithTid s.threads tid (s.queue q)
      ∧ (∀ (pre post : List Slot) (x : Slot), s.queue q = pre ++ x :: post →
          (s.threads x).thread_id = tid → (∀ p ∈ pre, (s.threads p).thread_id ≠ tid) →
          (remove_from_queue s q tid).queue q = pre ++ post)
      ∧ ((∀ p ∈ s.queue q, (s.threads p).thread_id ≠ tid) →
          (remove_from_queue s q tid).queue q = s.queue q)
      ∧ (remove_from_queue s q tid).threads = s.threads
      ∧ (remove_from_queue s q tid).running_thread = s.running_thread
      ∧ (∀ q2 : QueuePtr, q2 ≠ q → (remove_from_queue s q tid).queue q2 = s.queue q2) := by
  obtain ⟨h1, h2, h3, h4⟩ := remove_from_queue_queue s q tid
  rw [unlinked_eq_removeFirst] at h1
  refine ⟨h1, ?_, ?_, h2, h3, h4⟩
  · intro pre post x hq hx hpre
    rw [h1, hq]
    unfold removeFirstWithTid
    rw [List.eraseP_append_right _ (by
      intro p hp
      simpa using hpre p hp)]
    rw [List.eraseP_cons_of_pos (by simpa using hx)]
  · intro hall
    rw [h1]
    unfold removeFirstWithTid
    exact List.eraseP_of_forall_not (by
      intro p hp
      simpa using hall p hp)

theorem setQueue_interrupts (s : Sched) (q : QueuePtr) (l : List Slot) :
    (s.setQueue q l).interrupts = s.interrupts := by
  cases q with
  | rq => rfl
  | wq w => cases w <;> rfl

theorem ThreadCreate_interrupts (s : Sched) (env : Env) (f arg : Nat) :
    (ThreadCreate s env f arg).1.interrupts = s.interrupts := by
  by_cases hlt : findSlot (reapedThreads s) 0 < MAX_THREADS
  · cases hm : env.malloc with
    | none => rw [ThreadCreate_no_memory s env f arg hlt hm]
    | some sp =>
      by_cases hc : env.getcontext = 0
      · rw [ThreadCreate_found s env f arg sp hm hc ⟨_, hlt⟩ rfl]
      · rw [ThreadCreate_no_context s env f arg sp hlt hm hc]
  · rw [ThreadCreate_full s env f arg hlt]

theorem ThreadKill_interrupts (s : Sched) (tid : Int) :
    (ThreadKill s tid).1.interrupts = s.interrupts := by
  by_cases h : tid < 0 ∨ tid ≥ (MAX_THREADS : Int)
  · rw [ThreadKill_invalid s tid h]
  · by_cases hself : tid = (s.threads s.running_thread).thread_id
    · rw [ThreadKill_self s tid h hself]
    · by_cases hdead : (s.threads (slotOf tid h)).state = State.EMPTY
          ∨ (s.threads (slotOf tid h)).state = State.KILLED
          ∨ (s.threads (slotOf tid h)).state = State.EXITED
      · rw [ThreadKill_dead s tid h hself hdead]
      · rw [ThreadKill_live s tid h hself hdead]
        rfl

theorem ThreadWakeNext_interrupts (s : Sched) (q : WaitQueuePtr) :
    (ThreadWakeNext s q).1.interrupts = s.interrupts := by
  cases hq : s.queue (.wq q) with
  | nil => rw [ThreadWakeNext_empty s q hq]
  | cons t rest =>
    rw [ThreadWakeNext_cons s q t rest hq]
    exact setQueue_interrupts _ _ _

theorem ThreadWakeAll_interrupts (s : Sched) (q : WaitQueuePtr) :
    (ThreadWakeAll s q).1.interrupts = s.interrupts := by
  rw [ThreadWakeAll_eq]
  exact (wokenAll_facts s q).2.2.2.2

theorem WaitQueueCreate_interrupts (s : Sched) (env : Env) (h : env.malloc ≠ none) :
    (WaitQueueCreate s env).1.interrupts = s.interrupts := by
  unfold WaitQueueCreate
  dsimp only [InterruptsDisable, InterruptsSet]
  cases hm : env.malloc with
  | none => exact absurd hm h
  | some addr => rfl

theorem ThreadYield_interrupts (s : Sched) (env : Env) (v : Int)
    (hret : (ThreadYield s env).2 = Outcome.ret v) :
    (ThreadYield s env).1.interrupts = s.interrupts := by
  cases hq : s.rq with
  | nil => rw [ThreadYield_empty s env hq]; rfl
  | cons head rest =>
    by_cases hc : env.getcontext = 0
    · rw [ThreadYield_switch s env head rest hq hc] at hret ⊢
      by_cases hsc : env.setcontext = 0
      · rw [if_pos hsc] at hret
        exact absurd hret (by simp)
      · rw [if_neg hsc]
    · rw [ThreadYield_no_context s env (by rw [hq]; simp) hc]
      rfl

theorem ThreadYieldTo_interrupts (s : Sched) (env : Env) (tid : Int) (v : Int)
    (hret : (ThreadYieldTo s env tid).2 = Outcome.ret v) :
    (ThreadYieldTo s env tid).1.interrupts = s.interrupts := by
  by_cases h : tid < 0 ∨ tid ≥ (MAX_THREADS : Int)
  · rw [ThreadYieldTo_invalid s env tid h]; rfl
  · by_cases hself : tid = (s.threads s.running_thread).thread_id
    · rw [ThreadYieldTo_self s env tid h hself]; rfl
    · by_cases hst : (reapedThreads s (slotOf tid h)).state = State.READY
      · by_cases hc : env.getcontext = 0
        · rw [ThreadYieldTo_switch s env tid h hself hst hc] at hret ⊢
          by_cases hsc : env.setcontext = 0
          · rw [if_pos hsc] at hret
            exact absurd hret (by simp)
          · rw [if_neg hsc]
        · rw [ThreadYieldTo_no_context s env tid h hself hst hc]; rfl
      · rw [ThreadYieldTo_not_ready s env tid h hself hst]; rfl

theorem ThreadSleep_interrupts (s : Sched) (env : Env) (q : WaitQueuePtr) (v : Int)
    (hret : (ThreadSleep s env q).2 = Outcome.ret v) :
    (ThreadSleep s env q).1.interrupts = s.interrupts := by
  cases hq : s.rq with
  | nil => rw [ThreadSleep_empty s env q hq]; rfl
  | cons head rest =>
    by_cases hc : env.getcontext = 0
    · rw [ThreadSleep_switch s env q head rest hq hc] at hret ⊢
      by_cases hsc : env.setcontext = 0
      · rw [if_pos hsc] at hret
        exact absurd hret (by simp)
      · rw [if_neg hsc]
    · rw [ThreadSleep_no_context s env q head rest hq hc]
      rfl

theorem ThreadJoin_interrupts (s : Sched) (env : Env) (tid : Int) (out : Option Int) (v : Int)
    (hret : (ThreadJoin s env tid out).2.1 = Outcome.ret v) :
    (ThreadJoin s env tid out).1.interrupts = s.interrupts := by
  by_cases h : tid < 0 ∨ tid ≥ (MAX_THREADS : Int)
  · rw [ThreadJoin_invalid s env tid out h]
  · by_cases hdead : (s.threads (slotOf tid h)).state = State.EMPTY
        ∨ (s.threads (slotOf tid h)).state = State.KILLED
        ∨ (s.threads (slotOf tid h)).state = State.EXITED
    · rw [ThreadJoin_dead s env tid out h hdead]
    · by_cases hself : tid = (s.threads s.running_thread).thread_id
      · rw [ThreadJoin_self s env tid out h hdead hself]
      · rw [ThreadJoin_live s env tid out h hdead hself] at hret ⊢
        by_cases hq : s.rq = []
        · rw [ThreadSleep_empty { s with interrupts := false } env _ hq]
        · obtain ⟨head, rest, hq⟩ := List.exists_cons_of_ne_nil hq
          by_cases hc : env.getcontext = 0
          · rw [ThreadSleep_switch { s with interrupts := false } env _ head rest hq hc]
              at hret ⊢
            by_cases hsc : env.setcontext = 0
            · rw [if_pos hsc] at hret
              exact absurd hret (by simp)
            · rw [if_neg hsc]
          · rw [ThreadSleep_no_context { s with interrupts := false } env _ head rest hq hc]

/-- C24: for every state and every argument, `ThreadCreate`, `ThreadKill`,
`ThreadWakeNext`, `ThreadWakeAll`, `WaitQueueDestroy` and (its allocation
succeeding) `WaitQueueCreate` leave the interrupt state as it was on entry, and
so does every call of `ThreadYield`, `ThreadYieldTo`, `ThreadSleep` and
`ThreadJoin` that returns to its caller without a switch to another thread;
and the helpers the library calls inside these operations
(`insert_into_queue`, `extract_from_queue`, `remove_from_queue`,
`remove_from_all_wait_queues`, `free_exited_threads`), entered with
interrupts disabled, return with interrupts disabled. -/
theorem C24_interrupt_state_preserved (s : Sched) (env : Env) :
    (∀ f arg, (ThreadCreate s env f arg).1.interrupts = s.interrupts)
      ∧ (∀ tid, (ThreadKill s tid).1.interrupts = s.interrupts)
      ∧ (∀ q, (ThreadWakeNext s q).1.interrupts = s.interrupts)
      ∧ (∀ q, (ThreadWakeAll s q).1.interrupts = s.interrupts)
      ∧ (env.malloc ≠ none → (WaitQueueCreate s env).1.interrupts = s.interrupts)
      ∧ (∀ addr, (WaitQueueDestroy s addr).1.interrupts = s.interrupts)
      ∧ (∀ v, (ThreadYield s env).2 = Outcome.ret v →
          (ThreadYield s env).1.interrupts = s.interrupts)
      ∧ (∀ tid v, (ThreadYieldTo s env tid).2 = Outcome.ret v →
          (ThreadYieldTo s env tid).1.interrupts = s.interrupts)
      ∧ (∀ q v, (ThreadSleep s env q).2 = Outcome.ret v →
          (ThreadSleep s env q).1.interrupts = s.interrupts)
      ∧ (∀ tid out v, (ThreadJoin s env tid out).2.1 = Outcome.ret v →
          (ThreadJoin s env tid out).1.interrupts = s.interrupts)
      ∧ (s.interrupts = false →
          (∀ q t, (insert_into_queue s q t).interrupts = false)
            ∧ (∀ q t s1, extract_from_queue s q = some (t, s1) → s1.interrupts = false)
            ∧ (∀ q tid, (remove_from_queue s q tid).interrupts = false)
            ∧ (∀ tid, (remove_from_all_wait_queues s tid).interrupts = false)
            ∧ (free_exited_threads s).interrupts = false) := by
  refine ⟨fun f arg => ThreadCreate_interrupts s env f arg, ThreadKill_interrupts s,
    ThreadWakeNext_interrupts s, ThreadWakeAll_interrupts s, WaitQueueCreate_interrupts s env,
    ?_, ThreadYield_interrupts s env, ThreadYieldTo_interrupts s env,
    ThreadSleep_interrupts s env, ThreadJoin_interrupts s env, ?_⟩
  · intro addr
    rw [WaitQueueDestroy_eq]
  · intro hi
    refine ⟨?_, ?_, ?_, ?_, ?_⟩
    · intro q t
      unfold insert_into_queue
      exact hi
    · intro q t s1 hex
      unfold extract_from_queue at hex
      dsimp only [InterruptsDisable, InterruptsSet] at hex
      cases hq : ({ s with interrupts := false } : Sched).queue q with
      | nil =>
        rw [hq] at hex
        exact absurd hex (by simp)
      | cons x rest =>
        rw [hq] at hex
        have h2 := (Prod.mk.inj (Option.some.inj hex)).2
        rw [← h2]
        exact hi
    · intro q tid
      rw [remove_from_queue_eq]
      cases unlinkTid s.threads tid (s.queue q) with
      | none => rfl
      | some l => exact (setQueue_interrupts s q l).trans hi
    · intro tid
      rw [remove_from_all_wait_queues_eq]
      exact hi
    · rw [free_exited_threads_eq]
      exact hi

theorem C24_interrupt_state_preserved_witness :
    (Env.healthy 4096).malloc ≠ none
      ∧ (WaitQueueCreate joinSched (Env.healthy 4096)).1.interrupts = joinSched.interrupts
      ∧ (ThreadYieldTo joinSched (Env.healthy 4096) 0).2 = Outcome.ret 0
      ∧ (ThreadYieldTo joinSched (Env.healthy 4096) 0).1.interrupts = joinSched.interrupts := by
  have h := C24_interrupt_state_preserved joinSched (Env.healthy 4096)
  have hy : (ThreadYieldTo joinSched (Env.healthy 4096) 0).2 = Outcome.ret 0 := by
    rw [ThreadYieldTo_self joinSched (Env.healthy 4096) 0 (by decide) rfl]
  exact ⟨by simp [Env.healthy], h.2.2.2.2.1 (by simp [Env.healthy]), hy,
    h.2.2.2.2.2.2.2.1 0 0 hy⟩

theorem extract_from_queue_eq_none (s : Sched) (q : QueuePtr)
    (h : extract_from_queue s q = none) : s.queue q = [] := by
  cases hq : s.queue q with
  | nil => rfl
  | cons t rest =>
    obtain ⟨s1, h1, _⟩ := extract_from_queue_cons s q t rest hq
    rw [h1] at h
    exact absurd h (by simp)

theorem ThreadExit_no_fault (s : Sched) (env : Env) (c : Int)
    (h : ¬ ((s.threads s.running_thread).thread_id < 0
      ∨ (s.threads s.running_thread).thread_id ≥ (MAX_THREADS : Int))) :
    ∃ r, ThreadExit s env c = r ∧ r.2 ≠ Outcome.fault := by
  have hid : ((Sched.setExitCode { s with interrupts := false } s.running_thread c).threads
      (Sched.setExitCode { s with interrupts := false } s.running_thread c).running_thread).thread_id
        = (s.threads s.running_thread).thread_id := by
    simp [Sched.setExitCode]
  have hr : ¬ (((Sched.setExitCode { s with interrupts := false } s.running_thread c).threads
      (Sched.setExitCode { s with interrupts := false } s.running_thread c).running_thread).thread_id < 0
      ∨ ((Sched.setExitCode { s with interrupts := false } s.running_thread c).threads
      (Sched.setExitCode { s with interrupts := false } s.running_thread c).running_thread).thread_id
        ≥ (MAX_THREADS : Int)) := by
    rw [hid]
    exact h
  refine ⟨?r, ?_, ?_⟩
  case refine_1 =>
    unfold ThreadExit
    refine (dif_neg hr).trans ?_
    rw [ThreadWakeAll_eq]
    conv =>
      lhs
      simp_match
    rw [free_exited_threads_fun, remove_from_all_wait_queues_fun]
    dsimp only [wokenAll, Sched.queue, Sched.setQueue, Sched.setExitCode, Sched.setState,
      InterruptsSet]
    exact rfl
  split
  · exact fun hf => Outcome.noConfusion hf
  · rename_i hne
    split
    · rename_i hex
      exact absurd (extract_from_queue_eq_none _ _ hex) hne
    · split
      · exact fun hf => Outcome.noConfusion hf
      · exact fun hf => Outcome.noConfusion hf

/-- C31: when `ThreadCreate` succeeds with a stack allocated at `sp`, a
multiple of 16, the context of the new thread holds the stack pointer
`sp + THREAD_STACK_SIZE - 8` (with `sp` as frame pointer and `f`, `arg` as
arguments of `thread_stub`); that value lies inside the allocated region
`[sp, sp + THREAD_STACK_SIZE)`, is a multiple of 8 and is congruent to 8
modulo 16; and it fits in 64 bits whenever the region does. -/
theorem C31_initial_stack_pointer (s : Sched) (env : Env) (f arg sp : Nat) (t : Slot)
    (hm : env.malloc = some sp) (hc : env.getcontext = 0)
    (ht : findSlot (reapedThreads s) 0 = t.val) (hal : sp % 16 = 0) :
    ((ThreadCreate s env f arg).1.threads t).context
        = Context.entry (sp + THREAD_STACK_SIZE - 8) sp f arg
      ∧ sp ≤ sp + THREAD_STACK_SIZE - 8
      ∧ sp + THREAD_STACK_SIZE - 8 < sp + THREAD_STACK_SIZE
      ∧ (sp + THREAD_STACK_SIZE - 8) % 8 = 0
      ∧ (sp + THREAD_STACK_SIZE - 8) % 16 = 8
      ∧ (sp + THREAD_STACK_SIZE ≤ 2 ^ 64 → sp + THREAD_STACK_SIZE - 8 < 2 ^ 64) := by
  rw [ThreadCreate_found s env f arg sp hm hc t ht]
  refine ⟨?_, ?_, ?_, ?_, ?_, ?_⟩
  · show (Function.update (reapedThreads s) t
      (createdTCB (reapedThreads s t) t.val sp f arg) t).context = _
    rw [Function.update_same]
    rfl
  all_goals
    unfold THREAD_STACK_SIZE
    omega

theorem C31_initial_stack_pointer_witness :
    ((ThreadCreate bootSched (Env.healthy 4096) 7 9).1.threads 1).context
        = Context.entry (4096 + THREAD_STACK_SIZE - 8) 4096 7 9
      ∧ (4096 + THREAD_STACK_SIZE - 8) % 16 = 8 := by
  have hfind : findSlot (reapedThreads bootSched) 0 = (1 : Slot).val := by
    apply findSlot_eq_of_least
    · intro hb
      exact hb.1 (by simp [reapedThreads, bootSched])
    · exact Nat.zero_le _
    · intro j _ hj
      have hj0 : j = 0 := Fin.ext (by simpa using hj)
      subst hj0
      simp [State.busy, reapedThreads, bootSched]
  have h := C31_initial_stack_pointer bootSched (Env.healthy 4096) 7 9 4096 1 rfl rfl hfind
    (by decide)
  exact ⟨h.1, h.2.2.2.2.1⟩

/-- C32: whenever `ThreadKill` or `ThreadJoin` returns a negative value (the
error codes are the only negative values they return), the scheduler state
after the call is the state before it, field for field, and `ThreadJoin` has
stored nothing through `exit_code`. -/
theorem C32_error_returns_keep_state (s : Sched) (env : Env) :
    (∀ tid v, (ThreadKill s tid).2 = Outcome.ret v → v < 0 →
        (ThreadKill s tid).1 = s
          ∧ (v = ERROR_TID_INVALID ∨ v = ERROR_THREAD_BAD ∨ v = ERROR_SYS_THREAD))
      ∧ (∀ tid out v, (ThreadJoin s env tid out).2.1 = Outcome.ret v → v < 0 →
        (ThreadJoin s env tid out).1 = s ∧ (ThreadJoin s env tid out).2.2 = out
          ∧ (v = ERROR_TID_INVALID ∨ v = ERROR_THREAD_BAD ∨ v = ERROR_SYS_THREAD)) := by
  constructor
  · intro tid v hret hv
    by_cases h : tid < 0 ∨ tid ≥ (MAX_THREADS : Int)
    · rw [ThreadKill_invalid s tid h] at hret ⊢
      exact ⟨rfl, Or.inl (Outcome.ret.inj hret).symm⟩
    · by_cases hself : tid = (s.threads s.running_thread).thread_id
      · rw [ThreadKill_self s tid h hself] at hret ⊢
        exact ⟨rfl, Or.inr (Or.inl (Outcome.ret.inj hret).symm)⟩
      · by_cases hdead : (s.threads (slotOf tid h)).state = State.EMPTY
            ∨ (s.threads (slotOf tid h)).state = State.KILLED
            ∨ (s.threads (slotOf tid h)).state = State.EXITED
        · rw [ThreadKill_dead s tid h hself hdead] at hret ⊢
          exact ⟨rfl, Or.inr (Or.inr (Outcome.ret.inj hret).symm)⟩
        · rw [ThreadKill_live s tid h hself hdead] at hret
          have hv2 : tid = v := Outcome.ret.inj hret
          omega
  · intro tid out v hret hv
    by_cases h : tid < 0 ∨ tid ≥ (MAX_THREADS : Int)
    · rw [ThreadJoin_invalid s env tid out h] at hret ⊢
      exact ⟨rfl, rfl, Or.inl (Outcome.ret.inj hret).symm⟩
    · by_cases hdead : (s.threads (slotOf tid h)).state = State.EMPTY
          ∨ (s.threads (slotOf tid h)).state = State.KILLED
          ∨ (s.threads (slotOf tid h)).state = State.EXITED
      · rw [ThreadJoin_dead s env tid out h hdead] at hret ⊢
        exact ⟨rfl, rfl, Or.inr (Or.inr (Outcome.ret.inj hret).symm)⟩
      · by_cases hself : tid = (s.threads s.running_thread).thread_id
        · rw [ThreadJoin_self s env tid out h hdead hself] at hret ⊢
          exact ⟨rfl, rfl, Or.inr (Or.inl (Outcome.ret.inj hret).symm)⟩
        · rw [ThreadJoin_live s env tid out h hdead hself] at hret
          generalize ThreadSleep { s with interrupts := false } env (.join (slotOf tid h)) = r
            at hret
          obtain ⟨s2, o⟩ := r
          cases o with
          | ret w =>
            have hv2 : tid = v := Outcome.ret.inj hret
            omega
          | switched => exact absurd hret (by simp)
          | exited code => exact absurd hret (by simp)
          | fault => exact absurd hret (by simp)

theorem C32_error_returns_keep_state_witness :
    (ThreadKill joinSched 42).2 = Outcome.ret ERROR_SYS_THREAD ∧ ERROR_SYS_THREAD < 0
      ∧ (ThreadKill joinSched 42).1 = joinSched := by
  have hk : ThreadKill joinSched 42 = (joinSched, Outcome.ret ERROR_SYS_THREAD) :=
    ThreadKill_dead joinSched 42 (by decide) (by decide)
      (Or.inl rfl)
  have hret : (ThreadKill joinSched 42).2 = Outcome.ret ERROR_SYS_THREAD := by rw [hk]
  exact ⟨hret, by decide,
    ((C32_error_returns_keep_state joinSched (Env.healthy 0)).1 42 ERROR_SYS_THREAD hret
      (by decide)).1⟩

/-- C33: `extract_from_queue` meets an empty queue exactly when it answers
`none`, and that answer is never produced inside `ThreadYield`,
`ThreadSleep`, `ThreadWakeNext`, `ThreadWakeAll` or `ThreadExit`: for every
state and every platform answer none of the first four ends in the fault
outcome, and `ThreadExit` can do so only through the index
`wait_queues[running_thread->thread_id]`, when the thread id of the current
TCB is outside `0 .. MAX_THREADS - 1`. -/
theorem C33_extract_from_queue_precondition (s : Sched) (env : Env) :
    (∀ q, extract_from_queue s q = none ↔ s.queue q = [])
      ∧ (ThreadYield s env).2 ≠ Outcome.fault
      ∧ (∀ q, (ThreadSleep s env q).2 ≠ Outcome.fault)
      ∧ (∀ q, (ThreadWakeNext s q).2 ≠ Outcome.fault)
      ∧ (∀ q, (ThreadWakeAll s q).2 ≠ Outcome.fault)
      ∧ (∀ c, (ThreadExit s env c).2 = Outcome.fault →
          (s.threads s.running_thread).thread_id < 0
            ∨ (s.threads s.running_thread).thread_id ≥ (MAX_THREADS : Int)) := by
  refine ⟨?_, ?_, ?_, ?_, ?_, ?_⟩
  · intro q
    exact ⟨extract_from_queue_eq_none s q, extract_from_queue_nil s q⟩
  · by_cases hq : s.rq = []
    · rw [ThreadYield_empty s env hq]
      exact fun hf => Outcome.noConfusion hf
    · obtain ⟨head, rest, hq2⟩ := List.exists_cons_of_ne_nil hq
      by_cases hc : env.getcontext = 0
      · rw [ThreadYield_switch s env head rest hq2 hc]
        by_cases hsc : env.setcontext = 0
        · rw [if_pos hsc]
          exact fun hf => Outcome.noConfusion hf
        · rw [if_neg hsc]
          exact fun hf => Outcome.noConfusion hf
      · rw [ThreadYield_no_context s env hq hc]
        exact fun hf => Outcome.noConfusion hf
  · intro q
    by_cases hq : s.rq = []
    · rw [ThreadSleep_empty s env q hq]
      exact fun hf => Outcome.noConfusion hf
    · obtain ⟨head, rest, hq2⟩ := List.exists_cons_of_ne_nil hq
      by_cases hc : env.getcontext = 0
      · rw [ThreadSleep_switch s env q head rest hq2 hc]
        by_cases hsc : env.setcontext = 0
        · rw [if_pos hsc]
          exact fun hf => Outcome.noConfusion hf
        · rw [if_neg hsc]
          exact fun hf => Outcome.noConfusion hf
      · rw [ThreadSleep_no_context s env q head rest hq2 hc]
        exact fun hf => Outcome.noConfusion hf
  · intro q
    by_cases hq : s.queue (.wq q) = []
    · rw [ThreadWakeNext_empty s q hq]
      exact fun hf => Outcome.noConfusion hf
    · obtain ⟨t, rest, hq2⟩ := List.exists_cons_of_ne_nil hq
      rw [ThreadWakeNext_cons s q t rest hq2]
      exact fun hf => Outcome.noConfusion hf
  · intro q
    rw [ThreadWakeAll_eq]
    exact fun hf => Outcome.noConfusion hf
  · intro c hf
    by_contra h
    obtain ⟨r, hr, hne⟩ := ThreadExit_no_fault s env c h
    rw [hr] at hf
    exact hne hf

theorem sched_ext (a b : Sched) (h1 : a.running_thread = b.running_thread)
    (h2 : a.threads = b.threads) (h3 : a.rq = b.rq) (h4 : a.wait_queues = b.wait_queues)
    (h5 : a.user_queues = b.user_queues) (h6 : a.interrupts = b.interrupts) : a = b := by
  cases a
  cases b
  simp only [Sched.mk.injEq]
  exact ⟨h1, h2, h3, h4, h5, h6⟩

theorem bootSched_two : bootSched = twoSched 0 bootTCB blankTCB [] [] true := by
  apply sched_ext
  · rfl
  · funext i
    by_cases h0 : i = 0
    · simp [bootSched, twoSched, bootTCB, h0]
    · by_cases h1 : i = 1
      · simp [bootSched, twoSched, blankTCB, h1]
      · simp [bootSched, twoSched, blankTCB, h0, h1]
  · rfl
  · rfl
  · funext a
    simp [bootSched, twoSched]
  · rfl

theorem ThreadInit_boot (env : Env) (hc : env.getcontext = 0) :
    ThreadInit bootSched env = (bootSched, 0) := by
  rw [ThreadInit_ok bootSched env hc]
  refine congrArg (fun x => (x, (0 : Int))) ?_
  apply sched_ext
  · rfl
  · funext i
    by_cases h0 : i = 0
    · simp [bootSched, initThreads, h0]
    · simp [bootSched, initThreads, h0]
  · rfl
  · funext i
    simp [bootSched, Function.update]
  · rfl
  · rfl

theorem two_running (run : Slot) (t0 t1 : TCB) (rq uq : List Slot) (intr : Bool) :
    (twoSched run t0 t1 rq uq intr).running_thread = run := rfl

theorem two_threads0 (run : Slot) (t0 t1 : TCB) (rq uq : List Slot) (intr : Bool) :
    (twoSched run t0 t1 rq uq intr).threads 0 = t0 := rfl

theorem two_threads1 (run : Slot) (t0 t1 : TCB) (rq uq : List Slot) (intr : Bool) :
    (twoSched run t0 t1 rq uq intr).threads 1 = t1 := rfl

/-- `ThreadCreate` in a two-slot state whose slot 0 is in use and whose slot 1
is free after reaping: slot 1 is allocated. -/
theorem two_create1 (t0 t1 : TCB) (rq uq : List Slot) (intr : Bool)
    (sp f arg : Nat)
    (h0 : t0.state = State.RUNNING ∨ t0.state = State.READY ∨ t0.state = State.BLOCKED)
    (h1 : t1.state = State.EMPTY ∨ t1.state = State.EXITED ∨ t1.state = State.KILLED) :
    ThreadCreate (twoSched 0 t0 t1 rq uq intr) (Env.healthy sp) f arg
      = (twoSched 0 t0 (createdTCB t1 1 sp f arg) (rq ++ [1]) uq intr, 1) := by
  have hfind : findSlot (reapedThreads (twoSched 0 t0 t1 rq uq intr)) 0 = (1 : Slot).val := by
    apply findSlot_eq_of_least
    · intro hb
      rcases h1 with h1 | h1 | h1
      · exact hb.1 (by simp [reapedThreads, twoSched, h1])
      · exact hb.1 (by simp [reapedThreads, twoSched, h1])
      · exact hb.1 (by simp [reapedThreads, twoSched, h1])
    · exact Nat.zero_le _
    · intro j _ hj
      have hj0 : j = 0 := Fin.ext (by simpa using hj)
      subst hj0
      rcases h0 with h0 | h0 | h0 <;> simp [State.busy, reapedThreads, twoSched, h0]
  rw [ThreadCreate_found _ (Env.healthy sp) f arg sp rfl rfl 1 hfind]
  refine congrArg (fun x => (x, (1 : Int))) ?_
  apply sched_ext
  · rfl
  · funext i
    by_cases hi0 : i = 0
    · subst hi0
      rcases h0 with h0 | h0 | h0 <;>
        simp [twoSched, reapedThreads, Function.update, h0]
    · by_cases hi1 : i = 1
      · subst hi1
        simp only [Function.update_same]
        show createdTCB _ 1 sp f arg = createdTCB t1 1 sp f arg
        unfold createdTCB
        rw [(reapedThreads_fields _ 1).2.2]
        rfl
      · simp [twoSched, reapedThreads, Function.update, hi0, hi1, blankTCB]
  · rfl
  · funext i
    simp [twoSched, Function.update]
  · rfl
  · rfl

theorem slotOf_one (h : ¬ ((1 : Int) < 0 ∨ (1 : Int) ≥ (MAX_THREADS : Int))) :
    slotOf 1 h = (1 : Slot) := rfl

theorem slotOf_zero (h : ¬ ((0 : Int) < 0 ∨ (0 : Int) ≥ (MAX_THREADS : Int))) :
    slotOf 0 h = (0 : Slot) := rfl

/-- `ThreadYieldTo(1)` called by thread 0 while thread 1 is the only ready
thread. -/
theorem two_yieldTo1 (t0 t1 : TCB) (uq : List Slot) (intr : Bool) (env : Env)
    (hc : env.getcontext = 0) (hsc : env.setcontext = 0)
    (h0 : t0.thread_id = 0) (h1 : t1.thread_id = 1) (h1s : t1.state = State.READY) :
    ThreadYieldTo (twoSched 0 t0 t1 [1] uq intr) env 1
      = (twoSched 1 { t0 with context := Context.saved [Frame.yieldTo 1 intr],
                              state := State.READY }
          { t1 with state := State.RUNNING } [0] uq false, Outcome.switched) := by
  have hr : ¬ ((1 : Int) < 0 ∨ (1 : Int) ≥ (MAX_THREADS : Int)) := by decide
  have hself : (1 : Int) ≠ ((twoSched 0 t0 t1 [1] uq intr).threads
      (twoSched 0 t0 t1 [1] uq intr).running_thread).thread_id := by
    show (1 : Int) ≠ t0.thread_id
    rw [h0]
    decide
  have hst : (reapedThreads (twoSched 0 t0 t1 [1] uq intr) (slotOf 1 hr)).state
      = State.READY := by
    rw [slotOf_one, reapedThreads_ready (twoSched 0 t0 t1 [1] uq intr) 1 h1s]
    exact h1s
  rw [ThreadYieldTo_switch _ env 1 hr hself hst hc, if_pos hsc, slotOf_one]
  refine congrArg (fun x => (x, Outcome.switched)) ?_
  apply sched_ext
  · rfl
  · funext i
    by_cases hi0 : i = 0
    · subst hi0
      simp [yieldedToSched, twoSched, reapedThreads, Function.update]
    · by_cases hi1 : i = 1
      · subst hi1
        simp [yieldedToSched, twoSched, reapedThreads, Function.update, h1s]
      · simp [yieldedToSched, twoSched, reapedThreads, Function.update, hi0, hi1, blankTCB]
  · simp [yieldedToSched, twoSched, unlinked, unlinkTid, reapedThreads, Function.update,
      h0, h1, h1s]
  · rfl
  · rfl
  · rfl

/-- `ThreadYieldTo(0)` called by thread 1 while thread 0 is the only ready
thread. -/
theorem two_yieldTo0 (t0 t1 : TCB) (uq : List Slot) (intr : Bool) (env : Env)
    (hc : env.getcontext = 0) (hsc : env.setcontext = 0)
    (h0 : t0.thread_id = 0) (h1 : t1.thread_id = 1) (h0s : t0.state = State.READY) :
    ThreadYieldTo (twoSched 1 t0 t1 [0] uq intr) env 0
      = (twoSched 0 { t0 with state := State.RUNNING }
          { t1 with context := Context.saved [Frame.yieldTo 0 intr], state := State.READY }
          [1] uq false, Outcome.switched) := by
  have hr : ¬ ((0 : Int) < 0 ∨ (0 : Int) ≥ (MAX_THREADS : Int)) := by decide
  have hself : (0 : Int) ≠ ((twoSched 1 t0 t1 [0] uq intr).threads
      (twoSched 1 t0 t1 [0] uq intr).running_thread).thread_id := by
    show (0 : Int) ≠ t1.thread_id
    rw [h1]
    decide
  have hst : (reapedThreads (twoSched 1 t0 t1 [0] uq intr) (slotOf 0 hr)).state
      = State.READY := by
    rw [slotOf_zero, reapedThreads_ready (twoSched 1 t0 t1 [0] uq intr) 0 h0s]
    exact h0s
  rw [ThreadYieldTo_switch _ env 0 hr hself hst hc, if_pos hsc, slotOf_zero]
  refine congrArg (fun x => (x, Outcome.switched)) ?_
  apply sched_ext
  · rfl
  · funext i
    by_cases hi0 : i = 0
    · subst hi0
      simp [yieldedToSched, twoSched, reapedThreads, Function.update, h0s]
    · by_cases hi1 : i = 1
      · subst hi1
        simp [yieldedToSched, twoSched, reapedThreads, Function.update]
      · simp [yieldedToSched, twoSched, reapedThreads, Function.update, hi0, hi1, blankTCB]
  · simp [yieldedToSched, twoSched, unlinked, unlinkTid, reapedThreads, Function.update,
      h0, h1, h0s]
  · rfl
  · rfl
  · rfl

/-- `ThreadYieldTo(1)` called by thread 0 after thread 1 has exited: the
reaper frees slot 1 and the call fails. -/
theorem two_yieldTo1_bad (t0 t1 : TCB) (rq uq : List Slot) (intr : Bool) (env : Env)
    (h0 : t0.thread_id = 0) (h1s : t1.state = State.EXITED) :
    ThreadYieldTo (twoSched 0 t0 t1 rq uq intr) env 1
      = (twoSched 0 t0 { t1 with state := State.EMPTY } rq uq intr,
          Outcome.ret ERROR_THREAD_BAD) := by
  have hr : ¬ ((1 : Int) < 0 ∨ (1 : Int) ≥ (MAX_THREADS : Int)) := by decide
  have hself : (1 : Int) ≠ ((twoSched 0 t0 t1 rq uq intr).threads
      (twoSched 0 t0 t1 rq uq intr).running_thread).thread_id := by
    show (1 : Int) ≠ t0.thread_id
    rw [h0]
    decide
  have hst : (reapedThreads (twoSched 0 t0 t1 rq uq intr) (slotOf 1 hr)).state
      ≠ State.READY := by
    have hne : (twoSched 0 t0 t1 rq uq intr).running_thread ≠ 1 := by
      show (0 : Slot) ≠ 1
      decide
    rw [slotOf_one, reapedThreads_zombie (twoSched 0 t0 t1 rq uq intr) 1 (Or.inl h1s) hne]
    decide
  rw [ThreadYieldTo_not_ready _ env 1 hr hself hst]
  refine congrArg (fun x => (x, Outcome.ret ERROR_THREAD_BAD)) ?_
  apply sched_ext
  · rfl
  · funext i
    by_cases hi0 : i = 0
    · subst hi0
      simp [reapedSched, twoSched, reapedThreads]
    · by_cases hi1 : i = 1
      · subst hi1
        simp [reapedSched, twoSched, reapedThreads, h1s]
      · simp [reapedSched, twoSched, reapedThreads, hi0, hi1, blankTCB]
  · rfl
  · rfl
  · rfl
  · rfl

/-- `ThreadYield` called by thread 1 while thread 0 is the only ready thread. -/
theorem two_yield1 (t0 t1 : TCB) (uq : List Slot) (intr : Bool) (env : Env)
    (hc : env.getcontext = 0) (hsc : env.setcontext = 0)
    (h0 : t0.thread_id = 0) (h0s : t0.state = State.READY) :
    ThreadYield (twoSched 1 t0 t1 [0] uq intr) env
      = (twoSched 0 { t0 with state := State.RUNNING }
          { t1 with context := Context.saved [Frame.yield 0 intr], state := State.READY }
          [1] uq false, Outcome.switched) := by
  rw [ThreadYield_switch (twoSched 1 t0 t1 [0] uq intr) env 0 [] rfl hc, if_pos hsc]
  refine congrArg (fun x => (x, Outcome.switched)) ?_
  apply sched_ext
  · rfl
  · funext i
    by_cases hi0 : i = 0
    · subst hi0
      simp [yieldedSched, yieldingTCB, twoSched, reapedThreads, Function.update, h0s]
    · by_cases hi1 : i = 1
      · subst hi1
        simp [yieldedSched, yieldingTCB, twoSched, reapedThreads, Function.update, h0]
      · simp [yieldedSched, yieldingTCB, twoSched, reapedThreads, Function.update, hi0, hi1,
          blankTCB]
  · rfl
  · rfl
  · rfl
  · rfl

/-- `ThreadExit(c)` called by thread 1 while thread 0 is the only ready
thread. -/
theorem two_exit1 (t0 t1 : TCB) (uq : List Slot) (intr : Bool) (env : Env) (c : Int)
    (hsc : env.setcontext = 0)
    (h1 : t1.thread_id = 1) (h0s : t0.state = State.READY) :
    ThreadExit (twoSched 1 t0 t1 [0] uq intr) env c
      = (twoSched 0 { t0 with state := State.RUNNING }
          { t1 with exit_code := c, state := State.EXITED } [] uq false,
          Outcome.switched) := by
  rw [ThreadExit_switch (twoSched 1 t0 t1 [0] uq intr) env c 0 [] h1 rfl, if_pos hsc]
  refine congrArg (fun x => (x, Outcome.switched)) ?_
  apply sched_ext
  · rfl
  · funext i
    by_cases hi0 : i = 0
    · subst hi0
      simp [exitedSched, exitPrep, Sched.setState, Sched.setQueue, markReady, twoSched,
        reapedThreads, Function.update, h0s]
    · by_cases hi1 : i = 1
      · subst hi1
        simp [exitedSched, exitPrep, Sched.setState, Sched.setQueue, markReady, twoSched,
          reapedThreads, Function.update]
      · simp [exitedSched, exitPrep, Sched.setState, Sched.setQueue, markReady, twoSched,
          reapedThreads, Function.update, hi0, hi1, blankTCB]
  · rfl
  · funext i
    simp [exitedSched, exitPrep, Sched.setState, Sched.setQueue, twoSched, unlinked,
      unlinkTid, Function.update]
  · rfl
  · rfl

/-- `ThreadExit(c)` called by thread 0 while thread 1 is the only ready
thread. -/
theorem two_exit0 (t0 t1 : TCB) (uq : List Slot) (intr : Bool) (env : Env) (c : Int)
    (hsc : env.setcontext = 0)
    (h0 : t0.thread_id = 0) (h1s : t1.state = State.READY) :
    ThreadExit (twoSched 0 t0 t1 [1] uq intr) env c
      = (twoSched 1 { t0 with exit_code := c, state := State.EXITED }
          { t1 with state := State.RUNNING } [] uq false,
          Outcome.switched) := by
  rw [ThreadExit_switch (twoSched 0 t0 t1 [1] uq intr) env c 1 [] h0 rfl, if_pos hsc]
  refine congrArg (fun x => (x, Outcome.switched)) ?_
  apply sched_ext
  · rfl
  · funext i
    by_cases hi0 : i = 0
    · subst hi0
      simp [exitedSched, exitPrep, Sched.setState, Sched.setQueue, markReady, twoSched,
        reapedThreads, Function.update]
    · by_cases hi1 : i = 1
      · subst hi1
        simp [exitedSched, exitPrep, Sched.setState, Sched.setQueue, markReady, twoSched,
          reapedThreads, Function.update, h1s]
      · simp [exitedSched, exitPrep, Sched.setState, Sched.setQueue, markReady, twoSched,
          reapedThreads, Function.update, hi0, hi1, blankTCB]
  · rfl
  · funext i
    simp [exitedSched, exitPrep, Sched.setState, Sched.setQueue, twoSched, unlinked,
      unlinkTid, Function.update]
  · rfl
  · rfl

/-- `ThreadCreate` called by thread 1 in a two-slot state whose slot 0 is free
after reaping: slot 0 is allocated. -/
theorem two_create0 (t0 t1 : TCB) (rq uq : List Slot) (intr : Bool)
    (sp f arg : Nat)
    (h0 : t0.state = State.EMPTY ∨ t0.state = State.EXITED ∨ t0.state = State.KILLED) :
    ThreadCreate (twoSched 1 t0 t1 rq uq intr) (Env.healthy sp) f arg
      = (twoSched 1 (createdTCB t0 0 sp f arg) t1 (rq ++ [0]) uq intr, 0) := by
  have hfind : findSlot (reapedThreads (twoSched 1 t0 t1 rq uq intr)) 0 = (0 : Slot).val := by
    apply findSlot_eq_of_least
    · intro hb
      rcases h0 with h0 | h0 | h0
      · exact hb.1 (by simp [reapedThreads, twoSched, h0])
      · exact hb.1 (by simp [reapedThreads, twoSched, h0])
      · exact hb.1 (by simp [reapedThreads, twoSched, h0])
    · exact Nat.zero_le _
    · intro j h1 h2
      exact absurd h2 (Nat.not_lt_zero _)
  rw [ThreadCreate_found _ (Env.healthy sp) f arg sp rfl rfl 0 hfind]
  refine congrArg (fun x => (x, (0 : Int))) ?_
  apply sched_ext
  · rfl
  · funext i
    by_cases hi0 : i = 0
    · subst hi0
      simp only [Function.update_same]
      show createdTCB _ 0 sp f arg = createdTCB t0 0 sp f arg
      unfold createdTCB
      rw [(reapedThreads_fields _ 0).2.2]
      rfl
    · by_cases hi1 : i = 1
      · subst hi1
        simp [twoSched, reapedThreads, Function.update]
      · simp [twoSched, reapedThreads, Function.update, hi0, hi1, blankTCB]
  · rfl
  · funext i
    simp [twoSched, Function.update]
  · rfl
  · rfl

/-- `WaitQueueCreate` when `malloc` returns the address 64. -/
theorem two_waitQueueCreate (run : Slot) (t0 t1 : TCB) (rq uq : List Slot) (intr : Bool)
    (env : Env) (hm : env.malloc = some 64) :
    WaitQueueCreate (twoSched run t0 t1 rq uq intr) env
      = (twoSched run t0 t1 rq [] intr, some 64) := by
  unfold WaitQueueCreate
  dsimp only [InterruptsDisable, InterruptsSet]
  rw [hm]
  refine congrArg (fun x => (x, some 64)) ?_
  apply sched_ext
  · rfl
  · rfl
  · rfl
  · rfl
  · funext a
    by_cases ha : a = 64
    · simp [Sched.setQueue, twoSched, Function.update, ha]
    · simp [Sched.setQueue, twoSched, Function.update, ha]
  · rfl

/-- `ThreadSleep` on the user wait queue at address 64, called by thread 1
while thread 0 is the only ready thread. -/
theorem two_sleep1 (t0 t1 : TCB) (uq : List Slot) (intr : Bool) (env : Env)
    (hc : env.getcontext = 0) (hsc : env.setcontext = 0)
    (h0 : t0.thread_id = 0) (h0s : t0.state = State.READY) :
    ThreadSleep (twoSched 1 t0 t1 [0] uq intr) env (.user 64)
      = (twoSched 0 { t0 with state := State.RUNNING }
          { t1 with context := Context.saved [Frame.sleep 0 intr], state := State.BLOCKED }
          [] (uq ++ [1]) false, Outcome.switched) := by
  rw [ThreadSleep_switch (twoSched 1 t0 t1 [0] uq intr) env (.user 64) 0 [] rfl hc, if_pos hsc]
  refine congrArg (fun x => (x, Outcome.switched)) ?_
  apply sched_ext
  · rfl
  · funext i
    by_cases hi0 : i = 0
    · subst hi0
      simp [sleptSched, sleepingTCB, Sched.setQueue, twoSched, reapedThreads, Function.update,
        h0s]
    · by_cases hi1 : i = 1
      · subst hi1
        simp [sleptSched, sleepingTCB, Sched.setQueue, twoSched, reapedThreads,
          Function.update, h0]
      · simp [sleptSched, sleepingTCB, Sched.setQueue, twoSched, reapedThreads,
          Function.update, hi0, hi1, blankTCB]
  · rfl
  · rfl
  · funext a
    by_cases ha : a = 64
    · simp [sleptSched, Sched.setQueue, Sched.queue, twoSched, Function.update, ha]
    · simp [sleptSched, Sched.setQueue, Sched.queue, twoSched, Function.update, ha]
  · rfl

/-- `ThreadKill(1)` called by thread 0 while thread 1 is `BLOCKED` and the
ready queue is empty: the user wait queue is left as it is. -/
theorem two_kill1 (t0 t1 : TCB) (uq : List Slot) (intr : Bool)
    (h0 : t0.thread_id = 0) (h1s : t1.state = State.BLOCKED) :
    ThreadKill (twoSched 0 t0 t1 [] uq intr) 1
      = (twoSched 0 t0 { t1 with state := State.KILLED, exit_code := EXIT_CODE_KILL }
          [] uq intr, Outcome.ret 1) := by
  have hr : ¬ ((1 : Int) < 0 ∨ (1 : Int) ≥ (MAX_THREADS : Int)) := by decide
  have hself : (1 : Int) ≠ ((twoSched 0 t0 t1 [] uq intr).threads
      (twoSched 0 t0 t1 [] uq intr).running_thread).thread_id := by
    show (1 : Int) ≠ t0.thread_id
    rw [h0]
    decide
  have hlive : ¬ (((twoSched 0 t0 t1 [] uq intr).threads (slotOf 1 hr)).state = State.EMPTY
      ∨ ((twoSched 0 t0 t1 [] uq intr).threads (slotOf 1 hr)).state = State.KILLED
      ∨ ((twoSched 0 t0 t1 [] uq intr).threads (slotOf 1 hr)).state = State.EXITED) := by
    rw [slotOf_one]
    show ¬ (t1.state = State.EMPTY ∨ t1.state = State.KILLED ∨ t1.state = State.EXITED)
    rw [h1s]
    decide
  rw [ThreadKill_live _ 1 hr hself hlive, slotOf_one]
  refine congrArg (fun x => (x, Outcome.ret 1)) ?_
  apply sched_ext
  · rfl
  · funext i
    by_cases hi0 : i = 0
    · subst hi0
      simp [killedSched, killedThreads, markReady, unlinked, unlinkTid, twoSched,
        Function.update]
    · by_cases hi1 : i = 1
      · subst hi1
        simp [killedSched, killedThreads, markReady, unlinked, unlinkTid, twoSched,
          Function.update]
      · simp [killedSched, killedThreads, markReady, unlinked, unlinkTid, twoSched,
          Function.update, hi0, hi1, blankTCB]
  · simp [killedSched, unlinked, unlinkTid, twoSched]
  · funext i
    simp [killedSched, unlinked, unlinkTid, twoSched, Function.update]
  · rfl
  · rfl

/-- `ThreadWakeNext` on the user wait queue at address 64 when its head is
the TCB of slot 1. -/
theorem two_wakeNext (run : Slot) (t0 t1 : TCB) (rq uq : List Slot) (intr : Bool) :
    ThreadWakeNext (twoSched run t0 t1 rq (1 :: uq) intr) (.user 64)
      = (twoSched run t0 { t1 with state := State.READY } (rq ++ [1]) uq intr,
          Outcome.ret 1) := by
  rw [ThreadWakeNext_cons (twoSched run t0 t1 rq (1 :: uq) intr) (.user 64) 1 uq rfl]
  refine congrArg (fun x => (x, Outcome.ret 1)) ?_
  apply sched_ext
  · rfl
  · funext i
    by_cases hi0 : i = 0
    · subst hi0
      simp [Sched.setQueue, twoSched, Function.update]
    · by_cases hi1 : i = 1
      · subst hi1
        simp [Sched.setQueue, twoSched, Function.update]
      · simp [Sched.setQueue, twoSched, Function.update, hi0, hi1, blankTCB]
  · rfl
  · rfl
  · funext a
    by_cases ha : a = 64
    · simp [Sched.setQueue, twoSched, Function.update, ha]
    · simp [Sched.setQueue, twoSched, Function.update, ha]
  · rfl

/-- Thread 1, dispatched for the first time, enters its function through
`thread_stub` with interrupts enabled. -/
theorem two_resume_entry1 (t0 t1 : TCB) (rq uq : List Slot) (intr : Bool)
    (rsp rbp rdi rsi : Nat) (h : t1.context = Context.entry rsp rbp rdi rsi) :
    resume (twoSched 1 t0 t1 rq uq intr)
      = some ⟨twoSched 1 t0 t1 rq uq true, none, none⟩ :=
  resume_of_entry (twoSched 1 t0 t1 rq uq intr) rsp rbp rdi rsi h

/-- Thread 1, dispatched again, returns from the `ThreadYield` call in which
it was suspended. -/
theorem two_resume_yield1 (t0 t1 : TCB) (rq uq : List Slot) (intr : Bool)
    (id : Int) (enabled : Bool) (h : t1.context = Context.saved [Frame.yield id enabled]) :
    resume (twoSched 1 t0 t1 rq uq intr)
      = some ⟨twoSched 1 t0 t1 rq uq enabled, some id, none⟩ := by
  unfold resume
  have h2 : ((twoSched 1 t0 t1 rq uq intr).threads
      (twoSched 1 t0 t1 rq uq intr).running_thread).context
        = Context.saved [Frame.yield id enabled] := h
  rw [h2]
  rfl

/-- A thread dispatched again returns from the `ThreadYieldTo` call in which it
was suspended. -/
theorem two_resume_yieldTo (run : Slot) (t0 t1 : TCB) (rq uq : List Slot) (intr : Bool)
    (tid : Int) (enabled : Bool)
    (h : ((twoSched run t0 t1 rq uq intr).threads run).context
      = Context.saved [Frame.yieldTo tid enabled]) :
    resume (twoSched run t0 t1 rq uq intr)
      = some ⟨twoSched run t0 t1 rq uq enabled, some tid, none⟩ := by
  unfold resume
  have h2 : ((twoSched run t0 t1 rq uq intr).threads
      (twoSched run t0 t1 rq uq intr).running_thread).context
        = Context.saved [Frame.yieldTo tid enabled] := h
  rw [h2]
  rfl

theorem bootSched_create (sp f arg : Nat) :
    ThreadCreate bootSched (Env.healthy sp) f arg
      = (twoSched 0 bootTCB (createdTCB blankTCB 1 sp f arg) [1] [] true, 1) := by
  rw [bootSched_two]
  exact two_create1 bootTCB blankTCB [] [] true sp f arg (Or.inl rfl) (Or.inl rfl)

theorem bootCreated_create :
    ThreadCreate bootSched (Env.healthy 4096) 7 9 = (bootCreated, 1) :=
  bootSched_create 4096 7 9

theorem reapedThreads_sp (s : Sched) (p : Slot) :
    (reapedThreads s p).sp = (s.threads p).sp := by
  unfold reapedThreads
  split <;> rfl

/-- C27 (counterexample): after `ThreadInit` the bootstrap thread creates
thread 1 and calls `ThreadExit(0)`; thread 1 is dispatched, enters its
function and calls `ThreadCreate`.  The reaper has set slot 0 to `EMPTY`, the
slot search starts at index 0, and the call returns 0: slot 0 is allocated
again and its stack field holds the address `malloc` returned, not null. -/
theorem C27_ThreadCreate_reuses_slot_zero :
    ThreadInit bootSched (Env.healthy 4096) = (bootSched, 0)
      ∧ ThreadCreate bootSched (Env.healthy 4096) 7 9 = (bootCreated, 1)
      ∧ ThreadExit bootCreated (Env.healthy 4096) 0 = (c27Exited, Outcome.switched)
      ∧ resume c27Exited = some ⟨c27Running, none, none⟩
      ∧ ThreadCreate c27Running (Env.healthy 8192) 7 9 = (c27Reused, 0)
      ∧ (c27Reused.threads 0).sp = some 8192
      ∧ (c27Reused.threads 0).state = State.READY
      ∧ c27Reused.rq = [0] := by
  refine ⟨ThreadInit_boot _ rfl, bootCreated_create, ?_, ?_, ?_, rfl, rfl, rfl⟩
  · exact two_exit0 bootTCB (createdTCB blankTCB 1 4096 7 9) [] true (Env.healthy 4096) 0 rfl
      rfl rfl
  · exact two_resume_entry1 _ _ [] [] false _ _ _ _ rfl
  · exact two_create0 _ _ [] [] true 8192 7 9 (Or.inr (Or.inl rfl))

/-- C27 (amended): `ThreadInit` stores the null pointer in the stack field of
slot 0, and while the TCB of slot 0 is live (`RUNNING`, `READY` or `BLOCKED`)
every `ThreadCreate` leaves that field as it is and, when it succeeds (its
result is not negative), returns a tid with `1 <= tid < MAX_THREADS`. -/
theorem C27_ThreadCreate_spares_live_slot_zero (s : Sched) (env : Env) (f arg : Nat)
    (h0 : (s.threads 0).state = State.RUNNING ∨ (s.threads 0).state = State.READY
      ∨ (s.threads 0).state = State.BLOCKED) :
    (0 ≤ (ThreadCreate s env f arg).2 →
        1 ≤ (ThreadCreate s env f arg).2
          ∧ (ThreadCreate s env f arg).2 < (MAX_THREADS : Int))
      ∧ ((ThreadCreate s env f arg).1.threads 0).sp = (s.threads 0).sp
      ∧ (env.getcontext = 0 → ((ThreadInit s env).1.threads 0).sp = none) := by
  have hbusy : (reapedThreads s 0).state.busy := by
    unfold State.busy reapedThreads
    rcases h0 with h | h | h <;> simp [h]
  refine ⟨?_, ?_, ?_⟩
  · intro hpos
    by_cases hlt : findSlot (reapedThreads s) 0 < MAX_THREADS
    · cases hm : env.malloc with
      | none =>
        rw [ThreadCreate_no_memory s env f arg hlt hm] at hpos
        exact absurd (show (0 : Int) ≤ ERROR_SYS_MEM from hpos) (show ¬ (0 : Int) ≤ ERROR_SYS_MEM by decide)
      | some sp =>
        by_cases hc : env.getcontext = 0
        · rw [ThreadCreate_found s env f arg sp hm hc ⟨_, hlt⟩ rfl]
          have hfree := findSlot_lt_free (reapedThreads s) 0 hlt
          have hne : findSlot (reapedThreads s) 0 ≠ 0 := by
            intro h
            apply hfree
            have e : (⟨findSlot (reapedThreads s) 0, hlt⟩ : Slot) = 0 := Fin.ext h
            rw [e]
            exact hbusy
          show (1 : Int) ≤ ((findSlot (reapedThreads s) 0 : Nat) : Int)
            ∧ ((findSlot (reapedThreads s) 0 : Nat) : Int) < (MAX_THREADS : Int)
          omega
        · rw [ThreadCreate_no_context s env f arg sp hlt hm hc] at hpos
          exact absurd (show (0 : Int) ≤ ERROR_OTHER from hpos) (show ¬ (0 : Int) ≤ ERROR_OTHER by decide)
    · rw [ThreadCreate_full s env f arg hlt] at hpos
      exact absurd (show (0 : Int) ≤ ERROR_SYS_THREAD from hpos) (show ¬ (0 : Int) ≤ ERROR_SYS_THREAD by decide)
  · by_cases hlt : findSlot (reapedThreads s) 0 < MAX_THREADS
    · cases hm : env.malloc with
      | none =>
        rw [ThreadCreate_no_memory s env f arg hlt hm]
        exact reapedThreads_sp s 0
      | some sp =>
        by_cases hc : env.getcontext = 0
        · rw [ThreadCreate_found s env f arg sp hm hc ⟨_, hlt⟩ rfl]
          have hfree := findSlot_lt_free (reapedThreads s) 0 hlt
          have hne : (0 : Slot) ≠ ⟨findSlot (reapedThreads s) 0, hlt⟩ := by
            intro h
            apply hfree
            rw [← h]
            exact hbusy
          show (Function.update (reapedThreads s) ⟨findSlot (reapedThreads s) 0, hlt⟩
            (createdTCB (reapedThreads s ⟨findSlot (reapedThreads s) 0, hlt⟩)
              (findSlot (reapedThreads s) 0) sp f arg) 0).sp = (s.threads 0).sp
          rw [Function.update_noteq hne]
          exact reapedThreads_sp s 0
        · rw [ThreadCreate_no_context s env f arg sp hlt hm hc]
          exact reapedThreads_sp s 0
    · rw [ThreadCreate_full s env f arg hlt]
      exact reapedThreads_sp s 0
  · intro hc
    rw [ThreadInit_ok s env hc]
    rfl

theorem C27_ThreadCreate_spares_live_slot_zero_witness :
    (bootSched.threads 0).state = State.RUNNING
      ∧ (ThreadCreate bootSched (Env.healthy 4096) 7 9).2 = 1
      ∧ ((ThreadCreate bootSched (Env.healthy 4096) 7 9).1.threads 0).sp = none := by
  have h := C27_ThreadCreate_spares_live_slot_zero bootSched (Env.healthy 4096) 7 9 (Or.inl rfl)
  refine ⟨rfl, ?_, h.2.1⟩
  rw [bootSched_create]

/-- The steps that lead from `ThreadInit` to `zqReused`: thread 1 goes to
sleep on a user wait queue, is killed there, and its slot is allocated again
while its TCB is still in that queue. -/
theorem zq_steps :
    ThreadInit bootSched (Env.healthy 64) = (bootSched, 0)
      ∧ ThreadCreate bootSched (Env.healthy 4096) 7 9 = (bootCreated, 1)
      ∧ WaitQueueCreate bootCreated (Env.healthy 64) = (bootCreated, some 64)
      ∧ ThreadYieldTo bootCreated (Env.healthy 64) 1 = (zqDispatched, Outcome.switched)
      ∧ resume zqDispatched = some ⟨zqEntered, none, none⟩
      ∧ ThreadSleep zqEntered (Env.healthy 64) (.user 64) = (zqSlept, Outcome.switched)
      ∧ resume zqSlept = some ⟨zqBack, some 1, none⟩
      ∧ ThreadKill zqBack 1 = (zqKilled, Outcome.ret 1)
      ∧ ThreadCreate zqKilled (Env.healthy 8192) 7 9 = (zqReused, 1) := by
  refine ⟨ThreadInit_boot _ rfl, bootCreated_create, ?_, ?_, ?_, ?_, ?_, ?_, ?_⟩
  · exact two_waitQueueCreate _ _ _ _ _ _ _ rfl
  · exact two_yieldTo1 _ _ [] true (Env.healthy 64) rfl rfl rfl rfl rfl
  · exact two_resume_entry1 _ _ _ _ false _ _ _ _ rfl
  · exact two_sleep1 _ _ [] true (Env.healthy 64) rfl rfl rfl rfl
  · exact two_resume_yieldTo 0 _ _ _ _ false 1 true rfl
  · exact two_kill1 _ _ [1] true rfl rfl
  · exact two_create1 _ _ [] [1] true 8192 7 9 (Or.inl rfl) (Or.inr (Or.inr rfl))

/-- C25 (failing input): after `ThreadInit`, `ThreadCreate` (thread 1) and
`WaitQueueCreate`, thread 1 sleeps on the user wait queue, the bootstrap thread
kills it, creates a thread (slot 1 is used again while its TCB is still in the
user wait queue) and yields to it; the new thread 1 calls `ThreadWakeNext` on
the user wait queue.  The call returns 1 and marks the TCB of the calling
thread `READY`: the current-running pointer refers to a `READY` TCB that is
also in the ready queue, and no TCB has state `RUNNING`. -/
theorem C25_running_thread_marked_ready :
    ThreadInit bootSched (Env.healthy 64) = (bootSched, 0)
      ∧ ThreadCreate bootSched (Env.healthy 4096) 7 9 = (bootCreated, 1)
      ∧ WaitQueueCreate bootCreated (Env.healthy 64) = (bootCreated, some 64)
      ∧ ThreadYieldTo bootCreated (Env.healthy 64) 1 = (zqDispatched, Outcome.switched)
      ∧ resume zqDispatched = some ⟨zqEntered, none, none⟩
      ∧ ThreadSleep zqEntered (Env.healthy 64) (.user 64) = (zqSlept, Outcome.switched)
      ∧ resume zqSlept = some ⟨zqBack, some 1, none⟩
      ∧ ThreadKill zqBack 1 = (zqKilled, Outcome.ret 1)
      ∧ ThreadCreate zqKilled (Env.healthy 8192) 7 9 = (zqReused, 1)
      ∧ ThreadYieldTo zqReused (Env.healthy 64) 1 = (zqRedispatched, Outcome.switched)
      ∧ resume zqRedispatched = some ⟨zqReentered, none, none⟩
      ∧ ThreadWakeNext zqReentered (.user 64) = (zqSelfWoken, Outcome.ret 1)
      ∧ zqSelfWoken.running_thread = 1
      ∧ (zqSelfWoken.threads zqSelfWoken.running_thread).state = State.READY
      ∧ zqSelfWoken.rq = [0, 1]
      ∧ (∀ i : Slot, (zqSelfWoken.threads i).state ≠ State.RUNNING) := by
  obtain ⟨h1, h2, h3, h4, h5, h6, h7, h8, h9⟩ := zq_steps
  refine ⟨h1, h2, h3, h4, h5, h6, h7, h8, h9, ?_, ?_, ?_, rfl, rfl, rfl, ?_⟩
  · exact two_yieldTo1 _ _ [1] true (Env.healthy 64) rfl rfl rfl rfl rfl
  · exact two_resume_entry1 _ _ _ _ false _ _ _ _ rfl
  · exact two_wakeNext 1 _ _ [0] [] true
  · intro i
    by_cases hi0 : i = 0
    · subst hi0
      simp [zqSelfWoken, twoSched, mainTCB]
    · by_cases hi1 : i = 1
      · subst hi1
        simp [zqSelfWoken, twoSched, workerTCB]
      · simp [zqSelfWoken, twoSched, blankTCB, hi0, hi1]

/-- C26 (failing input): after `ThreadInit`, `ThreadCreate` (thread 1) and
`WaitQueueCreate`, thread 1 sleeps on the user wait queue, the bootstrap thread
kills it and creates a thread: slot 1 is used again, and its `READY` TCB is
referenced from the ready queue and from the user wait queue at once.  The
bootstrap thread then calls `ThreadWakeNext` on the user wait queue, which
returns 1: the TCB of slot 1 occurs twice in the ready queue. -/
theorem C26_tcb_in_two_queues :
    ThreadInit bootSched (Env.healthy 64) = (bootSched, 0)
      ∧ ThreadCreate bootSched (Env.healthy 4096) 7 9 = (bootCreated, 1)
      ∧ WaitQueueCreate bootCreated (Env.healthy 64) = (bootCreated, some 64)
      ∧ ThreadYieldTo bootCreated (Env.healthy 64) 1 = (zqDispatched, Outcome.switched)
      ∧ resume zqDispatched = some ⟨zqEntered, none, none⟩
      ∧ ThreadSleep zqEntered (Env.healthy 64) (.user 64) = (zqSlept, Outcome.switched)
      ∧ resume zqSlept = some ⟨zqBack, some 1, none⟩
      ∧ ThreadKill zqBack 1 = (zqKilled, Outcome.ret 1)
      ∧ (zqKilled.threads 1).state = State.KILLED ∧ zqKilled.user_queues 64 = [1]
      ∧ ThreadCreate zqKilled (Env.healthy 8192) 7 9 = (zqReused, 1)
      ∧ (zqReused.threads 1).state = State.READY
      ∧ (1 : Slot) ∈ zqReused.rq ∧ (1 : Slot) ∈ zqReused.user_queues 64
      ∧ ThreadWakeNext zqReused (.user 64) = (zqTwice, Outcome.ret 1)
      ∧ zqTwice.rq = [1, 1] ∧ ¬ zqTwice.rq.Nodup := by
  obtain ⟨h1, h2, h3, h4, h5, h6, h7, h8, h9⟩ := zq_steps
  refine ⟨h1, h2, h3, h4, h5, h6, h7, h8, rfl, rfl, h9, rfl, ?_, ?_, ?_, rfl, ?_⟩
  · exact List.mem_singleton.mpr rfl
  · exact List.mem_singleton.mpr rfl
  · exact two_wakeNext 0 _ _ [1] [] true
  · show ¬ ([1, 1] : List Slot).Nodup
    simp

theorem mainCalls_zero (env : Env) (worker : Int) (moves : List WorkerMove) (s : Sched) :
    mainCalls env worker 0 moves s = some [] := by
  rw [mainCalls]

theorem mainCalls_ret (env : Env) (worker : Int) (n : Nat) (moves : List WorkerMove)
    (s s1 : Sched) (v : Int) (h : ThreadYieldTo s env worker = (s1, Outcome.ret v)) :
    mainCalls env worker (n + 1) moves s
      = (mainCalls env worker n moves s1).map (fun vs => v :: vs) := by
  rw [mainCalls, h]

theorem mainCalls_switched (env : Env) (worker : Int) (n : Nat) (m : WorkerMove)
    (rest : List WorkerMove) (s s1 s2 : Sched) (v : Int)
    (h : ThreadYieldTo s env worker = (s1, Outcome.switched))
    (hw : workerRuns env s.running_thread m s1 = some (s2, v)) :
    mainCalls env worker (n + 1) (m :: rest) s
      = (mainCalls env worker n rest s2).map (fun vs => v :: vs) := by
  rw [mainCalls, h]
  simp only [hw]

theorem workerRuns_eq (env : Env) (caller : Slot) (move : WorkerMove) (s s1 s2 s3 : Sched)
    (v1 o1 o3 : Option Int) (v : Int)
    (h1 : resume s = some ⟨s1, v1, o1⟩)
    (h2 : workerMove env move s1 = (s2, Outcome.switched))
    (h3 : s2.running_thread = caller)
    (h4 : resume s2 = some ⟨s3, some v, o3⟩) :
    workerRuns env caller move s = some (s3, v) := by
  unfold workerRuns
  rw [h1]
  simp only []
  rw [h2]
  simp only [h3, if_true]
  rw [h4]
  rfl

theorem workerMove_yield (env : Env) (s : Sched) :
    workerMove env WorkerMove.yield s = ThreadYield s env := rfl

theorem workerMove_yieldToMain (env : Env) (s : Sched) :
    workerMove env WorkerMove.yieldToMain s = ThreadYieldTo s env 0 := rfl

theorem workerMove_finish (env : Env) (s : Sched) :
    workerMove env WorkerMove.finish s
      = ThreadExit s env (s.threads s.running_thread).exit_code := rfl

theorem worker_resume (t0 t1 : TCB) (rq uq : List Slot) (intr : Bool)
    (h : WorkerResumable t1.context) :
    ∃ v, resume (twoSched 1 t0 t1 rq uq intr) = some ⟨twoSched 1 t0 t1 rq uq true, v, none⟩ := by
  rcases h with ⟨rsp, rbp, rdi, rsi, h⟩ | h | h
  · exact ⟨none, two_resume_entry1 t0 t1 rq uq intr rsp rbp rdi rsi h⟩
  · exact ⟨some 0, two_resume_yield1 t0 t1 rq uq intr 0 true h⟩
  · exact ⟨some 0, two_resume_yieldTo 1 t0 t1 rq uq intr 0 true h⟩

/-- One round in which the worker yields back: the main thread's
`ThreadYieldTo(1)` returns 1 and the worker is ready to be dispatched again. -/
theorem round_yield (env : Env) (hc : env.getcontext = 0) (hsc : env.setcontext = 0)
    (t0 t1 : TCB) (h0 : t0.thread_id = 0) (h1 : t1.thread_id = 1)
    (h1s : t1.state = State.READY) (hres : WorkerResumable t1.context) (b : Bool)
    (n : Nat) (rest : List WorkerMove) :
    ∃ t0' t1' : TCB, t0'.thread_id = 0 ∧ t1'.thread_id = 1 ∧ t1'.state = State.READY
      ∧ WorkerResumable t1'.context ∧ t1'.exit_code = t1.exit_code
      ∧ mainCalls env 1 (n + 1)
          ((if b then WorkerMove.yield else WorkerMove.yieldToMain) :: rest)
          (twoSched 0 t0 t1 [1] [] true)
        = (mainCalls env 1 n rest (twoSched 0 t0' t1' [1] [] true)).map (fun vs => 1 :: vs) := by
  have hy := two_yieldTo1 t0 t1 [] true env hc hsc h0 h1 h1s
  obtain ⟨v, hr⟩ := worker_resume
    { t0 with context := Context.saved [Frame.yieldTo 1 true], state := State.READY }
    { t1 with state := State.RUNNING } [0] [] false hres
  cases b with
  | true =>
    have hm := two_yield1
      { t0 with context := Context.saved [Frame.yieldTo 1 true], state := State.READY }
      { t1 with state := State.RUNNING } [] true env hc hsc h0 rfl
    have hback := two_resume_yieldTo 0
      { t0 with context := Context.saved [Frame.yieldTo 1 true], state := State.RUNNING }
      { t1 with context := Context.saved [Frame.yield 0 true], state := State.READY }
      [1] [] false 1 true rfl
    refine ⟨{ t0 with context := Context.saved [Frame.yieldTo 1 true], state := State.RUNNING },
      { t1 with context := Context.saved [Frame.yield 0 true], state := State.READY },
      h0, h1, rfl, Or.inr (Or.inl rfl), rfl, ?_⟩
    rw [if_pos rfl]
    exact mainCalls_switched env 1 n _ rest _ _ _ 1 hy
      (workerRuns_eq env 0 _ _ _ _ _ _ _ _ 1 hr ((workerMove_yield env _).trans hm) rfl hback)
  | false =>
    have hm := two_yieldTo0
      { t0 with context := Context.saved [Frame.yieldTo 1 true], state := State.READY }
      { t1 with state := State.RUNNING } [] true env hc hsc h0 h1 rfl
    have hback := two_resume_yieldTo 0
      { t0 with context := Context.saved [Frame.yieldTo 1 true], state := State.RUNNING }
      { t1 with context := Context.saved [Frame.yieldTo 0 true], state := State.READY }
      [1] [] false 1 true rfl
    refine ⟨{ t0 with context := Context.saved [Frame.yieldTo 1 true], state := State.RUNNING },
      { t1 with context := Context.saved [Frame.yieldTo 0 true], state := State.READY },
      h0, h1, rfl, Or.inr (Or.inr rfl), rfl, ?_⟩
    rw [if_neg (by decide)]
    exact mainCalls_switched env 1 n _ rest _ _ _ 1 hy
      (workerRuns_eq env 0 _ _ _ _ _ _ _ _ 1 hr ((workerMove_yieldToMain env _).trans hm) rfl
        hback)

/-- The round in which the worker returns from its function, and the call
after it: the main thread's `ThreadYieldTo(1)` returns 1, and the next one
returns `ERROR_THREAD_BAD`. -/
theorem round_finish (env : Env) (hsc : env.setcontext = 0) (hc : env.getcontext = 0)
    (t0 t1 : TCB) (h0 : t0.thread_id = 0) (h1 : t1.thread_id = 1)
    (h1s : t1.state = State.READY) (hres : WorkerResumable t1.context) :
    mainCalls env 1 2 [WorkerMove.finish] (twoSched 0 t0 t1 [1] [] true)
      = some [1, ERROR_THREAD_BAD] := by
  have hy := two_yieldTo1 t0 t1 [] true env hc hsc h0 h1 h1s
  obtain ⟨v, hr⟩ := worker_resume
    { t0 with context := Context.saved [Frame.yieldTo 1 true], state := State.READY }
    { t1 with state := State.RUNNING } [0] [] false hres
  have hm := two_exit1
    { t0 with context := Context.saved [Frame.yieldTo 1 true], state := State.READY }
    { t1 with state := State.RUNNING } [] true env t1.exit_code hsc h1 rfl
  have hback := two_resume_yieldTo 0
    { t0 with context := Context.saved [Frame.yieldTo 1 true], state := State.RUNNING }
    { t1 with exit_code := t1.exit_code, state := State.EXITED }
    [] [] false 1 true rfl
  have hbad := two_yieldTo1_bad
    { t0 with context := Context.saved [Frame.yieldTo 1 true], state := State.RUNNING }
    { t1 with exit_code := t1.exit_code, state := State.EXITED } [] [] true env h0 rfl
  rw [mainCalls_switched env 1 1 _ [] _ _ _ 1 hy
      (workerRuns_eq env 0 _ _ _ _ _ _ _ _ 1 hr ((workerMove_finish env _).trans hm) rfl hback),
    mainCalls_ret env 1 0 [] _ _ _ hbad, mainCalls_zero]
  rfl

theorem mainCalls_script (env : Env) (hc : env.getcontext = 0) (hsc : env.setcontext = 0)
    (ys : List Bool) :
    ∀ t0 t1 : TCB, t0.thread_id = 0 → t1.thread_id = 1 → t1.state = State.READY →
      WorkerResumable t1.context →
      mainCalls env 1 (ys.length + 2) (workerScript ys) (twoSched 0 t0 t1 [1] [] true)
        = some (List.replicate (ys.length + 1) 1 ++ [ERROR_THREAD_BAD]) := by
  induction ys with
  | nil =>
    intro t0 t1 h0 h1 h1s hres
    exact round_finish env hsc hc t0 t1 h0 h1 h1s hres
  | cons b ys ih =>
    intro t0 t1 h0 h1 h1s hres
    obtain ⟨t0', t1', g0, g1, g1s, gres, _, hstep⟩ :=
      round_yield env hc hsc t0 t1 h0 h1 h1s hres b (ys.length + 2) (workerScript ys)
    show mainCalls env 1 (ys.length + 2 + 1)
      ((if b then WorkerMove.yield else WorkerMove.yieldToMain) :: workerScript ys) _ = _
    rw [hstep, ih t0' t1' g0 g1 g1s gres]
    rfl

/-- C23: right after `ThreadInit`, with one worker thread created (tid 1),
for every worker that yields back to the main thread `k` times (each time by
`ThreadYield` or by `ThreadYieldTo(0)`, as `ys` says, `k` being the length of
`ys`) and then returns from its function, `k + 2` consecutive calls
`ThreadYieldTo(1)` of the main thread return 1 the first `k + 1` times and
`ERROR_THREAD_BAD` the last time; for the worker of the factorial test, which
calls `ThreadYield` 9 times, these are 11 calls: ten return 1 and the eleventh
returns `ERROR_THREAD_BAD`. -/
theorem C23_yieldTo_until_worker_gone (sp f arg : Nat) (ys : List Bool) :
    ThreadInit bootSched (Env.healthy sp) = (bootSched, 0)
      ∧ (ThreadCreate bootSched (Env.healthy sp) f arg).2 = 1
      ∧ mainCalls (Env.healthy sp) 1 (ys.length + 2) (workerScript ys)
          (ThreadCreate bootSched (Env.healthy sp) f arg).1
        = some (List.replicate (ys.length + 1) 1 ++ [ERROR_THREAD_BAD])
      ∧ mainCalls (Env.healthy sp) 1 11 (workerScript (List.replicate 9 true))
          (ThreadCreate bootSched (Env.healthy sp) f arg).1
        = some [1, 1, 1, 1, 1, 1, 1, 1, 1, 1, ERROR_THREAD_BAD] := by
  have hscript := fun zs => mainCalls_script (Env.healthy sp) rfl rfl zs bootTCB
    (createdTCB blankTCB 1 sp f arg) rfl rfl rfl (Or.inl ⟨_, _, _, _, rfl⟩)
  refine ⟨ThreadInit_boot _ rfl, ?_, ?_, ?_⟩
  · rw [bootSched_create]
  · rw [bootSched_create]
    exact hscript ys
  · rw [bootSched_create]
    exact hscript (List.replicate 9 true)

theorem known_running (s : Sched) : s.Known s.running_thread := Or.inl rfl

theorem known_of_state (s : Sched) (i : Slot) (h : (s.threads i).state ≠ State.EMPTY) :
    s.Known i := Or.inr (Or.inl h)

theorem known_of_rq (s : Sched) (i : Slot) (h : i ∈ s.rq) : s.Known i :=
  Or.inr (Or.inr (Or.inl h))

theorem known_of_queue (s : Sched) (q : QueuePtr) (i : Slot) (h : i ∈ s.queue q) :
    s.Known i := by
  cases q with
  | rq => exact known_of_rq s i h
  | wq w =>
    cases w with
    | join j => exact Or.inr (Or.inr (Or.inr (Or.inl ⟨j, h⟩)))
    | user a => exact Or.inr (Or.inr (Or.inr (Or.inr ⟨a, h⟩)))

theorem tableOk_self (s : Sched) : TableOk s s.threads :=
  fun i => ⟨rfl, known_of_state s i⟩

theorem tableOk_reaped (s x : Sched) (h : TableOk s x.threads) :
    TableOk s (reapedThreads x) := by
  intro i
  unfold reapedThreads
  split
  · exact ⟨(h i).1, fun hne => absurd rfl hne⟩
  · exact h i

theorem tableOk_update (s : Sched) (g : Slot → TCB) (t : Slot) (v : TCB)
    (h : TableOk s g) (ht : s.Known t) (hv : v.thread_id = (g t).thread_id) :
    TableOk s (Function.update g t v) := by
  intro i
  by_cases hi : i = t
  · subst hi
    rw [Function.update_same]
    exact ⟨hv.trans (h i).1, fun _ => ht⟩
  · rw [Function.update_noteq hi]
    exact h i

theorem tableOk_markReady (s : Sched) (g : Slot → TCB) (l : List Slot)
    (h : TableOk s g) (hl : ∀ i ∈ l, s.Known i) : TableOk s (markReady l g) := by
  intro i
  unfold markReady
  split
  · rename_i hm
    exact ⟨(h i).1, fun _ => hl i hm⟩
  · exact h i

theorem stepOf_tidsOk (s s' : Sched) (hs : s.TidsOk) (h : s.StepOf s') : s'.TidsOk := by
  obtain ⟨hr, ht, hq, hw, hu⟩ := h
  intro i hk
  rw [(ht i).1]
  apply hs
  rcases hk with hk | hk | hk | ⟨j, hk⟩ | ⟨a, hk⟩
  · rw [hk]
    exact hr
  · exact (ht i).2 hk
  · exact hq i hk
  · exact hw j i hk
  · exact hu a i hk

theorem stepOf_refl (s : Sched) : s.StepOf s :=
  ⟨known_running s, tableOk_self s, fun i h => known_of_rq s i h,
    fun j _ h => Or.inr (Or.inr (Or.inr (Or.inl ⟨j, h⟩))),
    fun a _ h => Or.inr (Or.inr (Or.inr (Or.inr ⟨a, h⟩)))⟩

theorem stepOf_intr (s x : Sched) (b : Bool) (h : s.StepOf x) :
    s.StepOf { x with interrupts := b } := h

theorem stepOf_of_intr (s x : Sched) (b : Bool) (h : Sched.StepOf { s with interrupts := b } x) :
    s.StepOf x := h

theorem stepOf_reaped (s : Sched) : s.StepOf (reapedSched s) :=
  ⟨known_running s, tableOk_reaped s s (tableOk_self s), fun i h => known_of_rq s i h,
    fun j _ h => Or.inr (Or.inr (Or.inr (Or.inl ⟨j, h⟩))),
    fun a _ h => Or.inr (Or.inr (Or.inr (Or.inr ⟨a, h⟩)))⟩

theorem stepOf_setQueue (s x : Sched) (q : QueuePtr) (l : List Slot) (h : s.StepOf x)
    (hl : ∀ i ∈ l, s.Known i) : s.StepOf (x.setQueue q l) := by
  obtain ⟨hr, ht, hq, hw, hu⟩ := h
  cases q with
  | rq => exact ⟨hr, ht, hl, hw, hu⟩
  | wq w =>
    cases w with
    | join j =>
      refine ⟨hr, ht, hq, ?_, hu⟩
      intro j2 i hi
      by_cases hj : j2 = j
      · subst hj
        have e : (x.setQueue (.wq (.join j2)) l).wait_queues j2 = l := by
          simp [Sched.setQueue]
        rw [e] at hi
        exact hl i hi
      · have e : (x.setQueue (.wq (.join j)) l).wait_queues j2 = x.wait_queues j2 := by
          simp [Sched.setQueue, Function.update_noteq hj]
        rw [e] at hi
        exact hw j2 i hi
    | user a =>
      refine ⟨hr, ht, hq, hw, ?_⟩
      intro a2 i hi
      by_cases ha : a2 = a
      · subst ha
        have e : (x.setQueue (.wq (.user a2)) l).user_queues a2 = l := by
          simp [Sched.setQueue]
        rw [e] at hi
        exact hl i hi
      · have e : (x.setQueue (.wq (.user a)) l).user_queues a2 = x.user_queues a2 := by
          simp [Sched.setQueue, Function.update_noteq ha]
        rw [e] at hi
        exact hu a2 i hi

theorem stepOf_setState (s x : Sched) (t : Slot) (st : State) (h : s.StepOf x)
    (ht : s.Known t) : s.StepOf (x.setState t st) :=
  ⟨h.1, tableOk_update s x.threads t _ h.2.1 ht rfl, h.2.2.1, h.2.2.2.1, h.2.2.2.2⟩

theorem stepOf_setExitCode (s x : Sched) (t : Slot) (c : Int) (h : s.StepOf x)
    (ht : s.Known t) : s.StepOf (x.setExitCode t c) :=
  ⟨h.1, tableOk_update s x.threads t _ h.2.1 ht rfl, h.2.2.1, h.2.2.2.1, h.2.2.2.2⟩

theorem stepOf_setContext (s x : Sched) (t : Slot) (c : Context) (h : s.StepOf x) :
    s.StepOf (x.setContext t c) := by
  refine ⟨h.1, ?_, h.2.2.1, h.2.2.2.1, h.2.2.2.2⟩
  intro i
  by_cases hi : i = t
  · subst hi
    have e : (x.setContext i c).threads i = { x.threads i with context := c } := by
      simp [Sched.setContext]
    rw [e]
    exact h.2.1 i
  · have e : (x.setContext t c).threads i = x.threads i := by
      simp [Sched.setContext, Function.update_noteq hi]
    rw [e]
    exact h.2.1 i

theorem stepOf_pushOuterFrame (s x : Sched) (t : Slot) (fr : Frame) (h : s.StepOf x) :
    s.StepOf (x.pushOuterFrame t fr) := by
  unfold Sched.pushOuterFrame
  split
  · exact stepOf_setContext s x t _ h
  · exact h

theorem stepOf_running (s x : Sched) (t : Slot) (h : s.StepOf x) (ht : s.Known t) :
    s.StepOf { x with running_thread := t } :=
  ⟨ht, h.2.1, h.2.2.1, h.2.2.2.1, h.2.2.2.2⟩

theorem reaped_state_ne_empty (s : Sched) (i : Slot)
    (h : (reapedThreads s i).state ≠ State.EMPTY) : (s.threads i).state ≠ State.EMPTY := by
  unfold reapedThreads at h
  split at h
  · exact absurd rfl h
  · exact h

theorem ThreadKill_stepOf (s : Sched) (tid : Int) : s.StepOf (ThreadKill s tid).1 := by
  by_cases h : tid < 0 ∨ tid ≥ (MAX_THREADS : Int)
  · rw [ThreadKill_invalid s tid h]
    exact stepOf_refl s
  · by_cases hself : tid = (s.threads s.running_thread).thread_id
    · rw [ThreadKill_self s tid h hself]
      exact stepOf_refl s
    · by_cases hdead : (s.threads (slotOf tid h)).state = State.EMPTY
          ∨ (s.threads (slotOf tid h)).state = State.KILLED
          ∨ (s.threads (slotOf tid h)).state = State.EXITED
      · rw [ThreadKill_dead s tid h hself hdead]
        exact stepOf_refl s
      · rw [ThreadKill_live s tid h hself hdead]
        have hk : s.Known (slotOf tid h) := known_of_state s _ (fun he => hdead (Or.inl he))
        have hK : TableOk s (killedThreads s (slotOf tid h)) :=
          tableOk_update s s.threads _ _ (tableOk_self s) hk rfl
        refine ⟨known_running s, ?_, ?_, ?_, ?_⟩
        · exact tableOk_markReady s _ _ hK (fun i hi =>
            Or.inr (Or.inr (Or.inr (Or.inl ⟨_, mem_of_mem_unlinked _ _ _ _ hi⟩))))
        · intro i hi
          rcases List.mem_append.mp hi with hi | hi
          · exact known_of_rq s i (mem_of_mem_unlinked _ _ _ _ hi)
          · exact Or.inr (Or.inr (Or.inr (Or.inl ⟨_, mem_of_mem_unlinked _ _ _ _ hi⟩)))
        · intro j i hi
          by_cases hj : j = slotOf tid h
          · subst hj
            have e : (killedSched s tid (slotOf tid h)).wait_queues (slotOf tid h) = [] := by
              simp [killedSched]
            rw [e] at hi
            exact absurd hi (List.not_mem_nil _)
          · have e : (killedSched s tid (slotOf tid h)).wait_queues j
                = unlinked (killedThreads s (slotOf tid h)) tid (s.wait_queues j) := by
              simp [killedSched, Function.update_noteq hj]
            rw [e] at hi
            exact Or.inr (Or.inr (Or.inr (Or.inl ⟨j, mem_of_mem_unlinked _ _ _ _ hi⟩)))
        · intro a i hi
          exact Or.inr (Or.inr (Or.inr (Or.inr ⟨a, hi⟩)))

theorem yieldedToSched_stepOf (s : Sched) (tid : Int) (t : Slot)
    (hst : (reapedThreads s t).state = State.READY) : s.StepOf (yieldedToSched s tid t) := by
  have hk : s.Known t := known_of_state s t (reaped_state_ne_empty s t (by rw [hst]; decide))
  have h1 : TableOk s (Function.update (reapedThreads s) s.running_thread
      { reapedThreads s s.running_thread with
        context := Context.saved [Frame.yieldTo tid s.interrupts], state := State.READY }) :=
    tableOk_update s _ _ _ (tableOk_reaped s s (tableOk_self s)) (known_running s) rfl
  refine ⟨hk, tableOk_update s _ _ _ h1 hk rfl, ?_,
    fun j i h => Or.inr (Or.inr (Or.inr (Or.inl ⟨j, h⟩))),
    fun a i h => Or.inr (Or.inr (Or.inr (Or.inr ⟨a, h⟩)))⟩
  intro i hi
  rcases List.mem_append.mp (mem_of_mem_unlinked _ _ _ _ hi) with hi | hi
  · exact known_of_rq s i hi
  · rw [List.mem_singleton.mp hi]
    exact known_running s

theorem ThreadYieldTo_stepOf (s : Sched) (env : Env) (tid : Int) :
    s.StepOf (ThreadYieldTo s env tid).1 := by
  by_cases h : tid < 0 ∨ tid ≥ (MAX_THREADS : Int)
  · rw [ThreadYieldTo_invalid s env tid h]
    exact stepOf_reaped s
  · by_cases hself : tid = (s.threads s.running_thread).thread_id
    · rw [ThreadYieldTo_self s env tid h hself]
      exact stepOf_reaped s
    · by_cases hst : (reapedThreads s (slotOf tid h)).state = State.READY
      · by_cases hc : env.getcontext = 0
        · rw [ThreadYieldTo_switch s env tid h hself hst hc]
          by_cases hsc : env.setcontext = 0
          · rw [if_pos hsc]
            exact yieldedToSched_stepOf s tid _ hst
          · rw [if_neg hsc]
            exact stepOf_intr s _ _ (yieldedToSched_stepOf s tid _ hst)
        · rw [ThreadYieldTo_no_context s env tid h hself hst hc]
          exact stepOf_reaped s
      · rw [ThreadYieldTo_not_ready s env tid h hself hst]
        exact stepOf_reaped s

theorem yieldedSched_stepOf (s : Sched) (head : Slot) (rest : List Slot)
    (hq : s.rq = head :: rest) : s.StepOf (yieldedSched s head rest) := by
  have hk : s.Known head := known_of_rq s head (by rw [hq]; exact List.mem_cons_self _ _)
  have h1 : TableOk s (Function.update (reapedThreads s) s.running_thread
      (yieldingTCB s (s.threads head).thread_id)) :=
    tableOk_update s _ _ _ (tableOk_reaped s s (tableOk_self s)) (known_running s) rfl
  refine ⟨hk, tableOk_update s _ _ _ h1 hk rfl, ?_,
    fun j i h => Or.inr (Or.inr (Or.inr (Or.inl ⟨j, h⟩))),
    fun a i h => Or.inr (Or.inr (Or.inr (Or.inr ⟨a, h⟩)))⟩
  intro i hi
  rcases List.mem_append.mp hi with hi | hi
  · exact known_of_rq s i (by rw [hq]; exact List.mem_cons_of_mem _ hi)
  · rw [List.mem_singleton.mp hi]
    exact known_running s

theorem ThreadYield_stepOf (s : Sched) (env : Env) : s.StepOf (ThreadYield s env).1 := by
  by_cases hq : s.rq = []
  · rw [ThreadYield_empty s env hq]
    exact stepOf_reaped s
  · obtain ⟨head, rest, hq2⟩ := List.exists_cons_of_ne_nil hq
    by_cases hc : env.getcontext = 0
    · rw [ThreadYield_switch s env head rest hq2 hc]
      by_cases hsc : env.setcontext = 0
      · rw [if_pos hsc]
        exact yieldedSched_stepOf s head rest hq2
      · rw [if_neg hsc]
        exact stepOf_intr s _ _ (yieldedSched_stepOf s head rest hq2)
    · rw [ThreadYield_no_context s env hq hc]
      exact stepOf_reaped s

theorem sleptSched_stepOf (s : Sched) (q : WaitQueuePtr) (head : Slot) (rest : List Slot)
    (hq : s.rq = head :: rest) : s.StepOf (sleptSched s q head rest) := by
  have hk : s.Known head := known_of_rq s head (by rw [hq]; exact List.mem_cons_self _ _)
  have h1 : TableOk s (Function.update (reapedThreads s) s.running_thread
      (sleepingTCB s (s.threads head).thread_id)) :=
    tableOk_update s _ _ _ (tableOk_reaped s s (tableOk_self s)) (known_running s) rfl
  unfold sleptSched
  refine stepOf_setQueue s _ _ _ ⟨hk, tableOk_update s _ _ _ h1 hk rfl, ?_,
    fun j i h => Or.inr (Or.inr (Or.inr (Or.inl ⟨j, h⟩))),
    fun a i h => Or.inr (Or.inr (Or.inr (Or.inr ⟨a, h⟩)))⟩ ?_
  · intro i hi
    exact known_of_rq s i (by rw [hq]; exact List.mem_cons_of_mem _ hi)
  · intro i hi
    rcases List.mem_append.mp hi with hi | hi
    · exact known_of_queue s _ i hi
    · rw [List.mem_singleton.mp hi]
      exact known_running s

theorem ThreadSleep_stepOf (s : Sched) (env : Env) (q : WaitQueuePtr) :
    s.StepOf (ThreadSleep s env q).1 := by
  by_cases hq : s.rq = []
  · rw [ThreadSleep_empty s env q hq]
    exact stepOf_reaped s
  · obtain ⟨head, rest, hq2⟩ := List.exists_cons_of_ne_nil hq
    by_cases hc : env.getcontext = 0
    · rw [ThreadSleep_switch s env q head rest hq2 hc]
      by_cases hsc : env.setcontext = 0
      · rw [if_pos hsc]
        exact sleptSched_stepOf s q head rest hq2
      · rw [if_neg hsc]
        exact stepOf_intr s _ _ (sleptSched_stepOf s q head rest hq2)
    · rw [ThreadSleep_no_context s env q head rest hq2 hc]
      exact stepOf_reaped s

theorem ThreadJoin_stepOf (s : Sched) (env : Env) (tid : Int) (out : Option Int) :
    s.StepOf (ThreadJoin s env tid out).1 := by
  by_cases h : tid < 0 ∨ tid ≥ (MAX_THREADS : Int)
  · rw [ThreadJoin_invalid s env tid out h]
    exact stepOf_refl s
  · by_cases hdead : (s.threads (slotOf tid h)).state = State.EMPTY
        ∨ (s.threads (slotOf tid h)).state = State.KILLED
        ∨ (s.threads (slotOf tid h)).state = State.EXITED
    · rw [ThreadJoin_dead s env tid out h hdead]
      exact stepOf_refl s
    · by_cases hself : tid = (s.threads s.running_thread).thread_id
      · rw [ThreadJoin_self s env tid out h hdead hself]
        exact stepOf_refl s
      · rw [ThreadJoin_live s env tid out h hdead hself]
        have hs := stepOf_of_intr s _ false
          (ThreadSleep_stepOf { s with interrupts := false } env (.join (slotOf tid h)))
        generalize ThreadSleep { s with interrupts := false } env (.join (slotOf tid h)) = r
          at hs
        obtain ⟨s2, o⟩ := r
        cases o with
        | ret w => exact stepOf_intr s _ _ hs
        | switched => exact stepOf_pushOuterFrame s _ _ _ hs
        | exited code => exact hs
        | fault => exact hs

theorem exitPrep_stepOf (s : Sched) (c : Int) : s.StepOf (exitPrep s c) := by
  have hj : ∀ i ∈ s.wait_queues s.running_thread, s.Known i :=
    fun i hi => Or.inr (Or.inr (Or.inr (Or.inl ⟨_, hi⟩)))
  have h1 : TableOk s (markReady (s.wait_queues s.running_thread)
      (Function.update s.threads s.running_thread
        { s.threads s.running_thread with exit_code := c })) :=
    tableOk_markReady s _ _
      (tableOk_update s s.threads _ _ (tableOk_self s) (known_running s) rfl) hj
  refine ⟨known_running s, ?_, ?_, ?_, fun a i h => Or.inr (Or.inr (Or.inr (Or.inr ⟨a, h⟩)))⟩
  · exact tableOk_reaped s
      { s with threads := (markReady (s.wait_queues s.running_thread)
          (Function.update s.threads s.running_thread
            { s.threads s.running_thread with exit_code := c })) } h1
  · intro i hi
    rcases List.mem_append.mp hi with hi | hi
    · exact known_of_rq s i hi
    · exact hj i hi
  · intro j i hi
    have hi2 := mem_of_mem_unlinked _ _ _ _ hi
    by_cases hjr : j = s.running_thread
    · subst hjr
      rw [Function.update_same] at hi2
      exact absurd hi2 (List.not_mem_nil _)
    · rw [Function.update_noteq hjr] at hi2
      exact Or.inr (Or.inr (Or.inr (Or.inl ⟨j, hi2⟩)))

theorem exitedSched_stepOf (s : Sched) (c : Int) (head : Slot) (rest : List Slot)
    (hq : (exitPrep s c).rq = head :: rest) : s.StepOf (exitedSched s c head rest) := by
  have hp := exitPrep_stepOf s c
  have hk : s.Known head := hp.2.2.1 head (by rw [hq]; exact List.mem_cons_self _ _)
  have hrest : ∀ i ∈ rest, s.Known i :=
    fun i hi => hp.2.2.1 i (by rw [hq]; exact List.mem_cons_of_mem _ hi)
  unfold exitedSched
  exact stepOf_running s _ head
    (stepOf_setState s _ head _
      (stepOf_setQueue s _ .rq rest
        (stepOf_setState s _ s.running_thread _ hp (known_running s)) hrest) hk) hk

theorem ThreadExit_stepOf (s : Sched) (env : Env) (c : Int)
    (hcur : (s.threads s.running_thread).thread_id = (s.running_thread.val : Int)) :
    s.StepOf (ThreadExit s env c).1 := by
  by_cases hq : (exitPrep s c).rq = []
  · rw [ThreadExit_last s env c hcur hq]
    unfold lastExitSched
    exact stepOf_intr s _ _
      (stepOf_setExitCode s _ _ _
        (stepOf_setState s _ _ _ (exitPrep_stepOf s c) (known_running s)) (known_running s))
  · obtain ⟨head, rest, hq2⟩ := List.exists_cons_of_ne_nil hq
    rw [ThreadExit_switch s env c head rest hcur hq2]
    have hk : s.Known head :=
      (exitPrep_stepOf s c).2.2.1 head (by rw [hq2]; exact List.mem_cons_self _ _)
    by_cases hsc : env.setcontext = 0
    · rw [if_pos hsc]
      exact exitedSched_stepOf s c head rest hq2
    · rw [if_neg hsc]
      exact stepOf_intr s _ _
        (stepOf_setExitCode s _ _ _ (exitedSched_stepOf s c head rest hq2) hk)

theorem ThreadWakeAll_stepOf (s : Sched) (q : WaitQueuePtr) :
    s.StepOf (ThreadWakeAll s q).1 := by
  rw [ThreadWakeAll_eq]
  have hl : ∀ i ∈ s.queue (.wq q), s.Known i := fun i hi => known_of_queue s _ i hi
  unfold wokenAll
  refine stepOf_setQueue s _ _ _ ⟨known_running s,
    tableOk_markReady s _ _ (tableOk_self s) hl, ?_,
    fun j i h => Or.inr (Or.inr (Or.inr (Or.inl ⟨j, h⟩))),
    fun a i h => Or.inr (Or.inr (Or.inr (Or.inr ⟨a, h⟩)))⟩
    (fun i hi => absurd hi (List.not_mem_nil _))
  intro i hi
  rcases List.mem_append.mp hi with hi | hi
  · exact known_of_rq s i hi
  · exact hl i hi

theorem ThreadWakeNext_stepOf (s : Sched) (q : WaitQueuePtr) :
    s.StepOf (ThreadWakeNext s q).1 := by
  by_cases hq : s.queue (.wq q) = []
  · rw [ThreadWakeNext_empty s q hq]
    exact stepOf_refl s
  · obtain ⟨t, rest, hq2⟩ := List.exists_cons_of_ne_nil hq
    rw [ThreadWakeNext_cons s q t rest hq2]
    have hk : s.Known t := known_of_queue s _ t (by rw [hq2]; exact List.mem_cons_self _ _)
    refine stepOf_setQueue s _ _ _ ⟨known_running s,
      tableOk_update s _ _ _ (tableOk_self s) hk rfl, ?_,
      fun j i h => Or.inr (Or.inr (Or.inr (Or.inl ⟨j, h⟩))),
      fun a i h => Or.inr (Or.inr (Or.inr (Or.inr ⟨a, h⟩)))⟩
      (fun i hi => known_of_queue s _ i (by rw [hq2]; exact List.mem_cons_of_mem _ hi))
    intro i hi
    rcases List.mem_append.mp hi with hi | hi
    · exact known_of_rq s i hi
    · rw [List.mem_singleton.mp hi]
      exact hk

theorem WaitQueueCreate_stepOf (s : Sched) (env : Env) :
    s.StepOf (WaitQueueCreate s env).1 := by
  unfold WaitQueueCreate
  dsimp only [InterruptsDisable, InterruptsSet]
  cases env.malloc with
  | none => exact stepOf_intr s _ _ (stepOf_refl s)
  | some addr =>
    exact stepOf_intr s _ _
      (stepOf_setQueue s _ _ _ (stepOf_intr s _ false (stepOf_refl s))
        (fun i hi => absurd hi (List.not_mem_nil _)))

theorem WaitQueueDestroy_stepOf (s : Sched) (addr : Nat) :
    s.StepOf (WaitQueueDestroy s addr).1 := by
  rw [WaitQueueDestroy_eq]
  exact stepOf_refl s

theorem ThreadCreate_tidsOk (s : Sched) (env : Env) (f arg : Nat) (hs : s.TidsOk) :
    (ThreadCreate s env f arg).1.TidsOk := by
  by_cases hlt : findSlot (reapedThreads s) 0 < MAX_THREADS
  · cases hm : env.malloc with
    | none =>
      rw [ThreadCreate_no_memory s env f arg hlt hm]
      exact stepOf_tidsOk s _ hs (stepOf_reaped s)
    | some sp =>
      by_cases hc : env.getcontext = 0
      · rw [ThreadCreate_found s env f arg sp hm hc ⟨_, hlt⟩ rfl]
        intro i hk
        by_cases hi : i = ⟨findSlot (reapedThreads s) 0, hlt⟩
        · subst hi
          show (Function.update (reapedThreads s) ⟨findSlot (reapedThreads s) 0, hlt⟩
            (createdTCB (reapedThreads s ⟨findSlot (reapedThreads s) 0, hlt⟩)
              (findSlot (reapedThreads s) 0) sp f arg)
            ⟨findSlot (reapedThreads s) 0, hlt⟩).thread_id = _
          rw [Function.update_same]
          rfl
        · have e : ∀ v : TCB, Function.update (reapedThreads s)
              ⟨findSlot (reapedThreads s) 0, hlt⟩ v i = reapedThreads s i :=
            fun v => by rw [Function.update_noteq hi]
          show (Function.update (reapedThreads s) ⟨findSlot (reapedThreads s) 0, hlt⟩
            (createdTCB (reapedThreads s ⟨findSlot (reapedThreads s) 0, hlt⟩)
              (findSlot (reapedThreads s) 0) sp f arg) i).thread_id = _
          rw [e, (reapedThreads_fields s i).2.1]
          apply hs
          rcases hk with hk | hk | hk | ⟨j, hk⟩ | ⟨a, hk⟩
          · exact Or.inl hk
          · have hk2 : (Function.update (reapedThreads s) ⟨findSlot (reapedThreads s) 0, hlt⟩
                (createdTCB (reapedThreads s ⟨findSlot (reapedThreads s) 0, hlt⟩)
                  (findSlot (reapedThreads s) 0) sp f arg) i).state ≠ State.EMPTY := hk
            rw [e] at hk2
            exact known_of_state s i (reaped_state_ne_empty s i hk2)
          · have hk2 : i ∈ s.rq ++ [⟨findSlot (reapedThreads s) 0, hlt⟩] := hk
            rcases List.mem_append.mp hk2 with h | h
            · exact known_of_rq s i h
            · exact absurd (List.mem_singleton.mp h) hi
          · have hk2 : i ∈ Function.update s.wait_queues
                ⟨findSlot (reapedThreads s) 0, hlt⟩ [] j := hk
            by_cases hj : j = ⟨findSlot (reapedThreads s) 0, hlt⟩
            · subst hj
              rw [Function.update_same] at hk2
              exact absurd hk2 (List.not_mem_nil _)
            · rw [Function.update_noteq hj] at hk2
              exact Or.inr (Or.inr (Or.inr (Or.inl ⟨j, hk2⟩)))
          · exact Or.inr (Or.inr (Or.inr (Or.inr ⟨a, hk⟩)))
      · rw [ThreadCreate_no_context s env f arg sp hlt hm hc]
        exact stepOf_tidsOk s _ hs (stepOf_reaped s)
  · rw [ThreadCreate_full s env f arg hlt]
    exact stepOf_tidsOk s _ hs (stepOf_reaped s)

theorem ThreadInit_err (s : Sched) (env : Env) (hc : env.getcontext ≠ 0) :
    ∃ s1, ThreadInit s env = (s1, ERROR_OTHER) := by
  refine ⟨?s1, ?h⟩
  case h =>
    unfold ThreadInit
    exact if_pos hc

theorem ThreadInit_tidsOk (s0 : Sched) (env : Env) (hw : ∀ j, s0.wait_queues j = [])
    (hu : ∀ a, s0.user_queues a = []) (h : (ThreadInit s0 env).2 = 0) :
    (ThreadInit s0 env).1.TidsOk := by
  have hc : env.getcontext = 0 := by
    by_contra hne
    obtain ⟨s1, h1⟩ := ThreadInit_err s0 env hne
    rw [h1] at h
    exact absurd (show ERROR_OTHER = (0 : Int) from h) (show ¬ ERROR_OTHER = (0 : Int) by decide)
  rw [ThreadInit_ok s0 env hc]
  intro i hk
  have hi : i = 0 := by
    rcases hk with hk | hk | hk | ⟨j, hk⟩ | ⟨a, hk⟩
    · exact hk
    · by_contra hne
      exact hk (by
        show (initThreads s0 i).state = State.EMPTY
        simp [initThreads, hne])
    · exact absurd hk (List.not_mem_nil _)
    · have hk2 : i ∈ Function.update s0.wait_queues 0 [] j := hk
      by_cases hj : j = 0
      · subst hj
        rw [Function.update_same] at hk2
        exact absurd hk2 (List.not_mem_nil _)
      · rw [Function.update_noteq hj, hw j] at hk2
        exact absurd hk2 (List.not_mem_nil _)
    · have hk2 : i ∈ s0.user_queues a := hk
      rw [hu a] at hk2
      exact absurd hk2 (List.not_mem_nil _)
  subst hi
  show (initThreads s0 0).thread_id = _
  simp [initThreads]

theorem resume_stepOf (s : Sched) (r : Resumed) (h : resume s = some r) :
    s.StepOf r.sched := by
  unfold resume at h
  split at h
  · have e := Option.some.inj h
    rw [← e]
    exact stepOf_intr s _ _ (stepOf_refl s)
  · rename_i frames hctx
    unfold unwind at h
    split at h
    · have e := Option.some.inj h
      rw [← e]
      exact stepOf_intr s _ _ (stepOf_refl s)
    · have e := Option.some.inj h
      rw [← e]
      exact stepOf_intr s _ _ (stepOf_refl s)
    · have e := Option.some.inj h
      rw [← e]
      exact stepOf_intr s _ _ (stepOf_refl s)
    · dsimp only [InterruptsSet] at h
      split at h
      · exact absurd h (by simp)
      · have e := Option.some.inj h
        rw [← e]
        exact stepOf_intr s _ _ (stepOf_intr s _ _ (stepOf_refl s))
    · exact absurd h (by simp)
  · exact absurd h (by simp)

theorem reachable_tidsOk (s : Sched) (h : Reachable s) : s.TidsOk := by
  induction h with
  | init s0 env hw hu h => exact ThreadInit_tidsOk s0 env hw hu h
  | create s env f arg _ ih => exact ThreadCreate_tidsOk s env f arg ih
  | exit s env c _ ih =>
    exact stepOf_tidsOk s _ ih (ThreadExit_stepOf s env c (ih _ (known_running s)))
  | kill s tid _ ih => exact stepOf_tidsOk s _ ih (ThreadKill_stepOf s tid)
  | yield s env _ ih => exact stepOf_tidsOk s _ ih (ThreadYield_stepOf s env)
  | yieldTo s env tid _ ih => exact stepOf_tidsOk s _ ih (ThreadYieldTo_stepOf s env tid)
  | sleep s env q _ ih => exact stepOf_tidsOk s _ ih (ThreadSleep_stepOf s env q)
  | wakeNext s q _ ih => exact stepOf_tidsOk s _ ih (ThreadWakeNext_stepOf s q)
  | wakeAll s q _ ih => exact stepOf_tidsOk s _ ih (ThreadWakeAll_stepOf s q)
  | join s env tid out _ ih => exact stepOf_tidsOk s _ ih (ThreadJoin_stepOf s env tid out)
  | queueCreate s env _ ih => exact stepOf_tidsOk s _ ih (WaitQueueCreate_stepOf s env)
  | queueDestroy s addr _ ih => exact stepOf_tidsOk s _ ih (WaitQueueDestroy_stepOf s addr)
  | resumed s r _ hr ih => exact stepOf_tidsOk s _ ih (resume_stepOf s r hr)

theorem bootCreated_reachable : Reachable bootCreated := by
  have h0 : Reachable (ThreadInit bootSched (Env.healthy 0)).1 :=
    Reachable.init bootSched (Env.healthy 0) (fun _ => rfl) (fun _ => rfl)
      (by rw [ThreadInit_boot _ rfl])
  rw [ThreadInit_boot _ rfl] at h0
  have h1 := Reachable.create bootSched (Env.healthy 4096) 7 9 h0
  rw [bootCreated_create] at h1
  exact h1

/-- C34: in every state the library passes through after a successful
`ThreadInit` (called, as at program start, with no node in any wait queue),
every slot whose state is not `EMPTY` has its own index as thread id, and so
has every TCB referenced from a queue; hence `remove_from_queue(queue, i)`
called for a TCB of slot `i` that is in the queue unlinks the first node that
holds that TCB. -/
theorem C34_live_slots_carry_their_index (s : Sched) (h : Reachable s) :
    (∀ i : Slot, (s.threads i).state ≠ State.EMPTY →
        (s.threads i).thread_id = (i.val : Int))
      ∧ (∀ (q : QueuePtr) (i : Slot), i ∈ s.queue q →
          (s.threads i).thread_id = (i.val : Int))
      ∧ (∀ (q : QueuePtr) (i : Slot), i ∈ s.queue q →
          (remove_from_queue s q (i.val : Int)).queue q = (s.queue q).erase i) := by
  have hs := reachable_tidsOk s h
  refine ⟨fun i hi => hs i (known_of_state s i hi),
    fun q i hi => hs i (known_of_queue s q i hi), ?_⟩
  intro q i _
  rw [(remove_from_queue_queue s q _).1]
  exact unlinked_eq_erase s.threads _ i _
    (fun p hp => tid_match_iff s.threads i p (hs p (known_of_queue s q p hp)))

theorem C34_live_slots_carry_their_index_witness :
    Reachable bootCreated ∧ (bootCreated.threads 1).state ≠ State.EMPTY
      ∧ (bootCreated.threads 1).thread_id = 1
      ∧ (remove_from_queue bootCreated .rq 1).queue .rq = [] := by
  have h := C34_live_slots_carry_their_index bootCreated bootCreated_reachable
  refine ⟨bootCreated_reachable, by decide, h.1 1 (by decide), ?_⟩
  exact h.2.2 .rq 1 (List.mem_singleton.mpr rfl)

theorem two_tid_iff (run : Slot) (t0 t1 : TCB) (rq uq : List Slot) (intr : Bool)
    (g : Slot → TCB)
    (hg : ∀ p, (g p).thread_id = ((twoSched run t0 t1 rq uq intr).threads p).thread_id)
    (h0 : t0.thread_id = 0) (h1 : t1.thread_id = 1) (p : Slot) :
    (g p).thread_id = 1 ↔ p = 1 := by
  rw [hg p]
  by_cases hp0 : p = 0
  · subst hp0
    simp [twoSched, h0]
  · by_cases hp1 : p = 1
    · subst hp1
      simp [twoSched, h1]
    · simp [twoSched, blankTCB, hp0, hp1]

/-- `ThreadKill(1)` called by thread 0 while thread 1 is `READY` or `BLOCKED`:
only the first node of the ready queue that holds its TCB is unlinked. -/
theorem two_kill1_live (t0 t1 : TCB) (rq uq : List Slot) (intr : Bool)
    (h0 : t0.thread_id = 0) (h1 : t1.thread_id = 1)
    (h1s : t1.state = State.READY ∨ t1.state = State.BLOCKED) :
    ThreadKill (twoSched 0 t0 t1 rq uq intr) 1
      = (twoSched 0 t0 { t1 with state := State.KILLED, exit_code := EXIT_CODE_KILL }
          (rq.erase 1) uq intr, Outcome.ret 1) := by
  have hr : ¬ ((1 : Int) < 0 ∨ (1 : Int) ≥ (MAX_THREADS : Int)) := by decide
  have hself : (1 : Int) ≠ ((twoSched 0 t0 t1 rq uq intr).threads
      (twoSched 0 t0 t1 rq uq intr).running_thread).thread_id := by
    show (1 : Int) ≠ t0.thread_id
    rw [h0]
    decide
  have hlive : ¬ (((twoSched 0 t0 t1 rq uq intr).threads (slotOf 1 hr)).state = State.EMPTY
      ∨ ((twoSched 0 t0 t1 rq uq intr).threads (slotOf 1 hr)).state = State.KILLED
      ∨ ((twoSched 0 t0 t1 rq uq intr).threads (slotOf 1 hr)).state = State.EXITED) := by
    rw [slotOf_one]
    show ¬ (t1.state = State.EMPTY ∨ t1.state = State.KILLED ∨ t1.state = State.EXITED)
    rcases h1s with h | h <;> rw [h] <;> decide
  rw [ThreadKill_live _ 1 hr hself hlive, slotOf_one]
  refine congrArg (fun x => (x, Outcome.ret 1)) ?_
  apply sched_ext
  · rfl
  · funext i
    by_cases hi0 : i = 0
    · subst hi0
      simp [killedSched, killedThreads, markReady, unlinked, unlinkTid, twoSched,
        Function.update]
    · by_cases hi1 : i = 1
      · subst hi1
        simp [killedSched, killedThreads, markReady, unlinked, unlinkTid, twoSched,
          Function.update]
      · simp [killedSched, killedThreads, markReady, unlinked, unlinkTid, twoSched,
          Function.update, hi0, hi1, blankTCB]
  · show unlinked (killedThreads (twoSched 0 t0 t1 rq uq intr) 1) 1 rq
      ++ unlinked (killedThreads (twoSched 0 t0 t1 rq uq intr) 1) 1 [] = rq.erase 1
    rw [unlinked_eq_erase _ 1 1 rq (fun p _ =>
      two_tid_iff 0 t0 t1 rq uq intr _
        (fun p => killedThreads_thread_id (twoSched 0 t0 t1 rq uq intr) 1 p) h0 h1 p)]
    simp [unlinked, unlinkTid]
  · funext i
    simp [killedSched, unlinked, unlinkTid, twoSched, Function.update]
  · rfl
  · rfl

/-- `ThreadYieldTo(1)` called by thread 0 while thread 1 is `READY`: only the
first node of the ready queue that holds the target is unlinked. -/
theorem two_yieldTo1_any (t0 t1 : TCB) (rq uq : List Slot) (intr : Bool) (env : Env)
    (hc : env.getcontext = 0) (hsc : env.setcontext = 0)
    (h0 : t0.thread_id = 0) (h1 : t1.thread_id = 1) (h1s : t1.state = State.READY) :
    ThreadYieldTo (twoSched 0 t0 t1 rq uq intr) env 1
      = (twoSched 1 { t0 with context := Context.saved [Frame.yieldTo 1 intr],
                              state := State.READY }
          { t1 with state := State.RUNNING } ((rq ++ [0]).erase 1) uq false,
          Outcome.switched) := by
  have hr : ¬ ((1 : Int) < 0 ∨ (1 : Int) ≥ (MAX_THREADS : Int)) := by decide
  have hself : (1 : Int) ≠ ((twoSched 0 t0 t1 rq uq intr).threads
      (twoSched 0 t0 t1 rq uq intr).running_thread).thread_id := by
    show (1 : Int) ≠ t0.thread_id
    rw [h0]
    decide
  have hst : (reapedThreads (twoSched 0 t0 t1 rq uq intr) (slotOf 1 hr)).state
      = State.READY := by
    rw [slotOf_one, reapedThreads_ready (twoSched 0 t0 t1 rq uq intr) 1 h1s]
    exact h1s
  rw [ThreadYieldTo_switch _ env 1 hr hself hst hc, if_pos hsc, slotOf_one]
  refine congrArg (fun x => (x, Outcome.switched)) ?_
  apply sched_ext
  · rfl
  · funext i
    by_cases hi0 : i = 0
    · subst hi0
      simp [yieldedToSched, twoSched, reapedThreads, Function.update]
    · by_cases hi1 : i = 1
      · subst hi1
        simp [yieldedToSched, twoSched, reapedThreads, Function.update, h1s]
      · simp [yieldedToSched, twoSched, reapedThreads, Function.update, hi0, hi1, blankTCB]
  · show unlinked (Function.update (reapedThreads (twoSched 0 t0 t1 rq uq intr)) 0
        { reapedThreads (twoSched 0 t0 t1 rq uq intr) 0 with
          context := Context.saved [Frame.yieldTo 1 intr], state := State.READY })
        (1 : Int) (rq ++ [(0 : Slot)]) = List.erase (rq ++ [(0 : Slot)]) (1 : Slot)
    refine unlinked_eq_erase _ 1 1 _ (fun p _ =>
      two_tid_iff 0 t0 t1 rq uq intr _ (fun p => ?_) h0 h1 p)
    by_cases hp0 : p = 0
    · subst hp0
      simp [reapedThreads, twoSched]
    · simp [Function.update_noteq hp0, reapedThreads_thread_id]
  · rfl
  · rfl
  · rfl

/-- `ThreadYield` called by thread 1 while its own TCB is at the head of the
ready queue: the caller is dispatched and stays `RUNNING`. -/
theorem two_yield1_self (t0 t1 : TCB) (rest uq : List Slot) (intr : Bool) (env : Env)
    (hc : env.getcontext = 0) (hsc : env.setcontext = 0)
    (h1 : t1.thread_id = 1) (h0s : t0.state = State.READY) :
    ThreadYield (twoSched 1 t0 t1 (1 :: rest) uq intr) env
      = (twoSched 1 t0
          { t1 with context := Context.saved [Frame.yield 1 intr], state := State.RUNNING }
          (rest ++ [1]) uq false, Outcome.switched) := by
  rw [ThreadYield_switch (twoSched 1 t0 t1 (1 :: rest) uq intr) env 1 rest rfl hc, if_pos hsc]
  refine congrArg (fun x => (x, Outcome.switched)) ?_
  apply sched_ext
  · rfl
  · funext i
    by_cases hi0 : i = 0
    · subst hi0
      simp [yieldedSched, yieldingTCB, twoSched, reapedThreads, Function.update, h0s]
    · by_cases hi1 : i = 1
      · subst hi1
        simp [yieldedSched, yieldingTCB, twoSched, reapedThreads, Function.update, h1]
      · simp [yieldedSched, yieldingTCB, twoSched, reapedThreads, Function.update, hi0, hi1,
          blankTCB]
  · rfl
  · rfl
  · rfl
  · rfl

/-- `ThreadSleep` on the user wait queue at address 64, called by thread 1
while its own TCB is at the head of the ready queue: the caller is appended to
the wait queue, dispatched, and stays `RUNNING`. -/
theorem two_sleep1_self (t0 t1 : TCB) (rest uq : List Slot) (intr : Bool) (env : Env)
    (hc : env.getcontext = 0) (hsc : env.setcontext = 0)
    (h1 : t1.thread_id = 1) (h0s : t0.state = State.READY) :
    ThreadSleep (twoSched 1 t0 t1 (1 :: rest) uq intr) env (.user 64)
      = (twoSched 1 t0
          { t1 with context := Context.saved [Frame.sleep 1 intr], state := State.RUNNING }
          rest (uq ++ [1]) false, Outcome.switched) := by
  rw [ThreadSleep_switch (twoSched 1 t0 t1 (1 :: rest) uq intr) env (.user 64) 1 rest rfl hc,
    if_pos hsc]
  refine congrArg (fun x => (x, Outcome.switched)) ?_
  apply sched_ext
  · rfl
  · funext i
    by_cases hi0 : i = 0
    · subst hi0
      simp [sleptSched, sleepingTCB, Sched.setQueue, twoSched, reapedThreads, Function.update,
        h0s]
    · by_cases hi1 : i = 1
      · subst hi1
        simp [sleptSched, sleepingTCB, Sched.setQueue, twoSched, reapedThreads,
          Function.update, h1]
      · simp [sleptSched, sleepingTCB, Sched.setQueue, twoSched, reapedThreads,
          Function.update, hi0, hi1, blankTCB]
  · rfl
  · rfl
  · funext a
    by_cases ha : a = 64
    · simp [sleptSched, Sched.setQueue, Sched.queue, twoSched, Function.update, ha]
    · simp [sleptSched, Sched.setQueue, Sched.queue, twoSched, Function.update, ha]
  · rfl

/-- Thread 1, dispatched again, returns from the `ThreadSleep` call in which
its context was saved. -/
theorem two_resume_sleep1 (t0 t1 : TCB) (rq uq : List Slot) (intr : Bool)
    (id : Int) (enabled : Bool) (h : t1.context = Context.saved [Frame.sleep id enabled]) :
    resume (twoSched 1 t0 t1 rq uq intr)
      = some ⟨twoSched 1 t0 t1 rq uq enabled, some id, none⟩ := by
  unfold resume
  have h2 : ((twoSched 1 t0 t1 rq uq intr).threads
      (twoSched 1 t0 t1 rq uq intr).running_thread).context
        = Context.saved [Frame.sleep id enabled] := h
  rw [h2]
  rfl

/-- `ThreadWakeAll` on the user wait queue at address 64 when it holds only
the TCB of slot 1. -/
theorem two_wakeAll (run : Slot) (t0 t1 : TCB) (rq : List Slot) (intr : Bool) :
    ThreadWakeAll (twoSched run t0 t1 rq [1] intr) (.user 64)
      = (twoSched run t0 { t1 with state := State.READY } (rq ++ [1]) [] intr,
          Outcome.ret 1) := by
  rw [ThreadWakeAll_eq]
  refine congrArg (fun x => (x, Outcome.ret 1)) ?_
  apply sched_ext
  · rfl
  · funext i
    by_cases hi0 : i = 0
    · subst hi0
      simp [wokenAll, markReady, Sched.setQueue, Sched.queue, twoSched]
    · by_cases hi1 : i = 1
      · subst hi1
        simp [wokenAll, markReady, Sched.setQueue, Sched.queue, twoSched]
      · simp [wokenAll, markReady, Sched.setQueue, Sched.queue, twoSched, hi0, hi1, blankTCB]
  · rfl
  · rfl
  · funext a
    by_cases ha : a = 64
    · simp [wokenAll, Sched.setQueue, Sched.queue, twoSched, Function.update, ha]
    · simp [wokenAll, Sched.setQueue, Sched.queue, twoSched, Function.update, ha]
  · rfl

/-- `ThreadExit(c)` called by thread 1 while thread 0 is at the head of the
ready queue. -/
theorem two_exit1_any (t0 t1 : TCB) (rest uq : List Slot) (intr : Bool) (env : Env) (c : Int)
    (hsc : env.setcontext = 0)
    (h1 : t1.thread_id = 1) (h0s : t0.state = State.READY) :
    ThreadExit (twoSched 1 t0 t1 (0 :: rest) uq intr) env c
      = (twoSched 0 { t0 with state := State.RUNNING }
          { t1 with exit_code := c, state := State.EXITED } rest uq false,
          Outcome.switched) := by
  have hq : (exitPrep (twoSched 1 t0 t1 (0 :: rest) uq intr) c).rq = 0 :: rest := by
    show (0 :: rest) ++ [] = 0 :: rest
    exact List.append_nil _
  rw [ThreadExit_switch (twoSched 1 t0 t1 (0 :: rest) uq intr) env c 0 rest h1 hq, if_pos hsc]
  refine congrArg (fun x => (x, Outcome.switched)) ?_
  apply sched_ext
  · rfl
  · funext i
    by_cases hi0 : i = 0
    · subst hi0
      simp [exitedSched, exitPrep, Sched.setState, Sched.setQueue, markReady, twoSched,
        reapedThreads, Function.update, h0s]
    · by_cases hi1 : i = 1
      · subst hi1
        simp [exitedSched, exitPrep, Sched.setState, Sched.setQueue, markReady, twoSched,
          reapedThreads, Function.update]
      · simp [exitedSched, exitPrep, Sched.setState, Sched.setQueue, markReady, twoSched,
          reapedThreads, Function.update, hi0, hi1, blankTCB]
  · rfl
  · funext i
    simp [exitedSched, exitPrep, Sched.setState, Sched.setQueue, twoSched, unlinked,
      unlinkTid, Function.update]
  · rfl
  · rfl

/-- `ThreadYield` called by thread 0 while no thread is ready and slot 1 holds
a killed thread: the reaper frees slot 1 and the call returns at once. -/
theorem two_yield0_reaps (t0 t1 : TCB) (uq : List Slot) (intr : Bool) (env : Env)
    (h1s : t1.state = State.KILLED) :
    ThreadYield (twoSched 0 t0 t1 [] uq intr) env
      = (twoSched 0 t0 { t1 with state := State.EMPTY } [] uq intr,
          Outcome.ret t0.thread_id) := by
  rw [ThreadYield_empty (twoSched 0 t0 t1 [] uq intr) env rfl]
  refine congrArg (fun x => (x, Outcome.ret t0.thread_id)) ?_
  apply sched_ext
  · rfl
  · funext i
    by_cases hi0 : i = 0
    · subst hi0
      simp [reapedSched, twoSched, reapedThreads]
    · by_cases hi1 : i = 1
      · subst hi1
        simp [reapedSched, twoSched, reapedThreads, h1s]
      · simp [reapedSched, twoSched, reapedThreads, hi0, hi1, blankTCB]
  · rfl
  · rfl
  · rfl
  · rfl

theorem zq_twice_step :
    ThreadWakeNext zqReused (.user 64) = (zqTwice, Outcome.ret 1) :=
  two_wakeNext 0 _ _ [1] [] true

theorem dup_steps :
    ThreadYieldTo zqTwice (Env.healthy 64) 1 = (dupDispatched, Outcome.switched)
      ∧ resume dupDispatched = some ⟨dupEntered, none, none⟩ :=
  ⟨two_yieldTo1_any _ _ [1, 1] [] true (Env.healthy 64) rfl rfl rfl rfl rfl,
    two_resume_entry1 _ _ _ _ false _ _ _ _ rfl⟩

theorem zq_self_steps :
    ThreadYieldTo zqReused (Env.healthy 64) 1 = (zqRedispatched, Outcome.switched)
      ∧ resume zqRedispatched = some ⟨zqReentered, none, none⟩ :=
  ⟨two_yieldTo1 _ _ [1] true (Env.healthy 64) rfl rfl rfl rfl rfl,
    two_resume_entry1 _ _ _ _ false _ _ _ _ rfl⟩

theorem two_no_running (run : Slot) (t0 t1 : TCB) (rq uq : List Slot) (intr : Bool)
    (h0 : t0.state ≠ State.RUNNING) (h1 : t1.state ≠ State.RUNNING) (i : Slot) :
    ((twoSched run t0 t1 rq uq intr).threads i).state ≠ State.RUNNING := by
  by_cases hi0 : i = 0
  · subst hi0
    exact h0
  · by_cases hi1 : i = 1
    · subst hi1
      exact h1
    · simp [twoSched, blankTCB, hi0, hi1]

/-- C4 (failing input): after `ThreadInit`, `ThreadCreate` (thread 1) and
`WaitQueueCreate`, thread 1 sleeps on the user wait queue, the bootstrap thread
kills it, creates a thread (slot 1 is used again while its TCB is still in the
user wait queue) and calls `ThreadWakeNext` on the user wait queue: the ready
queue is `[1, 1]`.  `ThreadKill(1)`, called by the bootstrap thread on the
`READY` thread 1, returns 1 and marks it `KILLED`, but unlinks only the first
of the two nodes: the killed TCB is still in the ready queue. -/
theorem C4_ThreadKill_leaves_target_in_ready_queue :
    ThreadInit bootSched (Env.healthy 64) = (bootSched, 0)
      ∧ ThreadCreate bootSched (Env.healthy 4096) 7 9 = (bootCreated, 1)
      ∧ WaitQueueCreate bootCreated (Env.healthy 64) = (bootCreated, some 64)
      ∧ ThreadYieldTo bootCreated (Env.healthy 64) 1 = (zqDispatched, Outcome.switched)
      ∧ resume zqDispatched = some ⟨zqEntered, none, none⟩
      ∧ ThreadSleep zqEntered (Env.healthy 64) (.user 64) = (zqSlept, Outcome.switched)
      ∧ resume zqSlept = some ⟨zqBack, some 1, none⟩
      ∧ ThreadKill zqBack 1 = (zqKilled, Outcome.ret 1)
      ∧ ThreadCreate zqKilled (Env.healthy 8192) 7 9 = (zqReused, 1)
      ∧ ThreadWakeNext zqReused (.user 64) = (zqTwice, Outcome.ret 1)
      ∧ zqTwice.rq = [1, 1]
      ∧ (zqTwice.threads 1).state = State.READY
      ∧ (1 : Int) ≠ (zqTwice.threads zqTwice.running_thread).thread_id
      ∧ ThreadKill zqTwice 1 = (dupKilled, Outcome.ret 1)
      ∧ (dupKilled.threads 1).state = State.KILLED
      ∧ (dupKilled.threads 1).exit_code = EXIT_CODE_KILL
      ∧ dupKilled.rq = [1]
      ∧ (1 : Slot) ∈ dupKilled.rq := by
  obtain ⟨h1, h2, h3, h4, h5, h6, h7, h8, h9⟩ := zq_steps
  refine ⟨h1, h2, h3, h4, h5, h6, h7, h8, h9, zq_twice_step, rfl, rfl, by decide, ?_, rfl, rfl,
    rfl, List.mem_singleton.mpr rfl⟩
  exact two_kill1_live _ _ [1, 1] [] true rfl rfl (Or.inl rfl)

/-- C7 (failing input): in the state of the C4 scenario in which the ready
queue is `[1, 1]`, reached from `ThreadInit` through the public operations,
the bootstrap thread calls `ThreadYieldTo(1)` on the `READY` thread 1.  The
call switches to thread 1, which is `RUNNING` and current, but only the first
of the two nodes was unlinked: the ready queue is `[1, 0]`, so the target is
still in the ready queue. -/
theorem C7_ThreadYieldTo_leaves_target_in_ready_queue :
    ThreadInit bootSched (Env.healthy 64) = (bootSched, 0)
      ∧ ThreadCreate bootSched (Env.healthy 4096) 7 9 = (bootCreated, 1)
      ∧ WaitQueueCreate bootCreated (Env.healthy 64) = (bootCreated, some 64)
      ∧ ThreadYieldTo bootCreated (Env.healthy 64) 1 = (zqDispatched, Outcome.switched)
      ∧ resume zqDispatched = some ⟨zqEntered, none, none⟩
      ∧ ThreadSleep zqEntered (Env.healthy 64) (.user 64) = (zqSlept, Outcome.switched)
      ∧ resume zqSlept = some ⟨zqBack, some 1, none⟩
      ∧ ThreadKill zqBack 1 = (zqKilled, Outcome.ret 1)
      ∧ ThreadCreate zqKilled (Env.healthy 8192) 7 9 = (zqReused, 1)
      ∧ ThreadWakeNext zqReused (.user 64) = (zqTwice, Outcome.ret 1)
      ∧ zqTwice.rq = [1, 1]
      ∧ (zqTwice.threads 1).state = State.READY
      ∧ (1 : Int) ≠ (zqTwice.threads zqTwice.running_thread).thread_id
      ∧ ThreadYieldTo zqTwice (Env.healthy 64) 1 = (dupDispatched, Outcome.switched)
      ∧ dupDispatched.running_thread = 1
      ∧ (dupDispatched.threads 1).state = State.RUNNING
      ∧ dupDispatched.rq = [1, 0]
      ∧ (1 : Slot) ∈ dupDispatched.rq := by
  obtain ⟨h1, h2, h3, h4, h5, h6, h7, h8, h9⟩ := zq_steps
  exact ⟨h1, h2, h3, h4, h5, h6, h7, h8, h9, zq_twice_step, rfl, rfl, by decide, dup_steps.1,
    rfl, rfl, rfl, List.mem_cons_self _ _⟩

/-- C8 (failing input): in the C7 scenario thread 1 runs while the ready queue
is `[1, 0]`, its own TCB at the head.  Thread 1 calls `ThreadYield`: the call
appends the caller, extracts the head, which is the caller itself, and switches
to the context it has just saved.  The call returns 1, the caller's own tid;
the caller is `RUNNING`, not `READY`, although it is the last element of the
ready queue `[0, 1]`, and it runs on before thread 0, which was ready at the
call. -/
theorem C8_ThreadYield_dispatches_caller :
    ThreadInit bootSched (Env.healthy 64) = (bootSched, 0)
      ∧ ThreadCreate bootSched (Env.healthy 4096) 7 9 = (bootCreated, 1)
      ∧ WaitQueueCreate bootCreated (Env.healthy 64) = (bootCreated, some 64)
      ∧ ThreadYieldTo bootCreated (Env.healthy 64) 1 = (zqDispatched, Outcome.switched)
      ∧ resume zqDispatched = some ⟨zqEntered, none, none⟩
      ∧ ThreadSleep zqEntered (Env.healthy 64) (.user 64) = (zqSlept, Outcome.switched)
      ∧ resume zqSlept = some ⟨zqBack, some 1, none⟩
      ∧ ThreadKill zqBack 1 = (zqKilled, Outcome.ret 1)
      ∧ ThreadCreate zqKilled (Env.healthy 8192) 7 9 = (zqReused, 1)
      ∧ ThreadWakeNext zqReused (.user 64) = (zqTwice, Outcome.ret 1)
      ∧ ThreadYieldTo zqTwice (Env.healthy 64) 1 = (dupDispatched, Outcome.switched)
      ∧ resume dupDispatched = some ⟨dupEntered, none, none⟩
      ∧ dupEntered.running_thread = 1
      ∧ dupEntered.rq = [1, 0]
      ∧ ThreadYield dupEntered (Env.healthy 64) = (dupYielded, Outcome.switched)
      ∧ resume dupYielded = some ⟨dupYieldReturned, some 1, none⟩
      ∧ dupYieldReturned.running_thread = 1
      ∧ (dupYieldReturned.threads 1).state = State.RUNNING
      ∧ (dupYieldReturned.threads 1).state ≠ State.READY
      ∧ dupYieldReturned.rq = [0, 1]
      ∧ (dupYieldReturned.threads 0).state = State.READY := by
  obtain ⟨h1, h2, h3, h4, h5, h6, h7, h8, h9⟩ := zq_steps
  refine ⟨h1, h2, h3, h4, h5, h6, h7, h8, h9, zq_twice_step, dup_steps.1, dup_steps.2, rfl,
    rfl, ?_, ?_, rfl, rfl, by decide, rfl, rfl⟩
  · exact two_yield1_self _ _ [0] [] true (Env.healthy 64) rfl rfl rfl rfl
  · exact two_resume_yield1 _ _ _ _ false 1 true rfl

/-- C16 (failing input): in the C7 scenario thread 1 runs while the ready
queue is `[1, 0]`, its own TCB at the head.  Thread 1 calls `ThreadSleep` on
the user wait queue: the call marks the caller `BLOCKED` and appends it to the
wait queue, then extracts the head of the ready queue, which is the caller
itself, marks it `RUNNING` and switches to the context it has just saved.  The
call returns 1, the caller's own tid; the caller is `RUNNING`, not `BLOCKED`,
and is in the wait queue. -/
theorem C16_ThreadSleep_dispatches_caller :
    ThreadInit bootSched (Env.healthy 64) = (bootSched, 0)
      ∧ ThreadCreate bootSched (Env.healthy 4096) 7 9 = (bootCreated, 1)
      ∧ WaitQueueCreate bootCreated (Env.healthy 64) = (bootCreated, some 64)
      ∧ ThreadYieldTo bootCreated (Env.healthy 64) 1 = (zqDispatched, Outcome.switched)
      ∧ resume zqDispatched = some ⟨zqEntered, none, none⟩
      ∧ ThreadSleep zqEntered (Env.healthy 64) (.user 64) = (zqSlept, Outcome.switched)
      ∧ resume zqSlept = some ⟨zqBack, some 1, none⟩
      ∧ ThreadKill zqBack 1 = (zqKilled, Outcome.ret 1)
      ∧ ThreadCreate zqKilled (Env.healthy 8192) 7 9 = (zqReused, 1)
      ∧ ThreadWakeNext zqReused (.user 64) = (zqTwice, Outcome.ret 1)
      ∧ ThreadYieldTo zqTwice (Env.healthy 64) 1 = (dupDispatched, Outcome.switched)
      ∧ resume dupDispatched = some ⟨dupEntered, none, none⟩
      ∧ dupEntered.running_thread = 1
      ∧ dupEntered.rq = [1, 0]
      ∧ ThreadSleep dupEntered (Env.healthy 64) (.user 64) = (dupSlept, Outcome.switched)
      ∧ resume dupSlept = some ⟨dupSleepReturned, some 1, none⟩
      ∧ dupSleepReturned.running_thread = 1
      ∧ (dupSleepReturned.threads 1).state = State.RUNNING
      ∧ (dupSleepReturned.threads 1).state ≠ State.BLOCKED
      ∧ dupSleepReturned.user_queues 64 = [1]
      ∧ dupSleepReturned.rq = [0] := by
  obtain ⟨h1, h2, h3, h4, h5, h6, h7, h8, h9⟩ := zq_steps
  refine ⟨h1, h2, h3, h4, h5, h6, h7, h8, h9, zq_twice_step, dup_steps.1, dup_steps.2, rfl,
    rfl, ?_, ?_, rfl, rfl, by decide, rfl, rfl⟩
  · exact two_sleep1_self _ _ [0] [] true (Env.healthy 64) rfl rfl rfl rfl
  · exact two_resume_sleep1 _ _ _ _ false 1 true rfl

/-- C17 (failing input): after `ThreadInit`, `ThreadCreate` (thread 1) and
`WaitQueueCreate`, thread 1 sleeps on the user wait queue, the bootstrap thread
kills it, creates a thread (slot 1 is used again while its TCB is still in the
user wait queue) and yields to it; the new thread 1 calls `ThreadWakeAll` on
the user wait queue.  The call returns 1 and marks the TCB of the calling
thread `READY`: the calling thread does not stay `RUNNING`, and no TCB has
state `RUNNING`. -/
theorem C17_ThreadWakeAll_marks_caller_ready :
    ThreadInit bootSched (Env.healthy 64) = (bootSched, 0)
      ∧ ThreadCreate bootSched (Env.healthy 4096) 7 9 = (bootCreated, 1)
      ∧ WaitQueueCreate bootCreated (Env.healthy 64) = (bootCreated, some 64)
      ∧ ThreadYieldTo bootCreated (Env.healthy 64) 1 = (zqDispatched, Outcome.switched)
      ∧ resume zqDispatched = some ⟨zqEntered, none, none⟩
      ∧ ThreadSleep zqEntered (Env.healthy 64) (.user 64) = (zqSlept, Outcome.switched)
      ∧ resume zqSlept = some ⟨zqBack, some 1, none⟩
      ∧ ThreadKill zqBack 1 = (zqKilled, Outcome.ret 1)
      ∧ ThreadCreate zqKilled (Env.healthy 8192) 7 9 = (zqReused, 1)
      ∧ ThreadYieldTo zqReused (Env.healthy 64) 1 = (zqRedispatched, Outcome.switched)
      ∧ resume zqRedispatched = some ⟨zqReentered, none, none⟩
      ∧ zqReentered.running_thread = 1
      ∧ (zqReentered.threads 1).state = State.RUNNING
      ∧ zqReentered.user_queues 64 = [1]
      ∧ ThreadWakeAll zqReentered (.user 64) = (zqSelfWoken, Outcome.ret 1)
      ∧ zqSelfWoken.running_thread = 1
      ∧ (zqSelfWoken.threads zqSelfWoken.running_thread).state = State.READY
      ∧ zqSelfWoken.rq = [0, 1]
      ∧ (∀ i : Slot, (zqSelfWoken.threads i).state ≠ State.RUNNING) := by
  obtain ⟨h1, h2, h3, h4, h5, h6, h7, h8, h9⟩ := zq_steps
  refine ⟨h1, h2, h3, h4, h5, h6, h7, h8, h9, zq_self_steps.1, zq_self_steps.2, rfl, rfl, rfl,
    ?_, rfl, rfl, rfl, ?_⟩
  · exact two_wakeAll 1 _ _ [0] true
  · exact two_no_running 1 _ _ _ _ true (by decide) (by decide)

/-- C18 (failing input): in the scenario of C17 the new thread 1 calls
`ThreadWakeNext` on the user wait queue, whose head is its own TCB.  The call
returns 1, appends the caller to the ready queue and marks it `READY`: the
calling thread's TCB is not left unchanged, and no TCB has state `RUNNING`. -/
theorem C18_ThreadWakeNext_marks_caller_ready :
    ThreadInit bootSched (Env.healthy 64) = (bootSched, 0)
      ∧ ThreadCreate bootSched (Env.healthy 4096) 7 9 = (bootCreated, 1)
      ∧ WaitQueueCreate bootCreated (Env.healthy 64) = (bootCreated, some 64)
      ∧ ThreadYieldTo bootCreated (Env.healthy 64) 1 = (zqDispatched, Outcome.switched)
      ∧ resume zqDispatched = some ⟨zqEntered, none, none⟩
      ∧ ThreadSleep zqEntered (Env.healthy 64) (.user 64) = (zqSlept, Outcome.switched)
      ∧ resume zqSlept = some ⟨zqBack, some 1, none⟩
      ∧ ThreadKill zqBack 1 = (zqKilled, Outcome.ret 1)
      ∧ ThreadCreate zqKilled (Env.healthy 8192) 7 9 = (zqReused, 1)
      ∧ ThreadYieldTo zqReused (Env.healthy 64) 1 = (zqRedispatched, Outcome.switched)
      ∧ resume zqRedispatched = some ⟨zqReentered, none, none⟩
      ∧ zqReentered.running_thread = 1
      ∧ (zqReentered.threads 1).state = State.RUNNING
      ∧ zqReentered.user_queues 64 = [1]
      ∧ ThreadWakeNext zqReentered (.user 64) = (zqSelfWoken, Outcome.ret 1)
      ∧ zqSelfWoken.running_thread = 1
      ∧ zqSelfWoken.threads 1 ≠ zqReentered.threads 1
      ∧ (zqSelfWoken.threads 1).state = State.READY
      ∧ zqSelfWoken.rq = [0, 1]
      ∧ (∀ i : Slot, (zqSelfWoken.threads i).state ≠ State.RUNNING) := by
  obtain ⟨h1, h2, h3, h4, h5, h6, h7, h8, h9⟩ := zq_steps
  refine ⟨h1, h2, h3, h4, h5, h6, h7, h8, h9, zq_self_steps.1, zq_self_steps.2, rfl, rfl, rfl,
    ?_, rfl, ?_, rfl, rfl, ?_⟩
  · exact two_wakeNext 1 _ _ [0] [] true
  · intro h
    have h2 := congrArg TCB.state h
    exact absurd h2 (by decide)
  · exact two_no_running 1 _ _ _ _ true (by decide) (by decide)

/-- C15 (failing input): in the scenario of C18 thread 1 runs while its TCB is
in the ready queue `[0, 1]`.  Thread 1 calls `ThreadExit(5)`: the call stores
5, marks the caller `EXITED` and dispatches thread 0, the head of the ready
queue; the `EXITED` caller is still in the ready queue, which is `[1]`. -/
theorem C15_ThreadExit_leaves_caller_in_ready_queue :
    ThreadInit bootSched (Env.healthy 64) = (bootSched, 0)
      ∧ ThreadCreate bootSched (Env.healthy 4096) 7 9 = (bootCreated, 1)
      ∧ WaitQueueCreate bootCreated (Env.healthy 64) = (bootCreated, some 64)
      ∧ ThreadYieldTo bootCreated (Env.healthy 64) 1 = (zqDispatched, Outcome.switched)
      ∧ resume zqDispatched = some ⟨zqEntered, none, none⟩
      ∧ ThreadSleep zqEntered (Env.healthy 64) (.user 64) = (zqSlept, Outcome.switched)
      ∧ resume zqSlept = some ⟨zqBack, some 1, none⟩
      ∧ ThreadKill zqBack 1 = (zqKilled, Outcome.ret 1)
      ∧ ThreadCreate zqKilled (Env.healthy 8192) 7 9 = (zqReused, 1)
      ∧ ThreadYieldTo zqReused (Env.healthy 64) 1 = (zqRedispatched, Outcome.switched)
      ∧ resume zqRedispatched = some ⟨zqReentered, none, none⟩
      ∧ ThreadWakeNext zqReentered (.user 64) = (zqSelfWoken, Outcome.ret 1)
      ∧ zqSelfWoken.running_thread = 1
      ∧ zqSelfWoken.rq = [0, 1]
      ∧ ThreadExit zqSelfWoken (Env.healthy 64) 5 = (zqSelfExited, Outcome.switched)
      ∧ zqSelfExited.running_thread = 0
      ∧ (zqSelfExited.threads 0).state = State.RUNNING
      ∧ (zqSelfExited.threads 1).state = State.EXITED
      ∧ (zqSelfExited.threads 1).exit_code = 5
      ∧ zqSelfExited.rq = [1]
      ∧ ¬ zqSelfExited.Unqueued 1 := by
  obtain ⟨h1, h2, h3, h4, h5, h6, h7, h8, h9⟩ := zq_steps
  refine ⟨h1, h2, h3, h4, h5, h6, h7, h8, h9, zq_self_steps.1, zq_self_steps.2, ?_, rfl, rfl,
    ?_, rfl, rfl, rfl, rfl, rfl, ?_⟩
  · exact two_wakeNext 1 _ _ [0] [] true
  · exact two_exit1_any _ _ [1] [] true (Env.healthy 64) 5 rfl rfl rfl
  · intro h
    exact h.1 (List.mem_singleton.mpr rfl)

/-- C28 (failing input): after `ThreadInit`, `ThreadCreate` (thread 1, stack at
4096) and `WaitQueueCreate`, thread 1 sleeps on the user wait queue and the
bootstrap thread kills it.  The bootstrap thread calls `ThreadYield`, whose
reaper frees the stack of slot 1 and sets the slot to `EMPTY`; then
`ThreadWakeNext` on the user wait queue, which still holds the TCB and marks it
`READY`; then `ThreadKill(1)`, which returns 1; then `ThreadYield` again,
whose reaper frees the stack of slot 1 a second time.  No `ThreadCreate` ran
in between: the slot is reaped twice in one lifetime, with the same stack
pointer. -/
theorem C28_slot_reaped_twice :
    ThreadInit bootSched (Env.healthy 64) = (bootSched, 0)
      ∧ ThreadCreate bootSched (Env.healthy 4096) 7 9 = (bootCreated, 1)
      ∧ WaitQueueCreate bootCreated (Env.healthy 64) = (bootCreated, some 64)
      ∧ ThreadYieldTo bootCreated (Env.healthy 64) 1 = (zqDispatched, Outcome.switched)
      ∧ resume zqDispatched = some ⟨zqEntered, none, none⟩
      ∧ ThreadSleep zqEntered (Env.healthy 64) (.user 64) = (zqSlept, Outcome.switched)
      ∧ resume zqSlept = some ⟨zqBack, some 1, none⟩
      ∧ ThreadKill zqBack 1 = (zqKilled, Outcome.ret 1)
      ∧ reaperFrees zqKilled 1
      ∧ ((free_exited_threads zqKilled).threads 1).state = State.EMPTY
      ∧ ThreadYield zqKilled (Env.healthy 64) = (zqReaped, Outcome.ret 0)
      ∧ (zqReaped.threads 1).state = State.EMPTY
      ∧ ThreadWakeNext zqReaped (.user 64) = (zqRevived, Outcome.ret 1)
      ∧ (zqRevived.threads 1).state = State.READY
      ∧ ThreadKill zqRevived 1 = (zqRekilled, Outcome.ret 1)
      ∧ reaperFrees zqRekilled 1
      ∧ ((free_exited_threads zqRekilled).threads 1).state = State.EMPTY
      ∧ ThreadYield zqRekilled (Env.healthy 64) = (zqRereaped, Outcome.ret 0)
      ∧ (zqRereaped.threads 1).state = State.EMPTY
      ∧ (zqKilled.threads 1).sp = some 4096
      ∧ (zqRekilled.threads 1).sp = some 4096 := by
  obtain ⟨h1, h2, h3, h4, h5, h6, h7, h8, _⟩ := zq_steps
  have hk1 : reaperFrees zqKilled 1 := ⟨Or.inr rfl, by decide⟩
  have hk2 : reaperFrees zqRekilled 1 := ⟨Or.inr rfl, by decide⟩
  refine ⟨h1, h2, h3, h4, h5, h6, h7, h8, hk1, ?_, ?_, rfl, ?_, rfl, ?_, hk2, ?_, ?_, rfl,
    rfl, rfl⟩
  · rw [free_exited_threads_eq]
    exact reapedThreads_zombie zqKilled 1 hk1.1 hk1.2
  · exact two_yield0_reaps _ _ [1] true (Env.healthy 64) rfl
  · exact two_wakeNext 0 _ _ [] [] true
  · exact two_kill1_live _ _ [1] [] true rfl rfl (Or.inl rfl)
  · rw [free_exited_threads_eq]
    exact reapedThreads_zombie zqRekilled 1 hk2.1 hk2.2
  · exact two_yield0_reaps _ _ [] true (Env.healthy 64) rfl

end ThreadLib
